import Mathlib

/-!
# Rotation thread of the session daemon

A shallow embedding of `src/bin/lttng-sessiond/rotation-thread.cpp`: the job
queue shared between the timer thread and the rotation thread, the drain of
that queue, and the pending-rotation check that a `CHECK_PENDING_ROTATION` job
performs on a session.  The decoder of the fields of UST events,
`src/bin/lttng-sessiond/ust-field-convert.cpp`, is embedded in a section of its
own.

Pointers to sessions are addresses (`Nat`); a job stores `Option Nat`, `none`
being the `NULL` pointer.  Every call into a collaborator that lives outside
the file (allocator, wake-up pipe, timers, consumer daemons, notification
thread, rotation command) is answered by an `Env` and recorded in a log; the
answers may depend on the whole history, so successive calls are unconstrained.
-/

namespace LttngRotation

/-! ## Data model -/

/-- The two kinds of job of `enum rotation_thread_job_type`. -/
inductive rotation_thread_job_type
  | CHECK_PENDING_ROTATION
  | SCHEDULED_ROTATION
  deriving DecidableEq, Repr

/-- The rotation states of `enum lttng_rotation_state`. -/
inductive lttng_rotation_state
  | NO_ROTATION
  | ONGOING
  | COMPLETED
  | EXPIRED
  | ERROR
  deriving DecidableEq, Repr

/-- A trace chunk, of which the rotation thread reads the id
(`lttng_trace_chunk_get_id`) and the name (`lttng_trace_chunk_get_name`). -/
structure lttng_trace_chunk where
  id : Nat
  name : String
  deriving DecidableEq, Repr

/-- Destination of a consumer output: the checker tests
`type == CONSUMER_DST_LOCAL`; any other output is network-addressed. -/
inductive consumer_dst_type
  | CONSUMER_DST_LOCAL
  | CONSUMER_DST_NET
  deriving DecidableEq, Repr

/-- A consumer socket, identified by its descriptor. -/
structure consumer_socket where
  fd : Nat
  deriving DecidableEq, Repr

/-- The fields of `struct consumer_output` that the checker reads; `socks` lists
the sockets of `socks->ht` in the order `cds_lfht_for_each_entry` visits them. -/
structure consumer_output where
  type : consumer_dst_type
  net_seq_index : Nat
  socks : List consumer_socket
  deriving DecidableEq, Repr

/-- The user-space domain of a session (`struct ltt_ust_session`). -/
structure ltt_ust_session where
  consumer : consumer_output
  deriving DecidableEq, Repr

/-- The kernel domain of a session (`struct ltt_kernel_session`). -/
structure ltt_kernel_session where
  consumer : consumer_output
  deriving DecidableEq, Repr

/-- Answer of a consumer daemon to `consumer_trace_chunk_exists`.  The enum is
declared outside this file; the checker compares the answer with
`CONSUMER_TRACE_CHUNK_EXISTS_STATUS_UNKNOWN_CHUNK` only, and takes every other
enumerator to mean that the chunk exists on the peer
(`chunk_exists_on_peer = true`).  Those enumerators are kept apart by their
number. -/
inductive consumer_trace_chunk_exists_status
  | UNKNOWN_CHUNK
  | EXISTS (enumerator : Nat)
  deriving DecidableEq, Repr

/-- A trigger registered with the notification thread, identified by its
contents. -/
structure lttng_trigger where
  id : Nat
  deriving DecidableEq, Repr

/-- The fields of `struct ltt_session` that the rotation thread reads or
writes.  `rotate_size` is a `uint64_t`; `rotate_trigger` is `none` when the
pointer is `NULL`. -/
structure ltt_session where
  id : Nat
  rotation_state : lttng_rotation_state
  chunk_being_archived : Option lttng_trace_chunk
  last_archived_chunk_id : Option Nat
  last_archived_chunk_name : Option String
  quiet_rotation : Bool
  ust_session : Option ltt_ust_session
  kernel_session : Option ltt_kernel_session
  rotate_size : Nat
  rotate_trigger : Option lttng_trigger
  deriving DecidableEq, Repr

/-- The type of the condition of a notification: `handle_condition` accepts
`LTTNG_CONDITION_TYPE_SESSION_CONSUMED_SIZE` only. -/
inductive lttng_condition_type
  | SESSION_CONSUMED_SIZE
  | OTHER (enumerator : Nat)
  deriving DecidableEq, Repr

/-- A notification as `handle_condition` reads it: the type of its condition,
the session name of the condition (`none` when
`lttng_condition_session_consumed_size_get_session_name` does not return
`LTTNG_CONDITION_STATUS_OK`), the consumed size of its evaluation, a
`uint64_t` (`none` when
`lttng_evaluation_session_consumed_size_get_consumed_size` does not return
`LTTNG_EVALUATION_STATUS_OK`), and its trigger. -/
structure lttng_notification where
  condition_type : lttng_condition_type
  session_name : Option String
  consumed_size : Option Nat
  trigger : lttng_trigger
  deriving DecidableEq, Repr

/-- Status of the notification channel
(`enum lttng_notification_channel_status`), of which the rotation thread names
`OK`, `NOTIFICATIONS_DROPPED` and `CLOSED`. -/
inductive lttng_notification_channel_status
  | OK
  | NOTIFICATIONS_DROPPED
  | CLOSED
  | OTHER (enumerator : Int)
  deriving DecidableEq, Repr

/-- Outcome of `lttng_notification_channel_get_next_notification`: the status
and, when the status is `OK`, the notification received. -/
inductive next_notification
  | OK (notification : lttng_notification)
  | NOTIFICATIONS_DROPPED
  | CLOSED
  | OTHER (enumerator : Int)
  deriving DecidableEq, Repr

/-- A queued job (`struct rotation_thread_job`): its type and the session
pointer it holds a reference on. -/
structure rotation_thread_job where
  type : rotation_thread_job_type
  session : Option Nat
  deriving DecidableEq, Repr

/-- The job queue (`struct rotation_thread_timer_queue`): the number of bytes
waiting in the wake-up pipe and the list of jobs, head first. -/
structure rotation_thread_timer_queue where
  event_pipe : Nat
  list : List rotation_thread_job
  deriving DecidableEq, Repr

/-- Outcome of the one-byte `lttng_write` on the wake-up pipe: the byte was
written, or the call returned a negative value with `errno` set to `EAGAIN`
(pipe full) or to another error. -/
inductive lttng_write_result
  | written
  | eagain
  | failed (errno : Nat)
  deriving DecidableEq, Repr

/-- The number of bytes that reach the pipe: one when the write succeeded, none
when it returned a negative value. -/
def lttng_write_result.bytes : lttng_write_result → Nat
  | lttng_write_result.written => 1
  | lttng_write_result.eagain => 0
  | lttng_write_result.failed _ => 0

/-- Argument of `cmd_rotate_session`; the rotation thread always passes
`MOVE_TO_COMPLETED`. -/
inductive lttng_trace_chunk_command_type
  | MOVE_TO_COMPLETED
  | OTHER (enumerator : Nat)
  deriving DecidableEq, Repr

/-- One interaction with a collaborator. -/
inductive Event
  | zmalloc (ok : Bool)
  | session_get (session : Nat)
  | session_put (session : Option Nat)
  | lttng_write (result : lttng_write_result)
  | timer_stop (session_id : Nat) (ret : Int)
  | timer_start (session_id : Nat) (interval : Nat) (ret : Int)
  | chunk_exists (socket : consumer_socket) (relayd_id : Nat) (session_id : Nat)
      (chunk : Option lttng_trace_chunk) (ret : Int)
      (status : consumer_trace_chunk_exists_status)
  | strdup (ok : Bool)
  | rotation_completed (session_id : Nat) (chunk_id : Nat) (location : Nat) (ret : Int)
  | cmd_rotate_session (session_id : Nat) (quiet_rotation : Bool)
      (command : lttng_trace_chunk_command_type) (ret : Int)
  | session_find_by_name (name : String) (session : Option Nat)
  | unsubscribe (session_id : Nat) (ret : Int)
  | subscribe (session_id : Nat) (size : Nat) (ret : Int)
  | has_pending_notification (status : lttng_notification_channel_status) (pending : Bool)
  | get_next_notification (next : next_notification)
  | lttng_read (ret : Int)
  deriving DecidableEq, Repr

/-- The collaborators of the rotation thread.  Each answer may depend on the
log of everything that happened before the call. -/
structure Env where
  zmalloc : List Event → Bool
  lttng_write : List Event → lttng_write_result
  timer_session_rotation_pending_check_stop : List Event → ltt_session → Int
  timer_session_rotation_pending_check_start : List Event → ltt_session → Nat → Int
  consumer_trace_chunk_exists : List Event → consumer_socket → Nat → Nat →
    Option lttng_trace_chunk → Int × consumer_trace_chunk_exists_status
  strdup : List Event → Bool
  session_get_trace_archive_location : ltt_session → Nat
  notification_thread_command_session_rotation_completed :
    List Event → Nat → Nat → Nat → Int
  cmd_rotate_session : List Event → ltt_session → Bool →
    lttng_trace_chunk_command_type → Int × ltt_session
  DEFAULT_ROTATE_PENDING_TIMER : Nat
  session_find_by_name : List Event → String → Option Nat
  unsubscribe_session_consumed_size_rotation : List Event → ltt_session → Int × ltt_session
  subscribe_session_consumed_size_rotation :
    List Event → ltt_session → Nat → Int × ltt_session
  LTTNG_OK : Int
  LTTNG_ERR_ROTATION_PENDING : Int
  LTTNG_ERR_ROTATION_MULTIPLE_AFTER_STOP : Int
  LTTNG_ERR_ROTATION_AFTER_STOP_CLEAR : Int
  lttng_notification_channel_has_pending_notification :
    List Event → lttng_notification_channel_status × Bool
  lttng_notification_channel_get_next_notification : List Event → next_notification
  lttng_read : List Event → Int

/-- The state the rotation thread works on: the job queue, the reference count
of every session, the sessions themselves (by address), the log, and the jobs
that `run_job` has executed so far, each with the value it returned. -/
structure World where
  queue : rotation_thread_timer_queue
  refs : Nat → Int
  sessions : Nat → ltt_session
  log : List Event
  executed : List (rotation_thread_job × Int)

/-! ## Session references -/

/-- Modelled from the spec: `session_get` is defined in `session.cpp`, outside
this file.  §5: every enqueue increments exactly one reference of the
session. -/
def session_get (session : Nat) (w : World) : World :=
  { w with
    refs := Function.update w.refs session (w.refs session + 1)
    log := w.log ++ [Event.session_get session] }

/-- Modelled from the spec: `session_put` is defined in `session.cpp`, outside
this file.  §5: every dequeue path decrements exactly one reference of the
job's session; a `NULL` session has no count to decrement. -/
def session_put (session : Option Nat) (w : World) : World :=
  { w with
    refs := match session with
      | none => w.refs
      | some s => Function.update w.refs s (w.refs s - 1)
    log := w.log ++ [Event.session_put session] }

/-! ## The job queue -/

/-- `timer_job_exists`: does the queue hold a job of this type for this
session? -/
def timer_job_exists (queue : rotation_thread_timer_queue)
    (job_type : rotation_thread_job_type) (session : Nat) : Bool :=
  queue.list.any fun job => decide (job.session = some session ∧ job.type = job_type)

/-- `rotation_thread_enqueue_job`.  The caller holds a reference on `session`,
which is therefore not `NULL`. -/
def rotation_thread_enqueue_job (env : Env) (job_type : rotation_thread_job_type)
    (session : Nat) (w : World) : World :=
  if timer_job_exists w.queue job_type session then
    -- This timer job is already pending.
    w
  else
    let ok := env.zmalloc w.log
    let w := { w with log := w.log ++ [Event.zmalloc ok] }
    if !ok then
      w
    else
      let w := session_get session w
      let w := { w with
        queue := { w.queue with list := w.queue.list ++ [rotation_thread_job.mk job_type (some session)] } }
      let ret := env.lttng_write w.log
      -- A failed write is logged (pipe full, or another error); the job stays queued.
      { w with
        queue := { w.queue with event_pipe := w.queue.event_pipe + ret.bytes }
        log := w.log ++ [Event.lttng_write ret] }

/-! ## The pending-rotation check -/

/-- Modelled from the spec: `session_reset_rotation_state` is defined in
`session.cpp`, outside this file.  §4.4 and §3: the rotation state becomes
`result` and `chunk_being_archived` is cleared, the id of the cleared chunk
being kept as `last_archived_chunk_id` (it is the chunk id that the completion
event carries).  Its return code is only logged by the callers. -/
def session_reset_rotation_state (session : ltt_session)
    (result : lttng_rotation_state) : ltt_session :=
  { session with
    rotation_state := result
    last_archived_chunk_id :=
      match session.chunk_being_archived with
      | some chunk => some chunk.id
      | none => session.last_archived_chunk_id
    chunk_being_archived := none }

/-- The routing identifier passed to `consumer_trace_chunk_exists`: `-1ULL` for
a local output, `net_seq_index` otherwise. -/
def relayd_id (consumer : consumer_output) : Nat :=
  if consumer.type = consumer_dst_type.CONSUMER_DST_LOCAL then 2 ^ 64 - 1
  else consumer.net_seq_index

/-- What a scan of consumer sockets leaves behind: the last return code `ret`,
the flag `chunk_exists_on_peer` and the log. -/
structure scan_state where
  ret : Int
  chunk_exists_on_peer : Bool
  log : List Event

/-- One `cds_lfht_for_each_entry` loop of
`check_session_rotation_pending_on_consumers` over the sockets of a consumer
output.  The loop is left (`goto end`) at the first query that fails or that
answers anything but `UNKNOWN_CHUNK`. -/
def scan_consumer_sockets (env : Env) (session : ltt_session) (consumer : consumer_output) :
    List consumer_socket → List Event → scan_state
  | [], log => { ret := 0, chunk_exists_on_peer := false, log := log }
  | socket :: rest, log =>
    let answer := env.consumer_trace_chunk_exists log socket (relayd_id consumer)
      session.id session.chunk_being_archived
    let log := log ++ [Event.chunk_exists socket (relayd_id consumer) session.id
      session.chunk_being_archived answer.1 answer.2]
    if answer.1 ≠ 0 then
      { ret := answer.1, chunk_exists_on_peer := false, log := log }
    else if answer.2 ≠ consumer_trace_chunk_exists_status.UNKNOWN_CHUNK then
      { ret := answer.1, chunk_exists_on_peer := true, log := log }
    else
      scan_consumer_sockets env session consumer rest log

/-- The first loop of `check_session_rotation_pending_on_consumers`: the sockets
of the user-space domain, skipped (`goto skip_ust`) when the session has no
user-space domain. -/
def scan_ust_consumers (env : Env) (session : ltt_session) (log : List Event) : scan_state :=
  match session.ust_session with
  | none => { ret := 0, chunk_exists_on_peer := false, log := log }
  | some ust_session =>
    scan_consumer_sockets env session ust_session.consumer ust_session.consumer.socks log

/-- The second loop of `check_session_rotation_pending_on_consumers`: the
sockets of the kernel domain, skipped (`goto skip_kernel`) when the session has
no kernel domain. -/
def scan_kernel_consumers (env : Env) (session : ltt_session) (log : List Event) :
    scan_state :=
  match session.kernel_session with
  | none => { ret := 0, chunk_exists_on_peer := false, log := log }
  | some kernel_session =>
    scan_consumer_sockets env session kernel_session.consumer
      kernel_session.consumer.socks log

/-- The part of `check_session_rotation_pending_on_consumers` between
`rcu_read_lock` and `rcu_read_unlock`: the user-space sockets, then, unless
the first loop jumped to `end`, the kernel sockets. -/
def scan_consumers (env : Env) (session : ltt_session) (log : List Event) : scan_state :=
  let ust := scan_ust_consumers env session log
  if ust.ret ≠ 0 ∨ ust.chunk_exists_on_peer = true then
    ust
  else
    scan_kernel_consumers env session ust.log

/-- `check_session_rotation_pending_on_consumers`; the result is
`(*_rotation_completed, session, log)`.  The function asserts that
`session->chunk_being_archived` is set. -/
def check_session_rotation_pending_on_consumers (env : Env) (session : ltt_session)
    (log : List Event) : Bool × ltt_session × List Event :=
  let scan := scan_consumers env session log
  let rotation_completed := !scan.chunk_exists_on_peer
  if scan.ret ≠ 0 then
    (rotation_completed,
      session_reset_rotation_state session lttng_rotation_state.ERROR, scan.log)
  else
    (rotation_completed, session, scan.log)

/-- The tail of `check_session_rotation_pending` from the label
`check_ongoing_rotation`, entered with the current value of `ret`. -/
def check_ongoing_rotation (env : Env) (ret : Int) (session : ltt_session)
    (log : List Event) : Int × ltt_session × List Event :=
  if session.rotation_state = lttng_rotation_state.ONGOING then
    let started := env.timer_session_rotation_pending_check_start log session
      env.DEFAULT_ROTATE_PENDING_TIMER
    let log := log ++ [Event.timer_start session.id env.DEFAULT_ROTATE_PENDING_TIMER started]
    if started ≠ 0 then (-1, session, log) else (started, session, log)
  else
    (ret, session, log)

/-- The call `notification_thread_command_session_rotation_completed` for
`session`, with the location that `session_get_trace_archive_location` gives
and the value of `last_archived_chunk_id`. -/
def rotation_completed_event (env : Env) (session : ltt_session) (log : List Event) : Event :=
  let location := env.session_get_trace_archive_location session
  let chunk_id := session.last_archived_chunk_id.getD 0
  Event.rotation_completed session.id chunk_id location
    (env.notification_thread_command_session_rotation_completed log
      session.id chunk_id location)

/-- The part of `check_session_rotation_pending` that clears the "ONGOING"
state once the rotation is complete on all consumers: the name of the archived
chunk is duplicated into `last_archived_chunk_name` (which stays `NULL` when
`strdup` fails), the rotation state is reset to `COMPLETED` and, unless the
session rotates quietly, the notification thread is told.  The result is
`(session, log)`. -/
def complete_rotation (env : Env) (session : ltt_session) (log : List Event) :
    ltt_session × List Event :=
  let archived_chunk_name := session.chunk_being_archived.map lttng_trace_chunk.name
  let duplicated := env.strdup log
  let log := log ++ [Event.strdup duplicated]
  let session := { session with
    last_archived_chunk_name := if duplicated then archived_chunk_name else none }
  let session := session_reset_rotation_state session lttng_rotation_state.COMPLETED
  let log :=
    if !session.quiet_rotation then log ++ [rotation_completed_event env session log]
    else log
  (session, log)

/-- `check_session_rotation_pending`, called with the session lock held; the
result is `(ret, session, log)`. -/
def check_session_rotation_pending (env : Env) (session : ltt_session)
    (log : List Event) : Int × ltt_session × List Event :=
  match session.chunk_being_archived with
  | none => (0, session, log)
  | some _ =>
    let ret := env.timer_session_rotation_pending_check_stop log session
    let log := log ++ [Event.timer_stop session.id ret]
    if ret ≠ 0 then
      check_ongoing_rotation env ret session log
    else
      let checked := check_session_rotation_pending_on_consumers env session log
      let rotation_completed := checked.1
      let session := checked.2.1
      let log := checked.2.2
      if !rotation_completed || session.rotation_state = lttng_rotation_state.ERROR then
        check_ongoing_rotation env ret session log
      else
        let completed := complete_rotation env session log
        check_ongoing_rotation env 0 completed.1 completed.2

/-! ## Running jobs -/

/-- `launch_session_rotation`, called with the session and session list locks
held. -/
def launch_session_rotation (env : Env) (session : ltt_session) (log : List Event) :
    Int × ltt_session × List Event :=
  let rotated := env.cmd_rotate_session log session false
    lttng_trace_chunk_command_type.MOVE_TO_COMPLETED
  -- Don't consider errors as fatal.
  (0, rotated.2, log ++ [Event.cmd_rotate_session session.id false
    lttng_trace_chunk_command_type.MOVE_TO_COMPLETED rotated.1])

/-- `run_job`: dispatch on the type of the job. -/
def run_job (env : Env) (job : rotation_thread_job) (session : ltt_session)
    (log : List Event) : Int × ltt_session × List Event :=
  match job.type with
  | rotation_thread_job_type.SCHEDULED_ROTATION => launch_session_rotation env session log
  | rotation_thread_job_type.CHECK_PENDING_ROTATION =>
    check_session_rotation_pending env session log

/-- One turn of the loop of `handle_job_queue`, for the job `job` popped from
the head of the queue, `rest` being the jobs left in the queue.  A job without
a session is freed (the loop continues, `ret` still being zero); a job with a
session is run on it with the session locked; in both cases the reference of
the job is released.  The result is `(ret, world)`. -/
def handle_job (env : Env) (job : rotation_thread_job) (rest : List rotation_thread_job)
    (w : World) : Int × World :=
  let w := { w with queue := { w.queue with list := rest } }
  match job.session with
  | none => (0, session_put none w)
  | some session =>
    let ran := run_job env job (w.sessions session) w.log
    let w := { w with
      sessions := Function.update w.sessions session ran.2.1
      log := ran.2.2
      executed := w.executed ++ [(job, ran.1)] }
    (ran.1, session_put (some session) w)

/-- The loop of `handle_job_queue` on the jobs `jobs` of the queue, head
first: the head is popped and handled until the queue is empty or a job
returns non-zero. -/
def handle_job_queue_loop (env : Env) : List rotation_thread_job → World → Int × World
  | [], w => (0, { w with queue := { w.queue with list := [] } })
  | job :: rest, w =>
    let handled := handle_job env job rest w
    if handled.1 ≠ 0 then handled else handle_job_queue_loop env rest handled.2

/-- `handle_job_queue`: drain the queue; the result is `(ret, world)`. -/
def handle_job_queue (env : Env) (w : World) : Int × World :=
  handle_job_queue_loop env w.queue.list w

/-! ## The locks of the drain -/

/-- A step of `handle_job_queue` that takes or releases a lock, or that is
made under a lock: `pthread_mutex_lock(&queue->lock)` and its unlock, the
removal of the first job from the list, `session_lock_list`,
`session_unlock_list`, `session_lock`, `session_unlock`, `run_job`,
`session_put` and `free`. -/
inductive lock_op
  | queue_lock
  | queue_unlock
  | cds_list_del (job : rotation_thread_job)
  | session_lock_list
  | session_unlock_list
  | session_lock (session : Nat)
  | session_unlock (session : Nat)
  | run_job (job : rotation_thread_job)
  | session_put (session : Option Nat)
  | free (job : rotation_thread_job)
  deriving DecidableEq, Repr

/-- The steps of one turn of the loop of `handle_job_queue` on the job `job`
at the head of the queue, in the order of the source: the pop under the queue
lock, then, under the session list lock, either the discard of a job without
a session or the run of the job under the lock of its session. -/
def handle_job_steps (job : rotation_thread_job) : List lock_op :=
  [lock_op.queue_lock, lock_op.cds_list_del job, lock_op.queue_unlock,
    lock_op.session_lock_list] ++
  match job.session with
  | none => [lock_op.free job, lock_op.session_put none, lock_op.session_unlock_list]
  | some session =>
    [lock_op.session_lock session, lock_op.run_job job, lock_op.session_unlock session,
      lock_op.session_put (some session), lock_op.session_unlock_list, lock_op.free job]

/-- The steps of `handle_job_queue` on the jobs `jobs` of the queue: the turns
of the loop, which ends on an empty queue (found under the queue lock) or
after a job that returned non-zero. -/
def handle_job_queue_steps (env : Env) : List rotation_thread_job → World → List lock_op
  | [], _ => [lock_op.queue_lock, lock_op.queue_unlock]
  | job :: rest, w =>
    handle_job_steps job ++
      if (handle_job env job rest w).1 ≠ 0 then []
      else handle_job_queue_steps env rest (handle_job env job rest w).2

/-- The locks that the rotation thread holds: the queue lock, the session
list lock, and the lock of at most one session. -/
structure held_locks where
  queue : Bool
  session_list : Bool
  session : Option Nat
  deriving DecidableEq, Repr

/-- The effect of a step on the locks held, or `none` when the step breaks the
discipline: the queue lock is held for the removal of a job and for nothing
else; a job is removed only when no lock of the job before is still held; the
lock of a session is taken only under the session list lock; a job runs under
the session list lock and the lock of its session; no lock is taken twice or
released without being held. -/
def held_locks.step (held : held_locks) : lock_op → Option held_locks
  | lock_op.queue_lock =>
    if held.queue = false then some { held with queue := true } else none
  | lock_op.queue_unlock =>
    if held.queue = true then some { held with queue := false } else none
  | lock_op.cds_list_del _ =>
    if held.queue = true ∧ held.session_list = false ∧ held.session = none then some held
    else none
  | lock_op.session_lock_list =>
    if held.queue = false ∧ held.session_list = false then
      some { held with session_list := true }
    else none
  | lock_op.session_unlock_list =>
    if held.queue = false ∧ held.session_list = true then
      some { held with session_list := false }
    else none
  | lock_op.session_lock session =>
    if held.queue = false ∧ held.session_list = true ∧ held.session = none then
      some { held with session := some session }
    else none
  | lock_op.session_unlock session =>
    if held.queue = false ∧ held.session = some session then
      some { held with session := none }
    else none
  | lock_op.run_job job =>
    if held.queue = false ∧ held.session_list = true ∧ held.session ≠ none ∧
        held.session = job.session then some held
    else none
  | lock_op.session_put _ => if held.queue = false then some held else none
  | lock_op.free _ => if held.queue = false then some held else none

/-- The locks held after a sequence of steps, or `none` when one of the steps
breaks the discipline. -/
def lock_discipline : held_locks → List lock_op → Option held_locks
  | held, [] => some held
  | held, op :: ops =>
    match held.step op with
    | none => none
    | some next => lock_discipline next ops

/-- No lock held. -/
def no_locks : held_locks :=
  { queue := false, session_list := false, session := none }

/-- The job that a step runs, when the step is `run_job`. -/
def lock_op.ran : lock_op → Option rotation_thread_job
  | lock_op.run_job job => some job
  | _ => none

/-! ## Size-based rotation -/

/-- Modelled from the spec: `session_find_by_name` is defined in `session.cpp`,
outside this file.  §4.6 and §5: the name is resolved to a session, or to
nothing when the session was destroyed; the session found is returned with a
reference, the one that `handle_condition` releases at `end_unlock`. -/
def session_find_by_name (env : Env) (name : String) (w : World) : Option Nat × World :=
  let found := env.session_find_by_name w.log name
  let w := { w with log := w.log ++ [Event.session_find_by_name name found] }
  match found with
  | none => (none, w)
  | some session => (some session, session_get session w)

/-- Modelled from the spec: `lttng_trigger_is_equal` is defined in the trigger
library, outside this file.  §4.6: the trigger of the notification is the one
that the session registered; a session without a trigger registered none. -/
def lttng_trigger_is_equal (a : Option lttng_trigger) (b : lttng_trigger) : Bool :=
  decide (a = some b)

/-- The `switch` of `handle_condition` on the value of `cmd_rotate_session`:
`LTTNG_OK`, `-LTTNG_ERR_ROTATION_PENDING`,
`-LTTNG_ERR_ROTATION_MULTIPLE_AFTER_STOP` and
`-LTTNG_ERR_ROTATION_AFTER_STOP_CLEAR` leave the `switch` by `break`; every
other value is an error. -/
def rotation_outcome_expected (env : Env) (ret : Int) : Bool :=
  decide (ret = env.LTTNG_OK) || decide (ret = -env.LTTNG_ERR_ROTATION_PENDING) ||
    decide (ret = -env.LTTNG_ERR_ROTATION_MULTIPLE_AFTER_STOP) ||
    decide (ret = -env.LTTNG_ERR_ROTATION_AFTER_STOP_CLEAR)

/-- The size at which `handle_condition` subscribes again:
`consumed + session->rotate_size`, a sum of two `uint64_t`. -/
def new_threshold (consumed rotate_size : Nat) : Nat :=
  (consumed + rotate_size) % 2 ^ 64

/-- The part of `handle_condition` that runs with the session locked, from the
comparison of the triggers to the label `end_unlock`; the result is
`(ret, session, log)`. -/
def handle_condition_locked (env : Env) (notification : lttng_notification)
    (consumed : Nat) (session : ltt_session) (log : List Event) :
    Int × ltt_session × List Event :=
  if !lttng_trigger_is_equal session.rotate_trigger notification.trigger then
    -- Notification does not originate from our rotation trigger.
    (0, session, log)
  else
    let unsubscribed := env.unsubscribe_session_consumed_size_rotation log session
    let log := log ++ [Event.unsubscribe session.id unsubscribed.1]
    if unsubscribed.1 ≠ 0 then
      (unsubscribed.1, unsubscribed.2, log)
    else
      let rotated := env.cmd_rotate_session log unsubscribed.2 false
        lttng_trace_chunk_command_type.MOVE_TO_COMPLETED
      let log := log ++ [Event.cmd_rotate_session unsubscribed.2.id false
        lttng_trace_chunk_command_type.MOVE_TO_COMPLETED rotated.1]
      if !rotation_outcome_expected env rotated.1 then
        (-1, rotated.2, log)
      else
        let size := new_threshold consumed rotated.2.rotate_size
        let subscribed := env.subscribe_session_consumed_size_rotation log rotated.2 size
        (subscribed.1, subscribed.2, log ++ [Event.subscribe rotated.2.id size subscribed.1])

/-- `handle_condition`; the result is `(ret, world)`. -/
def handle_condition (env : Env) (notification : lttng_notification) (w : World) :
    Int × World :=
  if notification.condition_type ≠ lttng_condition_type.SESSION_CONSUMED_SIZE then
    (-1, w)
  else
    match notification.session_name with
    | none => (-1, w)
    | some condition_session_name =>
      match notification.consumed_size with
      | none => (-1, w)
      | some consumed =>
        let found := session_find_by_name env condition_session_name w
        match found.1 with
        | none =>
          -- Not a fatal error: a session can be destroyed before the notification
          -- is handled.
          (0, found.2)
        | some session =>
          let handled := handle_condition_locked env notification consumed
            (found.2.sessions session) found.2.log
          (handled.1, session_put (some session)
            { found.2 with
              sessions := Function.update found.2.sessions session handled.2.1
              log := handled.2.2 })

/-- `handle_notification_channel`; the result is `(ret, world)`. -/
def handle_notification_channel (env : Env) (w : World) : Int × World :=
  let pending := env.lttng_notification_channel_has_pending_notification w.log
  let w := { w with log := w.log ++ [Event.has_pending_notification pending.1 pending.2] }
  if pending.1 ≠ lttng_notification_channel_status.OK then
    (-1, w)
  else if !pending.2 then
    (0, w)
  else
    -- Receive the next notification.
    let next := env.lttng_notification_channel_get_next_notification w.log
    let w := { w with log := w.log ++ [Event.get_next_notification next] }
    match next with
    | next_notification.OK notification => handle_condition env notification w
    | next_notification.NOTIFICATIONS_DROPPED => (0, w)
    | next_notification.CLOSED => (-1, w)
    | next_notification.OTHER _ => (-1, w)

/-! ## The loop of the rotation thread -/

/-- The descriptors of the poll set of the rotation thread. -/
inductive poll_fd
  | quit_pipe
  | queue_pipe
  | notification_socket
  deriving DecidableEq, Repr

/-- A ready descriptor reported by `lttng_poll_wait`, with whether its events
include `LPOLLERR`. -/
structure poll_event where
  fd : poll_fd
  error : Bool
  deriving DecidableEq, Repr

/-- Outcome of one `lttng_poll_wait`: interrupted (`EINTR`), failed with
another error, or a list of ready descriptors. -/
inductive poll_result
  | interrupted
  | failed
  | ready (events : List poll_event)
  deriving DecidableEq, Repr

/-- How the `for` loop over the ready descriptors ends: at its end, at the
label `exit`, or at the label `error`. -/
inductive events_outcome
  | done
  | exit
  | error
  deriving DecidableEq, Repr

/-- How the rotation thread stands after a sequence of polls: it left the loop
at the label `exit` or at the label `error`, or it is waiting in
`lttng_poll_wait`. -/
inductive thread_exit
  | exit
  | error
  | waiting
  deriving DecidableEq, Repr

/-- The read of one byte from the wake-up pipe, which `thread_rotation` does
after a drain caused by the pipe; the result is `(ret, world)`. -/
def read_wakeup_pipe (env : Env) (w : World) : Int × World :=
  let ret := env.lttng_read w.log
  (ret,
    { w with
      queue := { w.queue with
        event_pipe := if ret = 1 then w.queue.event_pipe - 1 else w.queue.event_pipe }
      log := w.log ++ [Event.lttng_read ret] })

/-- The `for` loop of `thread_rotation` over the descriptors that
`lttng_poll_wait` reported. -/
def handle_poll_events (env : Env) : List poll_event → World → events_outcome × World
  | [], w => (events_outcome.done, w)
  | event :: rest, w =>
    if event.error then
      (events_outcome.error, w)
    else if event.fd = poll_fd.notification_socket then
      let handled := handle_notification_channel env w
      if handled.1 ≠ 0 then (events_outcome.error, handled.2)
      else handle_poll_events env rest handled.2
    else
      -- Job queue or quit pipe activity.
      let drained := handle_job_queue env w
      if drained.1 ≠ 0 then
        (events_outcome.error, drained.2)
      else if event.fd = poll_fd.queue_pipe then
        let read := read_wakeup_pipe env drained.2
        if read.1 ≠ 1 then (events_outcome.error, read.2)
        else handle_poll_events env rest read.2
      else
        -- Quit pipe activity.
        (events_outcome.exit, drained.2)

/-- The `while (true)` loop of `thread_rotation`, run on the successive results
of `lttng_poll_wait`. -/
def thread_rotation (env : Env) : List poll_result → World → thread_exit × World
  | [], w => (thread_exit.waiting, w)
  | poll_result.interrupted :: polls, w => thread_rotation env polls w
  | poll_result.failed :: _, w => (thread_exit.error, w)
  | poll_result.ready events :: polls, w =>
    let handled := handle_poll_events env events w
    match handled.1 with
    | events_outcome.done => thread_rotation env polls handled.2
    | events_outcome.exit => (thread_exit.exit, handled.2)
    | events_outcome.error => (thread_exit.error, handled.2)

/-! ## Reading the log -/

/-- The event is a chunk-existence query to a consumer. -/
def Event.is_query : Event → Bool
  | Event.chunk_exists _ _ _ _ _ _ => true
  | _ => false

/-- The event is a chunk-existence query that returned an error. -/
def Event.query_failed : Event → Bool
  | Event.chunk_exists _ _ _ _ ret _ => decide (ret ≠ 0)
  | _ => false

/-- The event is a successful chunk-existence query whose answer is not
`UNKNOWN_CHUNK`: the consumer reports that the chunk exists. -/
def Event.reports_exists : Event → Bool
  | Event.chunk_exists _ _ _ _ ret status =>
    decide (ret = 0 ∧ status ≠ consumer_trace_chunk_exists_status.UNKNOWN_CHUNK)
  | _ => false

/-- The event is a successful chunk-existence query answered `UNKNOWN_CHUNK`:
the consumer does not reference the chunk. -/
def Event.answers_unknown : Event → Bool
  | Event.chunk_exists _ _ _ _ ret status =>
    decide (ret = 0 ∧ status = consumer_trace_chunk_exists_status.UNKNOWN_CHUNK)
  | _ => false

/-- The socket that a chunk-existence query was sent on. -/
def Event.queried_socket : Event → Option consumer_socket
  | Event.chunk_exists socket _ _ _ _ _ => some socket
  | _ => none

/-- The sockets queried by a list of events, in order. -/
def queried_sockets (events : List Event) : List consumer_socket :=
  events.filterMap Event.queried_socket

/-- The event is the announcement of a completed rotation to the notification
thread. -/
def Event.is_rotation_completed : Event → Bool
  | Event.rotation_completed _ _ _ _ => true
  | _ => false

/-- The event is a start of the pending-check timer. -/
def Event.is_timer_start : Event → Bool
  | Event.timer_start _ _ _ => true
  | _ => false

/-- The event is one that running a job can produce: a call to a timer, to a
consumer, to `strdup`, to the notification thread or to the rotation
command. -/
def Event.by_job : Event → Bool
  | Event.timer_stop _ _ => true
  | Event.timer_start _ _ _ => true
  | Event.chunk_exists _ _ _ _ _ _ => true
  | Event.strdup _ => true
  | Event.rotation_completed _ _ _ _ => true
  | Event.cmd_rotate_session _ _ _ _ => true
  | _ => false

/-- The consumer sockets of the user-space domain of a session. -/
def ust_sockets (session : ltt_session) : List consumer_socket :=
  match session.ust_session with
  | none => []
  | some ust_session => ust_session.consumer.socks

/-- The consumer sockets of the kernel domain of a session. -/
def kernel_sockets (session : ltt_session) : List consumer_socket :=
  match session.kernel_session with
  | none => []
  | some kernel_session => kernel_session.consumer.socks

/-- The consumer sockets of a session: those of the user-space domain, then
those of the kernel domain. -/
def endpoints (session : ltt_session) : List consumer_socket :=
  ust_sockets session ++ kernel_sockets session

/-- The event that the query of `socket` for the chunk being archived adds to
the log `log`. -/
def query_event (env : Env) (session : ltt_session) (consumer : consumer_output)
    (socket : consumer_socket) (log : List Event) : Event :=
  Event.chunk_exists socket (relayd_id consumer) session.id session.chunk_being_archived
    (env.consumer_trace_chunk_exists log socket (relayd_id consumer) session.id
      session.chunk_being_archived).1
    (env.consumer_trace_chunk_exists log socket (relayd_id consumer) session.id
      session.chunk_being_archived).2

/-- What a scan over `socks` started with the log `log` guarantees about its
result and about the events `events` it added to the log. -/
structure scan_spec (socks : List consumer_socket) (log : List Event) (result : scan_state)
    (events : List Event) : Prop where
  log_eq : result.log = log ++ events
  queries : ∀ e ∈ events, e.is_query = true
  in_order : queried_sockets events <+: socks
  exists_iff : result.chunk_exists_on_peer = true ↔ ∃ e ∈ events, e.reports_exists = true
  failed_iff : result.ret ≠ 0 ↔ ∃ e ∈ events, e.query_failed = true
  exists_ret : result.chunk_exists_on_peer = true → result.ret = 0
  complete : result.chunk_exists_on_peer = false → result.ret = 0 →
    queried_sockets events = socks ∧ ∀ e ∈ events, e.answers_unknown = true

/-- The number of references that the log shows taken on `session`
(`session_get`). -/
def increments (log : List Event) (session : Nat) : Nat :=
  log.count (Event.session_get session)

/-- The number of references that the log shows released on `session`
(`session_put`). -/
def releases (log : List Event) (session : Nat) : Nat :=
  log.count (Event.session_put (some session))

/-- The number of jobs of `jobs` that hold a reference on `session`. -/
def jobs_for (jobs : List rotation_thread_job) (session : Nat) : Nat :=
  jobs.countP fun job => decide (job.session = some session)

/-- The events that `check_session_rotation_pending` adds to the log. -/
def check_events (env : Env) (session : ltt_session) (log : List Event) : List Event :=
  (check_session_rotation_pending env session log).2.2.drop log.length

/-- The events that `check_session_rotation_pending_on_consumers` adds to the
log. -/
def checker_events (env : Env) (session : ltt_session) (log : List Event) : List Event :=
  (check_session_rotation_pending_on_consumers env session log).2.2.drop log.length

/-- The invariant of the rotation state of a session: a chunk is being archived
exactly when the rotation state is `ONGOING`. -/
def rotation_state_legal (session : ltt_session) : Prop :=
  session.chunk_being_archived ≠ none ↔
    session.rotation_state = lttng_rotation_state.ONGOING

instance (session : ltt_session) : Decidable (rotation_state_legal session) := by
  unfold rotation_state_legal
  infer_instance

/-! ## Reading the log of the size-based rotation -/

/-- The events that `handle_condition` adds to the log. -/
def condition_events (env : Env) (notification : lttng_notification) (w : World) :
    List Event :=
  (handle_condition env notification w).2.log.drop w.log.length

/-- The answer of `unsubscribe_session_consumed_size_rotation` in
`handle_condition`: its value and the session it leaves. -/
def unsubscribed (env : Env) (session : ltt_session) (log : List Event) : Int × ltt_session :=
  env.unsubscribe_session_consumed_size_rotation log session

/-- The call of `unsubscribe_session_consumed_size_rotation` in
`handle_condition`. -/
def unsubscribe_event (env : Env) (session : ltt_session) (log : List Event) : Event :=
  Event.unsubscribe session.id (unsubscribed env session log).1

/-- The answer of `cmd_rotate_session` in `handle_condition`, called once the
subscription is cancelled. -/
def rotated (env : Env) (session : ltt_session) (log : List Event) : Int × ltt_session :=
  env.cmd_rotate_session (log ++ [unsubscribe_event env session log])
    (unsubscribed env session log).2 false lttng_trace_chunk_command_type.MOVE_TO_COMPLETED

/-- The call of `cmd_rotate_session` in `handle_condition`. -/
def rotate_event (env : Env) (session : ltt_session) (log : List Event) : Event :=
  Event.cmd_rotate_session (unsubscribed env session log).2.id false
    lttng_trace_chunk_command_type.MOVE_TO_COMPLETED (rotated env session log).1

/-- The answer of `subscribe_session_consumed_size_rotation` in
`handle_condition`, called after the rotation command for the consumed size
`consumed`. -/
def subscribed (env : Env) (consumed : Nat) (session : ltt_session) (log : List Event) :
    Int × ltt_session :=
  env.subscribe_session_consumed_size_rotation
    (log ++ [unsubscribe_event env session log, rotate_event env session log])
    (rotated env session log).2
    (new_threshold consumed (rotated env session log).2.rotate_size)

/-- The call of `subscribe_session_consumed_size_rotation` in
`handle_condition`. -/
def subscribe_event (env : Env) (consumed : Nat) (session : ltt_session)
    (log : List Event) : Event :=
  Event.subscribe (rotated env session log).2.id
    (new_threshold consumed (rotated env session log).2.rotate_size)
    (subscribed env consumed session log).1

/-- The events that the locked part of `handle_condition` adds to the log,
path by path. -/
def locked_events (env : Env) (notification : lttng_notification) (consumed : Nat)
    (session : ltt_session) (log : List Event) : List Event :=
  if lttng_trigger_is_equal session.rotate_trigger notification.trigger = false then []
  else if (unsubscribed env session log).1 ≠ 0 then [unsubscribe_event env session log]
  else if rotation_outcome_expected env (rotated env session log).1 = false then
    [unsubscribe_event env session log, rotate_event env session log]
  else
    [unsubscribe_event env session log, rotate_event env session log,
      subscribe_event env consumed session log]

/-- The log once `handle_condition` has resolved the session `session` from
the name `name` and holds its reference. -/
def found_log (w : World) (name : String) (session : Nat) : List Event :=
  w.log ++ [Event.session_find_by_name name (some session), Event.session_get session]

/-- The size of a successful subscription. -/
def Event.subscribed_size : Event → Option Nat
  | Event.subscribe _ size ret => if ret = 0 then some size else none
  | _ => none

/-- The sizes of the successful subscriptions of a list of events, in order. -/
def subscribed_sizes (events : List Event) : List Nat :=
  events.filterMap Event.subscribed_size

/-- The collaborators of `handle_condition` leave the `rotate_size` of the
session as it is. -/
def keeps_rotate_size (env : Env) : Prop :=
  (∀ (log : List Event) (session : ltt_session),
    (env.unsubscribe_session_consumed_size_rotation log session).2.rotate_size =
      session.rotate_size) ∧
  (∀ (log : List Event) (session : ltt_session) (quiet : Bool)
      (command : lttng_trace_chunk_command_type),
    (env.cmd_rotate_session log session quiet command).2.rotate_size = session.rotate_size) ∧
  (∀ (log : List Event) (session : ltt_session) (size : Nat),
    (env.subscribe_session_consumed_size_rotation log session size).2.rotate_size =
      session.rotate_size)

/-- The sizes subscribed successfully while the notifications of a list are
handled one after the other, in order. -/
def thresholds (env : Env) : List lttng_notification → World → List Nat
  | [], _ => []
  | notification :: rest, w =>
    subscribed_sizes (condition_events env notification w) ++
      thresholds env rest (handle_condition env notification w).2

/-- Each notification of the list is handled with a successful
subscription. -/
def each_resubscribed (env : Env) : List lttng_notification → World → Prop
  | [], _ => True
  | notification :: rest, w =>
    subscribed_sizes (condition_events env notification w) ≠ [] ∧
      each_resubscribed env rest (handle_condition env notification w).2

/-- The consumed sizes that the notifications of a list report. -/
def consumed_sizes (notifications : List lttng_notification) : List Nat :=
  notifications.map fun notification => notification.consumed_size.getD 0

/-- Each notification reports exactly the size subscribed before it, starting
from `size`. -/
def exact_crossings (rotate_size : Nat) : Nat → List Nat → Prop
  | _, [] => True
  | size, consumed :: rest =>
    consumed = size ∧ exact_crossings rotate_size (new_threshold consumed rotate_size) rest

/-- Each notification reports at least the size subscribed before it, starting
from `size`. -/
def crossings (rotate_size : Nat) : Nat → List Nat → Prop
  | _, [] => True
  | size, consumed :: rest =>
    size ≤ consumed ∧ crossings rotate_size (new_threshold consumed rotate_size) rest

/-- The event is a test of the notification channel for a pending
notification. -/
def Event.is_has_pending : Event → Bool
  | Event.has_pending_notification _ _ => true
  | _ => false

/-- The event is the reception of a notification from the channel. -/
def Event.is_get_next : Event → Bool
  | Event.get_next_notification _ => true
  | _ => false

/-- The events that `handle_notification_channel` adds to the log. -/
def notification_events (env : Env) (w : World) : List Event :=
  (handle_notification_channel env w).2.log.drop w.log.length

/-- The consumer outputs of the domains of a session: the one of the
user-space domain, then the one of the kernel domain. -/
def domain_consumers (session : ltt_session) : List consumer_output :=
  (match session.ust_session with
    | none => []
    | some ust_session => [ust_session.consumer]) ++
  (match session.kernel_session with
    | none => []
    | some kernel_session => [kernel_session.consumer])

/-! ## Sequences of queue operations -/

/-- An operation on the job queue: an enqueue by a producer, a whole drain by
the rotation thread, or a single turn of the loop of the drain (so that
enqueues can fall between two turns of a drain, the queue lock being released
after each pop). -/
inductive Op
  | enqueue (job_type : rotation_thread_job_type) (session : Nat)
  | drain
  | turn
  deriving DecidableEq, Repr

/-- Perform one operation. -/
def step (env : Env) : Op → World → World
  | Op.enqueue job_type session, w => rotation_thread_enqueue_job env job_type session w
  | Op.drain, w => (handle_job_queue env w).2
  | Op.turn, w =>
    match w.queue.list with
    | [] => w
    | job :: rest => (handle_job env job rest w).2

/-- Perform a sequence of operations, first to last. -/
def run_ops (env : Env) : List Op → World → World
  | [], w => w
  | op :: ops, w => run_ops env ops (step env op w)

/-- No two jobs of the queue have the same session and the same type. -/
def no_duplicate_jobs (queue : rotation_thread_timer_queue) : Prop :=
  queue.list.Pairwise fun a b => ¬ (a.session = b.session ∧ a.type = b.type)

instance (queue : rotation_thread_timer_queue) : Decidable (no_duplicate_jobs queue) := by
  unfold no_duplicate_jobs
  infer_instance

/-- The entries that a drain of `w` adds to the record of executed jobs. -/
def executed_by_drain (env : Env) (w : World) : List (rotation_thread_job × Int) :=
  (handle_job_queue env w).2.executed.drop w.executed.length

/-- The events of the tail `check_ongoing_rotation`: one start of the timer
when the rotation is ongoing, nothing otherwise. -/
def check_ongoing_events (env : Env) (session : ltt_session) (log : List Event) : List Event :=
  if session.rotation_state = lttng_rotation_state.ONGOING then
    [Event.timer_start session.id env.DEFAULT_ROTATE_PENDING_TIMER
      (env.timer_session_rotation_pending_check_start log session
        env.DEFAULT_ROTATE_PENDING_TIMER)]
  else []

/-- The balance of references: references taken and not yet released are those
of the queued jobs, in the log and in the reference counts (`refs0` being the
counts at the start). -/
def balanced (refs0 : Nat → Int) (w : World) (s : Nat) : Prop :=
  increments w.log s = releases w.log s + jobs_for w.queue.list s ∧
  w.refs s = refs0 s + jobs_for w.queue.list s

/-! ## The decoder of the fields of UST events

A shallow embedding of `src/bin/lttng-sessiond/ust-field-convert.cpp`.  The
array of `lttng_ust_ctl_field` that an application sent is a memory indexed
from 0, of which the entries below `end_` are the array; pointers into the
array are indices.  Every access to an entry is recorded with its index, so
that an access at or beyond `end_` shows in the result. -/

/-- The types of `enum lttng_ust_ctl_abstract_types`, each named after its
enumerator `lttng_ust_ctl_atype_<name>`; any other value is `OTHER`. -/
inductive lttng_ust_ctl_abstract_types
  | integer
  | enum
  | array
  | sequence
  | string
  | float
  | variant
  | struct
  | enum_nestable
  | array_nestable
  | sequence_nestable
  | struct_nestable
  | variant_nestable
  | OTHER (enumerator : Nat)
  deriving DecidableEq, Repr

/-- The encodings of `enum lttng_ust_ctl_string_encodings`, each named after
its enumerator `lttng_ust_ctl_encode_<name>`; any other value is `OTHER`. -/
inductive lttng_ust_ctl_string_encodings
  | none
  | UTF8
  | ASCII
  | OTHER (enumerator : Int)
  deriving DecidableEq, Repr

/-- The fields of `struct lttng_ust_ctl_integer_type`. -/
structure lttng_ust_ctl_integer_type where
  size : Nat
  signedness : Nat
  reverse_byte_order : Nat
  base : Nat
  encoding : lttng_ust_ctl_string_encodings
  alignment : Nat
  deriving DecidableEq, Repr

/-- The fields of `struct lttng_ust_ctl_float_type`. -/
structure lttng_ust_ctl_float_type where
  exp_dig : Nat
  mant_dig : Nat
  reverse_byte_order : Nat
  alignment : Nat
  deriving DecidableEq, Repr

/-- The part of `struct lttng_ust_ctl_basic_type` that the decoder reads: the
type and the member `u.basic.integer`. -/
structure lttng_ust_ctl_basic_type where
  atype : lttng_ust_ctl_abstract_types
  integer : lttng_ust_ctl_integer_type
  deriving DecidableEq, Repr

/-- The member `u.legacy.basic.enumeration` of the type of a field. -/
structure lttng_ust_ctl_legacy_enumeration where
  name : String
  id : Nat
  container_type : lttng_ust_ctl_integer_type
  deriving DecidableEq, Repr

/-- The member `u.enum_nestable` of the type of a field. -/
structure lttng_ust_ctl_enum_nestable where
  name : String
  id : Nat
  deriving DecidableEq, Repr

/-- The member `u.legacy.array` of the type of a field. -/
structure lttng_ust_ctl_legacy_array where
  elem_type : lttng_ust_ctl_basic_type
  length : Nat
  deriving DecidableEq, Repr

/-- The member `u.array_nestable` of the type of a field. -/
structure lttng_ust_ctl_array_nestable where
  length : Nat
  alignment : Nat
  deriving DecidableEq, Repr

/-- The member `u.legacy.sequence` of the type of a field. -/
structure lttng_ust_ctl_legacy_sequence where
  length_type : lttng_ust_ctl_basic_type
  elem_type : lttng_ust_ctl_basic_type
  deriving DecidableEq, Repr

/-- The member `u.sequence_nestable` of the type of a field; `length_name` is
`none` when the array of characters holds no terminating zero. -/
structure lttng_ust_ctl_sequence_nestable where
  length_name : Option String
  alignment : Nat
  deriving DecidableEq, Repr

/-- The member `u.struct_nestable` of the type of a field. -/
structure lttng_ust_ctl_struct_nestable where
  nr_fields : Nat
  alignment : Nat
  deriving DecidableEq, Repr

/-- The member `u.legacy.variant` of the type of a field. -/
structure lttng_ust_ctl_legacy_variant where
  nr_choices : Nat
  tag_name : String
  deriving DecidableEq, Repr

/-- The member `u.variant_nestable` of the type of a field. -/
structure lttng_ust_ctl_variant_nestable where
  nr_choices : Nat
  tag_name : String
  alignment : Nat
  deriving DecidableEq, Repr

/-- The members of the union `u` of `struct lttng_ust_ctl_type` that the
decoder reads.  The members are kept side by side: which of them the decoder
reads depends on `atype` alone. -/
structure lttng_ust_ctl_type_u where
  integer : lttng_ust_ctl_integer_type
  float : lttng_ust_ctl_float_type
  string_encoding : lttng_ust_ctl_string_encodings
  enum_nestable : lttng_ust_ctl_enum_nestable
  array_nestable : lttng_ust_ctl_array_nestable
  sequence_nestable : lttng_ust_ctl_sequence_nestable
  struct_nestable : lttng_ust_ctl_struct_nestable
  variant_nestable : lttng_ust_ctl_variant_nestable
  legacy_enumeration : lttng_ust_ctl_legacy_enumeration
  legacy_array : lttng_ust_ctl_legacy_array
  legacy_sequence : lttng_ust_ctl_legacy_sequence
  legacy_struct_nr_fields : Nat
  legacy_variant : lttng_ust_ctl_legacy_variant
  deriving DecidableEq, Repr

/-- The type of a field (`struct lttng_ust_ctl_type`). -/
structure lttng_ust_ctl_type where
  atype : lttng_ust_ctl_abstract_types
  u : lttng_ust_ctl_type_u
  deriving DecidableEq, Repr

/-- An entry of the array (`struct lttng_ust_ctl_field`); `name` is `none`
when the array of characters holds no terminating zero. -/
structure lttng_ust_ctl_field where
  name : Option String
  type : lttng_ust_ctl_type
  deriving DecidableEq, Repr

/-- The byte orders of `lst::byte_order`. -/
inductive byte_order
  | BIG_ENDIAN_
  | LITTLE_ENDIAN_
  deriving DecidableEq, Repr

/-- The signedness of `lst::integer_type::signedness`. -/
inductive signedness
  | SIGNED
  | UNSIGNED
  deriving DecidableEq, Repr

/-- The bases of `lst::integer_type::base`. -/
inductive base
  | BINARY
  | OCTAL
  | DECIMAL
  | HEXADECIMAL
  deriving DecidableEq, Repr

/-- The encodings of `lst::null_terminated_string_type::encoding`. -/
inductive encoding
  | ASCII
  | UTF8
  deriving DecidableEq, Repr

/-- The trace types that the decoder builds (the classes derived from
`lst::type`); a field (`lst::field`) is a name with its type, and the
mappings of an enumeration are those that the registry of the session holds
for it. -/
inductive lst_type
  | integer_type (alignment : Nat) (order : byte_order) (size : Nat) (sign : signedness)
      (radix : base)
  | floating_point_type (alignment : Nat) (order : byte_order) (exponent_digits : Nat)
      (mantissa_digits : Nat)
  | signed_enumeration_type (alignment : Nat) (order : byte_order) (size : Nat)
      (sign : signedness) (radix : base) (mappings : Nat)
  | unsigned_enumeration_type (alignment : Nat) (order : byte_order) (size : Nat)
      (sign : signedness) (radix : base) (mappings : Nat)
  | null_terminated_string_type (alignment : Nat) (text : encoding)
  | static_length_array_type (alignment : Nat) (element_type : lst_type) (length : Nat)
  | static_length_string_type (alignment : Nat) (text : encoding) (length : Nat)
  | dynamic_length_array_type (alignment : Nat) (element_type : lst_type)
      (length_field_name : Option String)
  | dynamic_length_string_type (alignment : Nat) (text : encoding)
      (length_field_name : Option String)
  | structure_type (alignment : Nat)
  | variant_type (alignment : Nat) (tag_name : String) (choices : List (String × lst_type))

/-- The size of an integer type, which the decoder reads by
`static_cast<const lst::integer_type&>(*element_type).size`; the cast is made
on the type built from an element whose `atype` is integer. -/
def lst_type.integer_size : lst_type → Nat
  | lst_type.integer_type _ _ size _ _ => size
  | _ => 0

/-- A field of the trace (`lst::field`): its name and its type. -/
abbrev lst_field := String × lst_type

/-- How a decoding ends otherwise than by a result: a protocol error
(`LTTNG_THROW_PROTOCOL_ERROR`), a violated `LTTNG_ASSERT`, or the exhaustion of
the number of steps granted to the decoder. -/
inductive decode_error
  | protocol_error
  | assertion_failed
  | out_of_fuel
  deriving DecidableEq, Repr

/-- What the decoder carries along: the value of `*next_ust_ctl_field`, and the
indices of the entries read so far, in order. -/
structure decoder_state where
  next_ust_ctl_field : Nat
  reads : List Nat
  deriving DecidableEq, Repr

/-- The outcome of a step of the decoder: a value with the state after it, or
an error with the indices read until then. -/
inductive decoded (α : Type)
  | ok (value : α) (state : decoder_state)
  | raised (error : decode_error) (reads : List Nat)

/-- A step of the decoder. -/
def decoder (α : Type) : Type := decoder_state → decoded α

instance : Monad decoder where
  pure value := fun state => decoded.ok value state
  bind step next := fun state =>
    match step state with
    | decoded.ok value state => next value state
    | decoded.raised error reads => decoded.raised error reads

/-- Leave the decoding with an error. -/
def raise {α : Type} (error : decode_error) : decoder α :=
  fun state => decoded.raised error state.reads

/-- The access to the entry at `index`: the entry is returned and the index
recorded. -/
def read (fields : Nat → lttng_ust_ctl_field) (index : Nat) : decoder lttng_ust_ctl_field :=
  fun state => decoded.ok (fields index) { state with reads := state.reads ++ [index] }

/-- The assignment `*next_ust_ctl_field = index`. -/
def set_next_ust_ctl_field (index : Nat) : decoder Unit :=
  fun state => decoded.ok () { state with next_ust_ctl_field := index }

/-- The value of `*next_ust_ctl_field`. -/
def next_ust_ctl_field : decoder Nat :=
  fun state => decoded.ok state.next_ust_ctl_field state

/-- The session information that the decoding may need (`class
session_attributes`), with the helpers of the trace classes that are declared
outside this file: the enumeration of the registry for a name and an id
(`get_registry_enum`, which may throw), the native byte order of the trace,
`lst::type::reverse_byte_order`, and whether the constructor of
`lst::floating_point_type` accepts the digits it is given (it throws
`lttng::invalid_argument_error` otherwise). -/
structure session_attributes where
  get_registry_enum : String → Nat → Except decode_error Nat
  _native_trace_byte_order : byte_order
  reverse_byte_order : byte_order → byte_order
  floating_point_valid : Nat → Nat → Bool

/-- `ust_ctl_encoding_to_string_field_encoding`: the lookup in
`encoding_conversion_map`, which holds ASCII and UTF8. -/
def ust_ctl_encoding_to_string_field_encoding (value : lttng_ust_ctl_string_encodings) :
    decoder encoding :=
  match value with
  | lttng_ust_ctl_string_encodings.ASCII => pure encoding.ASCII
  | lttng_ust_ctl_string_encodings.UTF8 => pure encoding.UTF8
  | _ => raise decode_error.protocol_error

/-- `ust_ctl_base_to_integer_field_base`: the lookup in `base_conversion_map`,
which holds 2, 8, 10 and 16. -/
def ust_ctl_base_to_integer_field_base (value : Nat) : decoder base :=
  if value = 2 then pure base.BINARY
  else if value = 8 then pure base.OCTAL
  else if value = 10 then pure base.DECIMAL
  else if value = 16 then pure base.HEXADECIMAL
  else raise decode_error.protocol_error

/-- The byte order of a decoded type: the native one, reversed when
`reverse_byte_order` is set. -/
def decoded_byte_order (attributes : session_attributes) (reverse_byte_order : Nat) :
    byte_order :=
  if reverse_byte_order ≠ 0 then attributes.reverse_byte_order attributes._native_trace_byte_order
  else attributes._native_trace_byte_order

/-- The signedness of a decoded integer. -/
def decoded_signedness (value : Nat) : signedness :=
  if value ≠ 0 then signedness.SIGNED else signedness.UNSIGNED

/-- `create_integer_type_from_ust_ctl_fields`. -/
def create_integer_type_from_ust_ctl_fields (attributes : session_attributes)
    (fields : Nat → lttng_ust_ctl_field) (end_ : Nat) (current : Nat) : decoder lst_type := do
  if current ≥ end_ then raise decode_error.protocol_error
  let field ← read fields current
  let radix ← ust_ctl_base_to_integer_field_base field.type.u.integer.base
  set_next_ust_ctl_field (current + 1)
  pure (lst_type.integer_type field.type.u.integer.alignment
    (decoded_byte_order attributes field.type.u.integer.reverse_byte_order)
    field.type.u.integer.size (decoded_signedness field.type.u.integer.signedness) radix)

/-- `create_floating_point_type_from_ust_ctl_fields`. -/
def create_floating_point_type_from_ust_ctl_fields (attributes : session_attributes)
    (fields : Nat → lttng_ust_ctl_field) (end_ : Nat) (current : Nat) : decoder lst_type := do
  if current ≥ end_ then raise decode_error.protocol_error
  set_next_ust_ctl_field (current + 1)
  let field ← read fields current
  if !attributes.floating_point_valid field.type.u.float.exp_dig field.type.u.float.mant_dig
  then raise decode_error.protocol_error
  pure (lst_type.floating_point_type field.type.u.float.alignment
    (decoded_byte_order attributes field.type.u.float.reverse_byte_order)
    field.type.u.float.exp_dig field.type.u.float.mant_dig)

/-- The enumeration built by `create_enumeration_type_from_ust_ctl_fields` from
the container type `container`, once the position of the next entry is set. -/
def create_enumeration_type (attributes : session_attributes)
    (container : lttng_ust_ctl_integer_type) (enumeration_name : String)
    (enumeration_id : Nat) : decoder lst_type := do
  let radix ← ust_ctl_base_to_integer_field_base container.base
  match attributes.get_registry_enum enumeration_name enumeration_id with
  | Except.error error => raise error
  | Except.ok mappings =>
    if container.signedness ≠ 0 then
      pure (lst_type.signed_enumeration_type container.alignment
        (decoded_byte_order attributes container.reverse_byte_order) container.size
        (decoded_signedness container.signedness) radix mappings)
    else
      pure (lst_type.unsigned_enumeration_type container.alignment
        (decoded_byte_order attributes container.reverse_byte_order) container.size
        (decoded_signedness container.signedness) radix mappings)

/-- `create_enumeration_type_from_ust_ctl_fields`: a nestable enumeration is
followed by its container type, an integer, in the next entry. -/
def create_enumeration_type_from_ust_ctl_fields (attributes : session_attributes)
    (fields : Nat → lttng_ust_ctl_field) (end_ : Nat) (current : Nat) : decoder lst_type := do
  if current ≥ end_ then raise decode_error.protocol_error
  let enum_uctl_field ← read fields current
  if enum_uctl_field.type.atype = lttng_ust_ctl_abstract_types.enum_nestable then
    let current := current + 1
    if current ≥ end_ then raise decode_error.protocol_error
    let container ← read fields current
    if container.type.atype ≠ lttng_ust_ctl_abstract_types.integer then
      raise decode_error.protocol_error
    set_next_ust_ctl_field (current + 1)
    create_enumeration_type attributes container.type.u.integer
      enum_uctl_field.type.u.enum_nestable.name enum_uctl_field.type.u.enum_nestable.id
  else
    set_next_ust_ctl_field (current + 1)
    create_enumeration_type attributes enum_uctl_field.type.u.legacy_enumeration.container_type
      enum_uctl_field.type.u.legacy_enumeration.name
      enum_uctl_field.type.u.legacy_enumeration.id

/-- `create_string_type_from_ust_ctl_fields`. -/
def create_string_type_from_ust_ctl_fields
    (fields : Nat → lttng_ust_ctl_field) (end_ : Nat) (current : Nat) : decoder lst_type := do
  if current ≥ end_ then raise decode_error.protocol_error
  let string_uctl_field ← read fields current
  set_next_ust_ctl_field (current + 1)
  let text ← ust_ctl_encoding_to_string_field_encoding string_uctl_field.type.u.string_encoding
  pure (lst_type.null_terminated_string_type 1 text)

/-- `create_integer_type_from_ust_ctl_basic_type`, which asserts that the type
is an integer. -/
def create_integer_type_from_ust_ctl_basic_type (attributes : session_attributes)
    (type : lttng_ust_ctl_basic_type) : decoder lst_type := do
  if type.atype ≠ lttng_ust_ctl_abstract_types.integer then
    raise decode_error.assertion_failed
  let radix ← ust_ctl_base_to_integer_field_base type.integer.base
  pure (lst_type.integer_type type.integer.alignment
    (decoded_byte_order attributes type.integer.reverse_byte_order) type.integer.size
    (decoded_signedness type.integer.signedness) radix)

/-- The encoding of the elements of an array or sequence: set when the element
is an integer that represents a text character. -/
def element_text_encoding (atype : lttng_ust_ctl_abstract_types)
    (integer : lttng_ust_ctl_integer_type) : decoder (Option encoding) := do
  if atype = lttng_ust_ctl_abstract_types.integer ∧
      integer.encoding ≠ lttng_ust_ctl_string_encodings.none then
    let text ← ust_ctl_encoding_to_string_field_encoding integer.encoding
    pure (some text)
  else
    pure none

/-- `create_array_type_from_ust_ctl_fields`: a legacy array, whose element type
is part of the same entry. -/
def create_array_type_from_ust_ctl_fields (attributes : session_attributes)
    (fields : Nat → lttng_ust_ctl_field) (end_ : Nat) (current : Nat) : decoder lst_type := do
  if current ≥ end_ then raise decode_error.protocol_error
  let array_uctl_field ← read fields current
  let array_length := array_uctl_field.type.u.legacy_array.length
  let array_alignment := 0
  let element_uctl_type := array_uctl_field.type.u.legacy_array.elem_type
  if element_uctl_type.atype ≠ lttng_ust_ctl_abstract_types.integer then
    raise decode_error.protocol_error
  let element_type ← create_integer_type_from_ust_ctl_basic_type attributes element_uctl_type
  let element_encoding ← element_text_encoding element_uctl_type.atype
    element_uctl_type.integer
  set_next_ust_ctl_field (current + 1)
  match element_encoding with
  | some text =>
    if element_type.integer_size ≠ 8 then raise decode_error.protocol_error
    -- Array is a static-length string.
    pure (lst_type.static_length_string_type array_alignment text array_length)
  | none => pure (lst_type.static_length_array_type array_alignment element_type array_length)

/-- `create_array_nestable_type_from_ust_ctl_fields`: a nestable array is
followed by its element type in the next entry, decoded by `create_type`
(`create_type_from_ust_ctl_fields`); the result holds the fields that the
decoding of the element published. -/
def create_array_nestable_type_from_ust_ctl_fields
    (create_type : Nat → decoder (lst_type × List lst_field))
    (fields : Nat → lttng_ust_ctl_field) (end_ : Nat) (current : Nat) :
    decoder (lst_type × List lst_field) := do
  if current ≥ end_ then raise decode_error.protocol_error
  let array_uctl_field ← read fields current
  let array_length := array_uctl_field.type.u.array_nestable.length
  let array_alignment := array_uctl_field.type.u.array_nestable.alignment
  -- Nestable array fields are followed by their element type.
  -- next_ust_ctl_field is updated as needed.
  let element ← create_type (current + 1)
  let element_uctl_field ← read fields (current + 1)
  let element_encoding ← element_text_encoding element_uctl_field.type.atype
    element_uctl_field.type.u.integer
  match element_encoding with
  | some text =>
    if element.1.integer_size ≠ 8 then raise decode_error.protocol_error
    -- Array is a static-length string.
    pure (lst_type.static_length_string_type array_alignment text array_length, element.2)
  | none =>
    pure (lst_type.static_length_array_type array_alignment element.1 array_length, element.2)

/-- `create_sequence_type_from_ust_ctl_fields`: a legacy sequence, whose length
and element types are part of the same entry; the implicit length field is
published before the sequence field. -/
def create_sequence_type_from_ust_ctl_fields (attributes : session_attributes)
    (fields : Nat → lttng_ust_ctl_field) (end_ : Nat) (current : Nat) :
    decoder (lst_type × List lst_field) := do
  if current ≥ end_ then raise decode_error.protocol_error
  let sequence_uctl_field ← read fields current
  let element_uctl_type := sequence_uctl_field.type.u.legacy_sequence.elem_type
  let length_uctl_type := sequence_uctl_field.type.u.legacy_sequence.length_type
  let sequence_alignment := 0
  if element_uctl_type.atype ≠ lttng_ust_ctl_abstract_types.integer then
    raise decode_error.protocol_error
  if length_uctl_type.atype ≠ lttng_ust_ctl_abstract_types.integer then
    raise decode_error.protocol_error
  let element_encoding ← element_text_encoding element_uctl_type.atype
    element_uctl_type.integer
  let length_field_name := "_" ++ sequence_uctl_field.name.getD "" ++ "_length"
  let element_type ← create_integer_type_from_ust_ctl_basic_type attributes element_uctl_type
  let length_type ← create_integer_type_from_ust_ctl_basic_type attributes length_uctl_type
  -- Publish an implicit length field _before_ the sequence field.
  let published : List lst_field := [(length_field_name, length_type)]
  set_next_ust_ctl_field (current + 1)
  match element_encoding with
  | some text =>
    if element_type.integer_size ≠ 8 then raise decode_error.protocol_error
    -- Sequence is a dynamic-length string.
    pure (lst_type.dynamic_length_string_type sequence_alignment text
      (some length_field_name), published)
  | none =>
    pure (lst_type.dynamic_length_array_type sequence_alignment element_type
      (some length_field_name), published)

/-- `create_sequence_nestable_type_from_ust_ctl_fields`: a nestable sequence is
followed by its element type in the next entry, whose `atype` is read before the
element is decoded by `create_type` (`create_type_from_ust_ctl_fields`). -/
def create_sequence_nestable_type_from_ust_ctl_fields
    (create_type : Nat → decoder (lst_type × List lst_field))
    (fields : Nat → lttng_ust_ctl_field) (end_ : Nat) (current : Nat) :
    decoder (lst_type × List lst_field) := do
  if current ≥ end_ then raise decode_error.protocol_error
  let sequence_uctl_field ← read fields current
  let sequence_alignment := sequence_uctl_field.type.u.sequence_nestable.alignment
  let length_field_name := sequence_uctl_field.type.u.sequence_nestable.length_name
  -- Nestable sequence fields are followed by their element type.
  let element_uctl_field ← read fields (current + 1)
  let element_encoding ← element_text_encoding element_uctl_field.type.atype
    element_uctl_field.type.u.integer
  -- next_ust_ctl_field is updated as needed.
  let element ← create_type (current + 1)
  if length_field_name = none then raise decode_error.protocol_error
  match element_encoding with
  | some text =>
    if element.1.integer_size ≠ 8 then raise decode_error.protocol_error
    -- Sequence is a dynamic-length string.
    pure (lst_type.dynamic_length_string_type sequence_alignment text length_field_name,
      element.2)
  | none =>
    pure (lst_type.dynamic_length_array_type sequence_alignment element.1 length_field_name,
      element.2)

/-- `create_structure_field_from_ust_ctl_fields`: only empty structures are
accepted. -/
def create_structure_field_from_ust_ctl_fields
    (fields : Nat → lttng_ust_ctl_field) (end_ : Nat) (current : Nat) : decoder lst_type := do
  if current ≥ end_ then raise decode_error.protocol_error
  let structure_uctl_field ← read fields current
  let field_count :=
    if structure_uctl_field.type.atype = lttng_ust_ctl_abstract_types.struct then
      structure_uctl_field.type.u.legacy_struct_nr_fields
    else structure_uctl_field.type.u.struct_nestable.nr_fields
  let alignment :=
    if structure_uctl_field.type.atype = lttng_ust_ctl_abstract_types.struct then 0
    else structure_uctl_field.type.u.struct_nestable.alignment
  if field_count ≠ 0 then raise decode_error.protocol_error
  set_next_ust_ctl_field (current + 1)
  pure (lst_type.structure_type alignment)

/-- The `for` loop of `create_variant_field_from_ust_ctl_fields` over the
`choice_count` choices: each turn decodes a field at `current` by
`create_field` (`create_field_from_ust_ctl_fields`), which publishes into the
choices, and continues at `*next_ust_ctl_field`. -/
def create_variant_choices (create_field : Nat → decoder (List lst_field)) :
    Nat → Nat → decoder (List lst_field)
  | 0, _ => pure []
  | choice_count + 1, current => do
    let published ← create_field current
    let current ← next_ust_ctl_field
    let choices ← create_variant_choices create_field choice_count current
    pure (published ++ choices)

/-- `create_variant_field_from_ust_ctl_fields`: the choices of a variant follow
it in the array. -/
def create_variant_field_from_ust_ctl_fields (create_field : Nat → decoder (List lst_field))
    (fields : Nat → lttng_ust_ctl_field) (end_ : Nat) (current : Nat) : decoder lst_type := do
  if current ≥ end_ then raise decode_error.protocol_error
  let variant_uctl_field ← read fields current
  let current := current + 1
  let alignment :=
    if variant_uctl_field.type.atype = lttng_ust_ctl_abstract_types.variant then 0
    else variant_uctl_field.type.u.variant_nestable.alignment
  let choice_count :=
    if variant_uctl_field.type.atype = lttng_ust_ctl_abstract_types.variant then
      variant_uctl_field.type.u.legacy_variant.nr_choices
    else variant_uctl_field.type.u.variant_nestable.nr_choices
  let tag_name :=
    if variant_uctl_field.type.atype = lttng_ust_ctl_abstract_types.variant then
      variant_uctl_field.type.u.legacy_variant.tag_name
    else variant_uctl_field.type.u.variant_nestable.tag_name
  -- Choices follow. next_ust_ctl_field is updated as needed.
  let choices ← create_variant_choices create_field choice_count current
  pure (lst_type.variant_type alignment tag_name choices)

/-- `create_field_from_ust_ctl_fields`, which asserts `current < end`; the
result is the list of the fields published: those that the decoding of the type
published, then the field itself. -/
def create_field_from_ust_ctl_fields (create_type : Nat → decoder (lst_type × List lst_field))
    (fields : Nat → lttng_ust_ctl_field) (end_ : Nat) (current : Nat) :
    decoder (List lst_field) := do
  if ¬ current < end_ then raise decode_error.assertion_failed
  let field ← read fields current
  match field.name with
  | none => raise decode_error.protocol_error
  | some name =>
    let created ← create_type current
    pure (created.2 ++ [(name, created.1)])

/-- `create_type_from_ust_ctl_fields`: the `switch` on the `atype` of the entry
at `current`, read before any comparison of `current` with `end`.  The first
argument bounds the depth of the nested calls. -/
def create_type_from_ust_ctl_fields (attributes : session_attributes)
    (fields : Nat → lttng_ust_ctl_field) (end_ : Nat) :
    Nat → Nat → decoder (lst_type × List lst_field)
  | 0, _ => raise decode_error.out_of_fuel
  | depth + 1, current => do
    let field ← read fields current
    match field.type.atype with
    | lttng_ust_ctl_abstract_types.integer =>
      let type ← create_integer_type_from_ust_ctl_fields attributes fields end_ current
      pure (type, [])
    | lttng_ust_ctl_abstract_types.enum | lttng_ust_ctl_abstract_types.enum_nestable =>
      let type ← create_enumeration_type_from_ust_ctl_fields attributes fields end_ current
      pure (type, [])
    | lttng_ust_ctl_abstract_types.float =>
      let type ← create_floating_point_type_from_ust_ctl_fields attributes fields end_ current
      pure (type, [])
    | lttng_ust_ctl_abstract_types.string =>
      let type ← create_string_type_from_ust_ctl_fields fields end_ current
      pure (type, [])
    | lttng_ust_ctl_abstract_types.array =>
      let type ← create_array_type_from_ust_ctl_fields attributes fields end_ current
      pure (type, [])
    | lttng_ust_ctl_abstract_types.array_nestable =>
      create_array_nestable_type_from_ust_ctl_fields
        (fun element => create_type_from_ust_ctl_fields attributes fields end_ depth element)
        fields end_ current
    | lttng_ust_ctl_abstract_types.sequence =>
      create_sequence_type_from_ust_ctl_fields attributes fields end_ current
    | lttng_ust_ctl_abstract_types.sequence_nestable =>
      create_sequence_nestable_type_from_ust_ctl_fields
        (fun element => create_type_from_ust_ctl_fields attributes fields end_ depth element)
        fields end_ current
    | lttng_ust_ctl_abstract_types.struct | lttng_ust_ctl_abstract_types.struct_nestable =>
      let type ← create_structure_field_from_ust_ctl_fields fields end_ current
      pure (type, [])
    | lttng_ust_ctl_abstract_types.variant | lttng_ust_ctl_abstract_types.variant_nestable =>
      let type ← create_variant_field_from_ust_ctl_fields
        (fun choice => create_field_from_ust_ctl_fields
          (fun nested => create_type_from_ust_ctl_fields attributes fields end_ depth nested)
          fields end_ choice)
        fields end_ current
      pure (type, [])
    | lttng_ust_ctl_abstract_types.OTHER _ => raise decode_error.protocol_error

/-- The `while (current < end)` loop of `create_fields_from_ust_ctl_fields`:
each turn sets `next_field` to `current`, decodes one field and continues at
`next_field`.  `fuel` bounds the number of turns, `depth` the nested calls of a
turn; `decoded_fields` are the fields pushed so far and `reads` the indices read
so far. -/
def create_fields_loop (attributes : session_attributes) (fields : Nat → lttng_ust_ctl_field)
    (end_ : Nat) (depth : Nat) :
    Nat → Nat → List lst_field → List Nat → decoded (List lst_field)
  | 0, current, decoded_fields, reads =>
    if current < end_ then decoded.raised decode_error.out_of_fuel reads
    else decoded.ok decoded_fields { next_ust_ctl_field := current, reads := reads }
  | fuel + 1, current, decoded_fields, reads =>
    if current < end_ then
      match create_field_from_ust_ctl_fields
          (create_type_from_ust_ctl_fields attributes fields end_ depth) fields end_ current
          { next_ust_ctl_field := current, reads := reads } with
      | decoded.ok published state =>
        create_fields_loop attributes fields end_ depth fuel state.next_ust_ctl_field
          (decoded_fields ++ published) state.reads
      | decoded.raised error reads => decoded.raised error reads
    else decoded.ok decoded_fields { next_ust_ctl_field := current, reads := reads }

/-- `create_fields_from_ust_ctl_fields`, run for at most `fuel` turns of its
loop with nested calls of depth at most `fuel`. -/
def create_fields_from_ust_ctl_fields (attributes : session_attributes)
    (fields : Nat → lttng_ust_ctl_field) (current end_ : Nat) (fuel : Nat) :
    decoded (List lst_field) :=
  create_fields_loop attributes fields end_ fuel fuel current [] []

/-- `create_trace_fields_from_ust_ctl_fields`: the decoding of the `field_count`
entries of `fields`. -/
def create_trace_fields_from_ust_ctl_fields (attributes : session_attributes)
    (fields : Nat → lttng_ust_ctl_field) (field_count : Nat) (fuel : Nat) :
    decoded (List lst_field) :=
  create_fields_from_ust_ctl_fields attributes fields 0 field_count fuel

/-- The error of an outcome, if it is one. -/
def decoded.error {α : Type} : decoded α → Option decode_error
  | decoded.ok _ _ => none
  | decoded.raised error _ => some error

/-- The indices read until an outcome. -/
def decoded.reads {α : Type} : decoded α → List Nat
  | decoded.ok _ state => state.reads
  | decoded.raised _ reads => reads

/-! ## Concrete environments and worlds -/

/-- A session without rotation in progress and without consumers. -/
def idle_session (id : Nat) : ltt_session :=
  { id := id
    rotation_state := lttng_rotation_state.NO_ROTATION
    chunk_being_archived := none
    last_archived_chunk_id := none
    last_archived_chunk_name := none
    quiet_rotation := false
    ust_session := none
    kernel_session := none
    rotate_size := 0
    rotate_trigger := none }

/-- An environment in which every call succeeds and every consumer answers
`UNKNOWN_CHUNK`. -/
def calm_env : Env :=
  { zmalloc := fun _ => true
    lttng_write := fun _ => lttng_write_result.written
    timer_session_rotation_pending_check_stop := fun _ _ => 0
    timer_session_rotation_pending_check_start := fun _ _ _ => 0
    consumer_trace_chunk_exists := fun _ _ _ _ _ =>
      (0, consumer_trace_chunk_exists_status.UNKNOWN_CHUNK)
    strdup := fun _ => true
    session_get_trace_archive_location := fun _ => 0
    notification_thread_command_session_rotation_completed := fun _ _ _ _ => 10
    cmd_rotate_session := fun _ session _ _ => (10, session)
    DEFAULT_ROTATE_PENDING_TIMER := 500000
    session_find_by_name := fun _ _ => some 1
    unsubscribe_session_consumed_size_rotation := fun _ session =>
      (0, { session with rotate_trigger := none })
    subscribe_session_consumed_size_rotation := fun _ session size =>
      (0, { session with rotate_trigger := some { id := size } })
    LTTNG_OK := 10
    LTTNG_ERR_ROTATION_PENDING := 125
    LTTNG_ERR_ROTATION_MULTIPLE_AFTER_STOP := 126
    LTTNG_ERR_ROTATION_AFTER_STOP_CLEAR := 127
    lttng_notification_channel_has_pending_notification := fun _ =>
      (lttng_notification_channel_status.OK, false)
    lttng_notification_channel_get_next_notification := fun _ =>
      next_notification.NOTIFICATIONS_DROPPED
    lttng_read := fun _ => 1 }

/-- The world at start-up: an empty queue, no reference taken, idle sessions. -/
def empty_world : World :=
  { queue := { event_pipe := 0, list := [] }
    refs := fun _ => 0
    sessions := idle_session
    log := []
    executed := [] }

/-- An environment in which every allocation fails. -/
def oom_env : Env :=
  { calm_env with
    zmalloc := fun _ => false
    strdup := fun _ => false }

/-- A world whose queue holds one pending-check job for session 1. -/
def one_job_world : World :=
  { empty_world with
    queue :=
      { event_pipe := 1
        list := [rotation_thread_job.mk rotation_thread_job_type.CHECK_PENDING_ROTATION
          (some 1)] }
    refs := Function.update (fun _ => 0) 1 1 }

/-- A world whose queue holds three jobs of both types for sessions 1 and 2. -/
def three_jobs_world : World :=
  { empty_world with
    queue :=
      { event_pipe := 3
        list :=
          [rotation_thread_job.mk rotation_thread_job_type.CHECK_PENDING_ROTATION (some 1),
           rotation_thread_job.mk rotation_thread_job_type.SCHEDULED_ROTATION (some 2),
           rotation_thread_job.mk rotation_thread_job_type.SCHEDULED_ROTATION (some 1)] }
    refs := Function.update (Function.update (fun _ => 0) 1 2) 2 1 }

/-- A session whose chunk 7 is being archived, with three local user-space
consumer sockets (descriptors 3, 4 and 5) and no kernel domain. -/
def rotating_session (id : Nat) : ltt_session :=
  { id := id
    rotation_state := lttng_rotation_state.ONGOING
    chunk_being_archived := some { id := 7, name := "20260101T000000+0000-7" }
    last_archived_chunk_id := some 6
    last_archived_chunk_name := some "20260101T000000+0000-6"
    quiet_rotation := false
    ust_session := some { consumer :=
      { type := consumer_dst_type.CONSUMER_DST_LOCAL
        net_seq_index := 2 ^ 64 - 1
        socks := [{ fd := 3 }, { fd := 4 }, { fd := 5 }] } }
    kernel_session := none
    rotate_size := 0
    rotate_trigger := none }

/-- The empty world in which the session at address 1 is rotating. -/
def rotating_world : World :=
  { empty_world with
    sessions := fun address => if address = 1 then rotating_session 1 else idle_session address }

/-- An environment in which the consumer behind descriptor 3 still has the
chunk and the other consumers do not: the answers `[Exists, Absent, Absent]`. -/
def busy_env : Env :=
  { calm_env with
    consumer_trace_chunk_exists := fun _ socket _ _ _ =>
      if socket.fd = 3 then (0, consumer_trace_chunk_exists_status.EXISTS 0)
      else (0, consumer_trace_chunk_exists_status.UNKNOWN_CHUNK) }

/-- The environment `busy_env` in which, moreover, the pending-check timer
cannot be started. -/
def rearm_failing_env : Env :=
  { busy_env with
    timer_session_rotation_pending_check_start := fun _ _ _ => -1 }

/-- An environment in which the query on descriptor 4 fails and the other
consumers answer `UNKNOWN_CHUNK`. -/
def broken_env : Env :=
  { calm_env with
    consumer_trace_chunk_exists := fun _ socket _ _ _ =>
      if socket.fd = 4 then (-1, consumer_trace_chunk_exists_status.UNKNOWN_CHUNK)
      else (0, consumer_trace_chunk_exists_status.UNKNOWN_CHUNK) }

/-- The world `rotating_world` whose queue holds a pending check of session 1
and, behind it, a scheduled rotation of session 2. -/
def pending_world : World :=
  { rotating_world with
    queue :=
      { event_pipe := 2
        list :=
          [rotation_thread_job.mk rotation_thread_job_type.CHECK_PENDING_ROTATION (some 1),
           rotation_thread_job.mk rotation_thread_job_type.SCHEDULED_ROTATION (some 2)] }
    refs := Function.update (Function.update (fun _ => 0) 1 1) 2 1 }

/-- A session with a size-based rotation every 100 bytes, whose registered
trigger is the one of the threshold 100. -/
def sized_session (id : Nat) : ltt_session :=
  { idle_session id with rotate_size := 100, rotate_trigger := some { id := 100 } }

/-- The world at start-up with sessions rotated by size. -/
def sized_world : World :=
  { empty_world with sessions := sized_session }

/-- The name of the session of the notifications below. -/
def trace_name : String := "trace"

/-- A notification of the consumed size `consumed` of the session
`trace_name`, sent for the trigger `trigger`. -/
def size_notification (consumed trigger : Nat) : lttng_notification :=
  { condition_type := lttng_condition_type.SESSION_CONSUMED_SIZE
    session_name := some trace_name
    consumed_size := some consumed
    trigger := { id := trigger } }

/-- An environment whose notification channel holds two notifications of
the consumed size of the session `trace_name`: a notification is pending until
two have been received. -/
def crowded_env : Env :=
  { calm_env with
    lttng_notification_channel_has_pending_notification := fun log =>
      (lttng_notification_channel_status.OK,
        decide ((log.filter Event.is_get_next).length < 2))
    lttng_notification_channel_get_next_notification := fun _ =>
      next_notification.OK (size_notification 150 100) }

/-- An environment in which the pending-check timer cannot be stopped. -/
def stuck_timer_env : Env :=
  { calm_env with
    timer_session_rotation_pending_check_stop := fun _ _ => -1 }

/-- The rotating session with, in addition, a kernel domain whose consumer
output is network-addressed, with the index 5 and one socket (descriptor 9). -/
def relayed_session (id : Nat) : ltt_session :=
  { rotating_session id with
    kernel_session := some { consumer :=
      { type := consumer_dst_type.CONSUMER_DST_NET
        net_seq_index := 5
        socks := [{ fd := 9 }] } } }

/-- A session whose chunk 7 is being archived, with one user-space consumer
socket (descriptor 3) on a network-addressed output whose `net_seq_index` is
`(uint64_t) -1ULL`. -/
def unset_relay_session (id : Nat) : ltt_session :=
  { rotating_session id with
    ust_session := some { consumer :=
      { type := consumer_dst_type.CONSUMER_DST_NET
        net_seq_index := 2 ^ 64 - 1
        socks := [{ fd := 3 }] } } }

/-- The world `rotating_world` whose queue holds a scheduled rotation of
session 2, a pending check of session 1 and a scheduled rotation of session
3. -/
def late_failure_world : World :=
  { rotating_world with
    queue :=
      { event_pipe := 3
        list :=
          [rotation_thread_job.mk rotation_thread_job_type.SCHEDULED_ROTATION (some 2),
           rotation_thread_job.mk rotation_thread_job_type.CHECK_PENDING_ROTATION (some 1),
           rotation_thread_job.mk rotation_thread_job_type.SCHEDULED_ROTATION (some 3)] }
    refs := fun address => if address = 1 ∨ address = 2 ∨ address = 3 then 1 else 0 }

/-- Session attributes with a little-endian trace, a registry that knows every
enumeration and a floating point constructor that accepts every value. -/
def plain_attributes : session_attributes :=
  { get_registry_enum := fun _ _ => Except.ok 0
    _native_trace_byte_order := byte_order.LITTLE_ENDIAN_
    reverse_byte_order := fun order =>
      match order with
      | byte_order.BIG_ENDIAN_ => byte_order.LITTLE_ENDIAN_
      | byte_order.LITTLE_ENDIAN_ => byte_order.BIG_ENDIAN_
    floating_point_valid := fun _ _ => true }

/-- A 32-bit unsigned integer in base 10 that is no text character. -/
def plain_integer : lttng_ust_ctl_integer_type :=
  { size := 32, signedness := 0, reverse_byte_order := 0, base := 10
    encoding := lttng_ust_ctl_string_encodings.none, alignment := 8 }

/-- An entry named `field` that declares the integer `plain_integer`, every
member of its union being trivial. -/
def integer_field : lttng_ust_ctl_field :=
  { name := some "field"
    type :=
      { atype := lttng_ust_ctl_abstract_types.integer
        u :=
          { integer := plain_integer
            float := { exp_dig := 8, mant_dig := 24, reverse_byte_order := 0, alignment := 8 }
            string_encoding := lttng_ust_ctl_string_encodings.UTF8
            enum_nestable := { name := "", id := 0 }
            array_nestable := { length := 0, alignment := 0 }
            sequence_nestable := { length_name := some "", alignment := 0 }
            struct_nestable := { nr_fields := 0, alignment := 0 }
            variant_nestable := { nr_choices := 0, tag_name := "", alignment := 0 }
            legacy_enumeration := { name := "", id := 0, container_type := plain_integer }
            legacy_array :=
              { elem_type :=
                  { atype := lttng_ust_ctl_abstract_types.integer, integer := plain_integer }
                length := 0 }
            legacy_sequence :=
              { length_type :=
                  { atype := lttng_ust_ctl_abstract_types.integer, integer := plain_integer }
                elem_type :=
                  { atype := lttng_ust_ctl_abstract_types.integer, integer := plain_integer } }
            legacy_struct_nr_fields := 0
            legacy_variant := { nr_choices := 0, tag_name := "" } } } }

/-- An entry named `field` that declares a nestable variant with `nr_choices`
choices and the tag `tag`. -/
def variant_field (nr_choices : Nat) : lttng_ust_ctl_field :=
  { integer_field with
    type :=
      { integer_field.type with
        atype := lttng_ust_ctl_abstract_types.variant_nestable
        u := { integer_field.type.u with
          variant_nestable := { nr_choices := nr_choices, tag_name := "tag", alignment := 0 } } } }

/-- An entry named `field` that declares a nestable sequence whose length field
is `length`. -/
def sequence_nestable_field : lttng_ust_ctl_field :=
  { integer_field with
    type :=
      { integer_field.type with
        atype := lttng_ust_ctl_abstract_types.sequence_nestable
        u := { integer_field.type.u with
          sequence_nestable := { length_name := some "length", alignment := 0 } } } }

/-- An entry named `field` that declares a nestable array of length 4. -/
def array_nestable_field : lttng_ust_ctl_field :=
  { integer_field with
    type :=
      { integer_field.type with
        atype := lttng_ust_ctl_abstract_types.array_nestable
        u := { integer_field.type.u with
          array_nestable := { length := 4, alignment := 0 } } } }

/-- A memory whose entry 0 is `first`, every other entry being `beyond`. -/
def followed_by (first beyond : lttng_ust_ctl_field) : Nat → lttng_ust_ctl_field :=
  fun index => if index = 0 then first else beyond

/-! ## Lemmas on the queue -/

theorem timer_job_exists_eq_false {queue : rotation_thread_timer_queue}
    {job_type : rotation_thread_job_type} {session : Nat}
    (h : timer_job_exists queue job_type session = false) :
    ∀ job ∈ queue.list, ¬ (job.session = some session ∧ job.type = job_type) := by
  intro job hjob hkey
  have : timer_job_exists queue job_type session = true := by
    unfold timer_job_exists
    rw [List.any_eq_true]
    exact ⟨job, hjob, by simpa using hkey⟩
  rw [h] at this
  exact Bool.noConfusion this

theorem enqueue_list (env : Env) (job_type : rotation_thread_job_type) (session : Nat)
    (w : World) :
    (rotation_thread_enqueue_job env job_type session w).queue.list =
      if timer_job_exists w.queue job_type session = false ∧ env.zmalloc w.log = true then
        w.queue.list ++ [rotation_thread_job.mk job_type (some session)]
      else w.queue.list := by
  unfold rotation_thread_enqueue_job
  cases hex : timer_job_exists w.queue job_type session
  · cases hal : env.zmalloc w.log
    · simp
    · simp [session_get]
  · simp

theorem enqueue_no_duplicate (env : Env) (job_type : rotation_thread_job_type)
    (session : Nat) (w : World) (h : no_duplicate_jobs w.queue) :
    no_duplicate_jobs (rotation_thread_enqueue_job env job_type session w).queue := by
  unfold no_duplicate_jobs at *
  rw [enqueue_list]
  split
  · rename_i hc
    rw [List.pairwise_append]
    refine ⟨h, List.pairwise_singleton _ _, ?_⟩
    intro a ha b hb
    rw [List.mem_singleton] at hb
    subst hb
    exact timer_job_exists_eq_false hc.1 a ha
  · exact h

theorem handle_job_list (env : Env) (job : rotation_thread_job)
    (rest : List rotation_thread_job) (w : World) :
    (handle_job env job rest w).2.queue.list = rest := by
  unfold handle_job
  cases job.session <;> rfl

theorem handle_job_executed (env : Env) (job : rotation_thread_job)
    (rest : List rotation_thread_job) (w : World) :
    (handle_job env job rest w).2.executed =
      w.executed ++
        (match job.session with
          | none => []
          | some _ => [(job, (handle_job env job rest w).1)]) := by
  unfold handle_job
  cases job.session <;> simp [session_put]

theorem handle_job_queue_loop_suffix (env : Env) (jobs : List rotation_thread_job) :
    ∀ w : World, (handle_job_queue_loop env jobs w).2.queue.list <:+ jobs := by
  induction jobs with
  | nil => intro w; simp [handle_job_queue_loop]
  | cons job rest ih =>
    intro w
    unfold handle_job_queue_loop
    simp only []
    split
    · rw [handle_job_list]
      exact List.suffix_cons job rest
    · exact (ih _).trans (List.suffix_cons job rest)

theorem drain_no_duplicate (env : Env) (w : World) (h : no_duplicate_jobs w.queue) :
    no_duplicate_jobs (handle_job_queue env w).2.queue := by
  unfold no_duplicate_jobs at *
  exact h.sublist (handle_job_queue_loop_suffix env w.queue.list w).sublist

theorem run_ops_no_duplicate (env : Env) (ops : List Op) :
    ∀ w : World, no_duplicate_jobs w.queue → no_duplicate_jobs (run_ops env ops w).queue := by
  induction ops with
  | nil => intro w h; exact h
  | cons op ops ih =>
    intro w h
    unfold run_ops
    apply ih
    cases op with
    | enqueue job_type session => exact enqueue_no_duplicate env job_type session w h
    | drain => exact drain_no_duplicate env w h
    | turn =>
      unfold no_duplicate_jobs at *
      simp only [step]
      cases hlist : w.queue.list with
      | nil => simp [hlist]
      | cons job rest =>
        simp only []
        rw [handle_job_list]
        rw [hlist] at h
        exact (List.pairwise_cons.1 h).2

theorem timer_job_exists_eq_true_iff (queue : rotation_thread_timer_queue)
    (job_type : rotation_thread_job_type) (session : Nat) :
    timer_job_exists queue job_type session = true ↔
      ∃ job ∈ queue.list, job.session = some session ∧ job.type = job_type := by
  unfold timer_job_exists
  rw [List.any_eq_true]
  constructor
  · rintro ⟨job, hjob, hkey⟩
    exact ⟨job, hjob, by simpa using hkey⟩
  · rintro ⟨job, hjob, hkey⟩
    exact ⟨job, hjob, by simpa using hkey⟩

theorem timer_job_exists_eq_false_iff (queue : rotation_thread_timer_queue)
    (job_type : rotation_thread_job_type) (session : Nat) :
    timer_job_exists queue job_type session = false ↔
      ∀ job ∈ queue.list, ¬ (job.session = some session ∧ job.type = job_type) := by
  constructor
  · exact timer_job_exists_eq_false
  · intro h
    cases hex : timer_job_exists queue job_type session
    · rfl
    · obtain ⟨job, hjob, hkey⟩ := (timer_job_exists_eq_true_iff queue job_type session).1 hex
      exact absurd hkey (h job hjob)

/-- Enqueue of a job that is already pending: nothing changes. -/
theorem enqueue_of_pending (env : Env) (job_type : rotation_thread_job_type) (session : Nat)
    (w : World)
    (h : ∃ job ∈ w.queue.list, job.session = some session ∧ job.type = job_type) :
    rotation_thread_enqueue_job env job_type session w = w := by
  unfold rotation_thread_enqueue_job
  rw [if_pos ((timer_job_exists_eq_true_iff w.queue job_type session).2 h)]

/-- Enqueue of a job that is not pending, when the job is allocated. -/
theorem enqueue_of_new (env : Env) (job_type : rotation_thread_job_type) (session : Nat)
    (w : World)
    (h : ∀ job ∈ w.queue.list, ¬ (job.session = some session ∧ job.type = job_type))
    (halloc : env.zmalloc w.log = true) :
    rotation_thread_enqueue_job env job_type session w =
      { queue :=
          { event_pipe := w.queue.event_pipe +
              (env.lttng_write (w.log ++ [Event.zmalloc true, Event.session_get session])).bytes
            list := w.queue.list ++ [rotation_thread_job.mk job_type (some session)] }
        refs := Function.update w.refs session (w.refs session + 1)
        sessions := w.sessions
        log := w.log ++ [Event.zmalloc true, Event.session_get session,
          Event.lttng_write
            (env.lttng_write (w.log ++ [Event.zmalloc true, Event.session_get session]))]
        executed := w.executed } := by
  unfold rotation_thread_enqueue_job
  rw [(timer_job_exists_eq_false_iff w.queue job_type session).2 h]
  simp [halloc, session_get]

/-- Enqueue of a job that is not pending, when the allocation of the job fails:
only the failed allocation is recorded. -/
theorem enqueue_of_failed_allocation (env : Env) (job_type : rotation_thread_job_type)
    (session : Nat) (w : World)
    (h : ∀ job ∈ w.queue.list, ¬ (job.session = some session ∧ job.type = job_type))
    (halloc : env.zmalloc w.log = false) :
    rotation_thread_enqueue_job env job_type session w =
      { w with log := w.log ++ [Event.zmalloc false] } := by
  unfold rotation_thread_enqueue_job
  rw [(timer_job_exists_eq_false_iff w.queue job_type session).2 h]
  simp [halloc]

/-- The drain of a queue that holds a single job with a session executes that
job once. -/
theorem handle_job_queue_single (env : Env) (w : World) (job_type : rotation_thread_job_type)
    (session : Nat)
    (h : w.queue.list = [rotation_thread_job.mk job_type (some session)]) :
    ∃ ret, (handle_job_queue env w).2.executed =
      w.executed ++ [(rotation_thread_job.mk job_type (some session), ret)] := by
  refine ⟨(handle_job env (rotation_thread_job.mk job_type (some session)) [] w).1, ?_⟩
  unfold handle_job_queue
  rw [h]
  unfold handle_job_queue_loop
  simp only []
  split
  · rw [handle_job_executed]
  · unfold handle_job_queue_loop
    simp only []
    rw [handle_job_executed]

/-- The loop of the drain extends the record of executed jobs; when every job
holds a session and every added entry returned zero, the added entries are the
jobs of the queue in order, the loop returns zero and the queue is empty. -/
theorem handle_job_queue_loop_fifo (env : Env) (jobs : List rotation_thread_job) :
    ∀ w : World, (∀ job ∈ jobs, job.session ≠ none) →
      ∃ entries, (handle_job_queue_loop env jobs w).2.executed = w.executed ++ entries ∧
        ((∀ entry ∈ entries, entry.2 = 0) →
          entries.map Prod.fst = jobs ∧ (handle_job_queue_loop env jobs w).1 = 0 ∧
          (handle_job_queue_loop env jobs w).2.queue.list = []) := by
  induction jobs with
  | nil =>
    intro w _
    exact ⟨[], by simp [handle_job_queue_loop], fun _ => by simp [handle_job_queue_loop]⟩
  | cons job rest ih =>
    intro w hsession
    have hrest : ∀ j ∈ rest, j.session ≠ none := fun j hj =>
      hsession j (List.mem_cons_of_mem job hj)
    have hexecuted : (handle_job env job rest w).2.executed =
        w.executed ++ [(job, (handle_job env job rest w).1)] := by
      rw [handle_job_executed]
      cases hs : job.session with
      | none => exact absurd hs (hsession job (List.mem_cons_self job rest))
      | some session => rfl
    unfold handle_job_queue_loop
    simp only []
    split
    · rename_i hret
      refine ⟨[(job, (handle_job env job rest w).1)], hexecuted, ?_⟩
      intro hzero
      exact absurd (hzero _ (List.mem_singleton_self _)) hret
    · obtain ⟨entries, hexec, hfifo⟩ := ih (handle_job env job rest w).2 hrest
      refine ⟨(job, (handle_job env job rest w).1) :: entries, ?_, ?_⟩
      · rw [hexec, hexecuted]
        simp
      · intro hzero
        obtain ⟨h1, h2, h3⟩ := hfifo fun entry hentry =>
          hzero entry (List.mem_cons_of_mem _ hentry)
        exact ⟨by simp [h1], h2, h3⟩

theorem scan_consumer_sockets_spec (env : Env) (session : ltt_session)
    (consumer : consumer_output) (socks : List consumer_socket) :
    ∀ log : List Event, ∃ events,
      scan_spec socks log (scan_consumer_sockets env session consumer socks log) events := by
  induction socks with
  | nil =>
    intro log
    refine ⟨[], ?_⟩
    constructor <;> simp [scan_consumer_sockets, queried_sockets]
  | cons socket rest ih =>
    intro log
    unfold scan_consumer_sockets
    simp only []
    split
    · rename_i hret
      refine ⟨[query_event env session consumer socket log], ?_⟩
      constructor <;>
        simp [query_event, queried_sockets, Event.is_query, Event.queried_socket,
          Event.reports_exists, Event.query_failed, hret]
    · rename_i hret
      rw [not_not] at hret
      split
      · rename_i hstatus
        refine ⟨[query_event env session consumer socket log], ?_⟩
        constructor <;>
          simp [query_event, queried_sockets, Event.is_query, Event.queried_socket,
            Event.reports_exists, Event.query_failed, hret, hstatus]
      · rename_i hstatus
        rw [not_not] at hstatus
        obtain ⟨events, h⟩ := ih (log ++ [query_event env session consumer socket log])
        refine ⟨query_event env session consumer socket log :: events, ?_⟩
        constructor
        · have := h.log_eq
          simpa [query_event] using this
        · intro e he
          rcases List.mem_cons.1 he with rfl | he
          · rfl
          · exact h.queries e he
        · have := h.in_order
          simpa [query_event, queried_sockets, Event.queried_socket,
            List.prefix_cons_inj] using this
        · have := h.exists_iff
          simpa [query_event, Event.reports_exists, hstatus] using this
        · have := h.failed_iff
          simpa [query_event, Event.query_failed, hret] using this
        · exact h.exists_ret
        · intro h1 h2
          obtain ⟨hq, hu⟩ := h.complete h1 h2
          refine ⟨?_, ?_⟩
          · simpa [query_event, queried_sockets, Event.queried_socket] using hq
          · intro e he
            rcases List.mem_cons.1 he with rfl | he
            · simp [query_event, Event.answers_unknown, hret, hstatus]
            · exact hu e he

theorem scan_spec_nil (log : List Event) :
    scan_spec [] log { ret := 0, chunk_exists_on_peer := false, log := log } [] := by
  constructor <;> simp [queried_sockets]

theorem scan_spec_stop {first second : List consumer_socket} {log : List Event}
    {result : scan_state} {events : List Event} (h : scan_spec first log result events)
    (hstop : result.ret ≠ 0 ∨ result.chunk_exists_on_peer = true) :
    scan_spec (first ++ second) log result events := by
  constructor
  · exact h.log_eq
  · exact h.queries
  · exact h.in_order.trans (List.prefix_append first second)
  · exact h.exists_iff
  · exact h.failed_iff
  · exact h.exists_ret
  · intro h1 h2
    rcases hstop with hret | hexists
    · exact absurd h2 hret
    · rw [h1] at hexists
      exact Bool.noConfusion hexists

theorem scan_spec_append {first second : List consumer_socket} {log : List Event}
    {ust result : scan_state} {events_ust events : List Event}
    (h1 : scan_spec first log ust events_ust)
    (hret : ust.ret = 0) (hexists : ust.chunk_exists_on_peer = false)
    (h2 : scan_spec second ust.log result events) :
    scan_spec (first ++ second) log result (events_ust ++ events) := by
  obtain ⟨hq, hu⟩ := h1.complete hexists hret
  have hno_exists : ∀ e ∈ events_ust, e.reports_exists = false := by
    intro e he
    cases hr : e.reports_exists
    · rfl
    · have := h1.exists_iff.2 ⟨e, he, hr⟩
      rw [hexists] at this
      exact Bool.noConfusion this
  have hno_failed : ∀ e ∈ events_ust, e.query_failed = false := by
    intro e he
    cases hr : e.query_failed
    · rfl
    · exact absurd hret (h1.failed_iff.2 ⟨e, he, hr⟩)
  constructor
  · rw [h2.log_eq, h1.log_eq, List.append_assoc]
  · intro e he
    rcases List.mem_append.1 he with he | he
    · exact h1.queries e he
    · exact h2.queries e he
  · have := h2.in_order
    unfold queried_sockets at *
    rw [List.filterMap_append, hq]
    exact (List.prefix_append_right_inj first).2 this
  · rw [h2.exists_iff]
    constructor
    · rintro ⟨e, he, hr⟩
      exact ⟨e, List.mem_append_right _ he, hr⟩
    · rintro ⟨e, he, hr⟩
      rcases List.mem_append.1 he with he | he
      · rw [hno_exists e he] at hr
        exact Bool.noConfusion hr
      · exact ⟨e, he, hr⟩
  · rw [h2.failed_iff]
    constructor
    · rintro ⟨e, he, hr⟩
      exact ⟨e, List.mem_append_right _ he, hr⟩
    · rintro ⟨e, he, hr⟩
      rcases List.mem_append.1 he with he | he
      · rw [hno_failed e he] at hr
        exact Bool.noConfusion hr
      · exact ⟨e, he, hr⟩
  · exact h2.exists_ret
  · intro h3 h4
    obtain ⟨hq2, hu2⟩ := h2.complete h3 h4
    refine ⟨?_, ?_⟩
    · unfold queried_sockets at *
      rw [List.filterMap_append, hq, hq2]
    · intro e he
      rcases List.mem_append.1 he with he | he
      · exact hu e he
      · exact hu2 e he

theorem scan_ust_consumers_spec (env : Env) (session : ltt_session) (log : List Event) :
    ∃ events, scan_spec (ust_sockets session) log (scan_ust_consumers env session log)
      events := by
  unfold scan_ust_consumers ust_sockets
  cases session.ust_session with
  | none => exact ⟨[], scan_spec_nil log⟩
  | some ust_session => exact scan_consumer_sockets_spec env session _ _ log

theorem scan_kernel_consumers_spec (env : Env) (session : ltt_session) (log : List Event) :
    ∃ events, scan_spec (kernel_sockets session) log (scan_kernel_consumers env session log)
      events := by
  unfold scan_kernel_consumers kernel_sockets
  cases session.kernel_session with
  | none => exact ⟨[], scan_spec_nil log⟩
  | some kernel_session => exact scan_consumer_sockets_spec env session _ _ log

theorem scan_consumers_spec (env : Env) (session : ltt_session) (log : List Event) :
    ∃ events, scan_spec (endpoints session) log (scan_consumers env session log) events := by
  obtain ⟨events_ust, h1⟩ := scan_ust_consumers_spec env session log
  unfold scan_consumers endpoints
  simp only []
  by_cases hstop : (scan_ust_consumers env session log).ret ≠ 0 ∨
      (scan_ust_consumers env session log).chunk_exists_on_peer = true
  · rw [if_pos hstop]
    exact ⟨events_ust, scan_spec_stop h1 hstop⟩
  · rw [if_neg hstop]
    rw [not_or, not_not, Bool.not_eq_true] at hstop
    obtain ⟨events, h2⟩ := scan_kernel_consumers_spec env session
      (scan_ust_consumers env session log).log
    exact ⟨events_ust ++ events, scan_spec_append h1 hstop.1 hstop.2 h2⟩

/-! ## Lemmas on the pending-rotation check -/

theorem check_ongoing_rotation_session (env : Env) (ret : Int) (session : ltt_session)
    (log : List Event) : (check_ongoing_rotation env ret session log).2.1 = session := by
  unfold check_ongoing_rotation
  split
  · simp only []
    split <;> rfl
  · rfl

theorem check_ongoing_rotation_log (env : Env) (ret : Int) (session : ltt_session)
    (log : List Event) :
    (check_ongoing_rotation env ret session log).2.2 =
      log ++ check_ongoing_events env session log := by
  unfold check_ongoing_rotation check_ongoing_events
  split
  · simp only []
    split <;> rfl
  · simp

theorem check_ongoing_rotation_ret (env : Env) (ret : Int) (session : ltt_session)
    (log : List Event) :
    (check_ongoing_rotation env ret session log).1 =
      if session.rotation_state = lttng_rotation_state.ONGOING then
        if env.timer_session_rotation_pending_check_start log session
          env.DEFAULT_ROTATE_PENDING_TIMER ≠ 0 then -1 else 0
      else ret := by
  unfold check_ongoing_rotation
  split
  · simp only []
    split
    · rfl
    · rename_i h
      rw [not_not] at h
      exact h
  · rfl

theorem check_ongoing_events_by_job (env : Env) (session : ltt_session) (log : List Event) :
    ∀ e ∈ check_ongoing_events env session log, e.by_job = true := by
  unfold check_ongoing_events
  split <;> simp [Event.by_job]

/-- The check of a session without a chunk being archived returns at once. -/
theorem check_of_no_chunk (env : Env) (session : ltt_session) (log : List Event)
    (hchunk : session.chunk_being_archived = none) :
    check_session_rotation_pending env session log = (0, session, log) := by
  unfold check_session_rotation_pending
  rw [hchunk]

/-- The check when the timer cannot be stopped: the consumers are not
queried. -/
theorem check_of_stop_failed (env : Env) (session : ltt_session) (log : List Event)
    (hchunk : session.chunk_being_archived ≠ none)
    (hstop : env.timer_session_rotation_pending_check_stop log session ≠ 0) :
    check_session_rotation_pending env session log =
      check_ongoing_rotation env (env.timer_session_rotation_pending_check_stop log session)
        session
        (log ++ [Event.timer_stop session.id
          (env.timer_session_rotation_pending_check_stop log session)]) := by
  unfold check_session_rotation_pending
  cases hc : session.chunk_being_archived with
  | none => exact absurd hc hchunk
  | some chunk => simp only [if_pos hstop]

/-- The check when the timer is stopped and a consumer reports the chunk. -/
theorem check_of_exists (env : Env) (session : ltt_session) (log : List Event)
    (hchunk : session.chunk_being_archived ≠ none)
    (hstop : env.timer_session_rotation_pending_check_stop log session = 0)
    (hexists : (scan_consumers env session
      (log ++ [Event.timer_stop session.id 0])).chunk_exists_on_peer = true)
    (hret : (scan_consumers env session (log ++ [Event.timer_stop session.id 0])).ret = 0) :
    check_session_rotation_pending env session log =
      check_ongoing_rotation env 0 session
        (scan_consumers env session (log ++ [Event.timer_stop session.id 0])).log := by
  unfold check_session_rotation_pending
  cases hc : session.chunk_being_archived with
  | none => exact absurd hc hchunk
  | some chunk =>
    simp [hstop, check_session_rotation_pending_on_consumers, hexists, hret]

/-- The check when the timer is stopped and a query fails. -/
theorem check_of_query_failed (env : Env) (session : ltt_session) (log : List Event)
    (hchunk : session.chunk_being_archived ≠ none)
    (hstop : env.timer_session_rotation_pending_check_stop log session = 0)
    (hret : (scan_consumers env session (log ++ [Event.timer_stop session.id 0])).ret ≠ 0) :
    check_session_rotation_pending env session log =
      (0, session_reset_rotation_state session lttng_rotation_state.ERROR,
        (scan_consumers env session (log ++ [Event.timer_stop session.id 0])).log) := by
  unfold check_session_rotation_pending
  cases hc : session.chunk_being_archived with
  | none => exact absurd hc hchunk
  | some chunk =>
    simp [hstop, check_session_rotation_pending_on_consumers, hret, check_ongoing_rotation,
      session_reset_rotation_state]

/-- The check when the timer is stopped, no consumer references the chunk, but
the session is already in the `ERROR` state. -/
theorem check_of_error_state (env : Env) (session : ltt_session) (log : List Event)
    (hchunk : session.chunk_being_archived ≠ none)
    (hstop : env.timer_session_rotation_pending_check_stop log session = 0)
    (hret : (scan_consumers env session (log ++ [Event.timer_stop session.id 0])).ret = 0)
    (hstate : session.rotation_state = lttng_rotation_state.ERROR) :
    check_session_rotation_pending env session log =
      (0, session,
        (scan_consumers env session (log ++ [Event.timer_stop session.id 0])).log) := by
  unfold check_session_rotation_pending
  cases hc : session.chunk_being_archived with
  | none => exact absurd hc hchunk
  | some chunk =>
    simp [hstop, check_session_rotation_pending_on_consumers, hret, check_ongoing_rotation,
      hstate]

theorem complete_rotation_state (env : Env) (session : ltt_session) (log : List Event) :
    (complete_rotation env session log).1.rotation_state = lttng_rotation_state.COMPLETED ∧
    (complete_rotation env session log).1.chunk_being_archived = none ∧
    (complete_rotation env session log).1.last_archived_chunk_name =
      (if env.strdup log then session.chunk_being_archived.map lttng_trace_chunk.name
        else none) := by
  exact ⟨rfl, rfl, rfl⟩

/-- The check when the timer is stopped, every query succeeds, no consumer
references the chunk and the session is not in the `ERROR` state: the rotation
is completed. -/
theorem check_of_completed (env : Env) (session : ltt_session) (log : List Event)
    (hchunk : session.chunk_being_archived ≠ none)
    (hstop : env.timer_session_rotation_pending_check_stop log session = 0)
    (hret : (scan_consumers env session (log ++ [Event.timer_stop session.id 0])).ret = 0)
    (hexists : (scan_consumers env session
      (log ++ [Event.timer_stop session.id 0])).chunk_exists_on_peer = false)
    (hstate : session.rotation_state ≠ lttng_rotation_state.ERROR) :
    check_session_rotation_pending env session log =
      (0, complete_rotation env session
        (scan_consumers env session (log ++ [Event.timer_stop session.id 0])).log) := by
  have hdone := (complete_rotation_state env session
    (scan_consumers env session (log ++ [Event.timer_stop session.id 0])).log).1
  unfold check_session_rotation_pending
  cases hc : session.chunk_being_archived with
  | none => exact absurd hc hchunk
  | some chunk =>
    simp only [hstop, check_session_rotation_pending_on_consumers, hret, hexists]
    simp [check_ongoing_rotation, hdone, hstate]

theorem is_query_by_job {e : Event} (h : e.is_query = true) : e.by_job = true := by
  cases e <;> simp_all [Event.is_query, Event.by_job]

theorem complete_rotation_log_eq (env : Env) (session : ltt_session) (log : List Event) :
    (complete_rotation env session log).2 =
      log ++ Event.strdup (env.strdup log) ::
        (if session.quiet_rotation then []
          else [rotation_completed_event env (complete_rotation env session log).1
            (log ++ [Event.strdup (env.strdup log)])]) := by
  unfold complete_rotation
  simp only [session_reset_rotation_state]
  cases session.quiet_rotation <;> simp

theorem complete_rotation_log (env : Env) (session : ltt_session) (log : List Event) :
    ∃ events, (complete_rotation env session log).2 = log ++ events ∧
      (∀ e ∈ events, e.by_job = true) ∧ (∀ e ∈ events, e.is_query = false) := by
  refine ⟨_, complete_rotation_log_eq env session log, ?_, ?_⟩
  · intro e he
    rcases List.mem_cons.1 he with rfl | he
    · rfl
    · split at he
      · exact absurd he (List.not_mem_nil e)
      · rw [List.mem_singleton] at he
        subst he
        rfl
  · intro e he
    rcases List.mem_cons.1 he with rfl | he
    · rfl
    · split at he
      · exact absurd he (List.not_mem_nil e)
      · rw [List.mem_singleton] at he
        subst he
        rfl

/-- Every event that `check_session_rotation_pending` adds to the log is a call
to a collaborator of the jobs. -/
theorem check_session_rotation_pending_log (env : Env) (session : ltt_session)
    (log : List Event) :
    ∃ events, (check_session_rotation_pending env session log).2.2 = log ++ events ∧
      ∀ e ∈ events, e.by_job = true := by
  cases hc : session.chunk_being_archived with
  | none =>
    rw [check_of_no_chunk env session log hc]
    exact ⟨[], by simp, by simp⟩
  | some chunk =>
    have hchunk : session.chunk_being_archived ≠ none := by rw [hc]; simp
    by_cases hstop : env.timer_session_rotation_pending_check_stop log session = 0
    · obtain ⟨scanned, hscan⟩ := scan_consumers_spec env session
        (log ++ [Event.timer_stop session.id 0])
      have hscanned : ∀ e ∈ scanned, e.by_job = true := fun e he =>
        is_query_by_job (hscan.queries e he)
      by_cases hret : (scan_consumers env session
          (log ++ [Event.timer_stop session.id 0])).ret = 0
      · cases hexists : (scan_consumers env session
            (log ++ [Event.timer_stop session.id 0])).chunk_exists_on_peer
        · by_cases hstate : session.rotation_state = lttng_rotation_state.ERROR
          · rw [check_of_error_state env session log hchunk hstop hret hstate]
            refine ⟨Event.timer_stop session.id 0 :: scanned, ?_, ?_⟩
            · simp [hscan.log_eq]
            · intro e he
              rcases List.mem_cons.1 he with rfl | he
              · rfl
              · exact hscanned e he
          · rw [check_of_completed env session log hchunk hstop hret hexists hstate]
            obtain ⟨events, hlog, hby, _⟩ := complete_rotation_log env session
              (scan_consumers env session (log ++ [Event.timer_stop session.id 0])).log
            refine ⟨Event.timer_stop session.id 0 :: (scanned ++ events), ?_, ?_⟩
            · simp only []
              rw [hlog, hscan.log_eq]
              simp
            · intro e he
              rcases List.mem_cons.1 he with rfl | he
              · rfl
              · rcases List.mem_append.1 he with he | he
                · exact hscanned e he
                · exact hby e he
        · rw [check_of_exists env session log hchunk hstop hexists hret,
            check_ongoing_rotation_log]
          refine ⟨Event.timer_stop session.id 0 :: (scanned ++ check_ongoing_events env session
            (scan_consumers env session (log ++ [Event.timer_stop session.id 0])).log), ?_, ?_⟩
          · rw [hscan.log_eq]
            simp
          · intro e he
            rcases List.mem_cons.1 he with rfl | he
            · rfl
            · rcases List.mem_append.1 he with he | he
              · exact hscanned e he
              · exact check_ongoing_events_by_job env session _ e he
      · rw [check_of_query_failed env session log hchunk hstop hret]
        refine ⟨Event.timer_stop session.id 0 :: scanned, ?_, ?_⟩
        · simp [hscan.log_eq]
        · intro e he
          rcases List.mem_cons.1 he with rfl | he
          · rfl
          · exact hscanned e he
    · rw [check_of_stop_failed env session log hchunk hstop, check_ongoing_rotation_log]
      refine ⟨Event.timer_stop session.id
        (env.timer_session_rotation_pending_check_stop log session) ::
        check_ongoing_events env session (log ++ [Event.timer_stop session.id
          (env.timer_session_rotation_pending_check_stop log session)]), by simp, ?_⟩
      intro e he
      rcases List.mem_cons.1 he with rfl | he
      · rfl
      · exact check_ongoing_events_by_job env session _ e he

/-- Every event that `run_job` adds to the log is a call to a collaborator of
the jobs. -/
theorem run_job_log (env : Env) (job : rotation_thread_job) (session : ltt_session)
    (log : List Event) :
    ∃ events, (run_job env job session log).2.2 = log ++ events ∧
      ∀ e ∈ events, e.by_job = true := by
  unfold run_job
  cases job.type with
  | CHECK_PENDING_ROTATION => exact check_session_rotation_pending_log env session log
  | SCHEDULED_ROTATION =>
    exact ⟨[_], rfl, by simp [Event.by_job]⟩

/-- The paths of `check_session_rotation_pending` on a session with a chunk being
archived: the timer cannot be stopped; or it is stopped and the scan of the
consumers ends on a failed query, on a consumer that reports the chunk, or
finds the chunk nowhere, in which case the rotation is completed unless the
session is in the `ERROR` state. -/
theorem check_cases (env : Env) (session : ltt_session) (log : List Event)
    (hchunk : session.chunk_being_archived ≠ none) :
    (env.timer_session_rotation_pending_check_stop log session ≠ 0 ∧
      check_session_rotation_pending env session log =
        check_ongoing_rotation env (env.timer_session_rotation_pending_check_stop log session)
          session
          (log ++ [Event.timer_stop session.id
            (env.timer_session_rotation_pending_check_stop log session)])) ∨
    (env.timer_session_rotation_pending_check_stop log session = 0 ∧
      ∃ scanned, scan_spec (endpoints session) (log ++ [Event.timer_stop session.id 0])
        (scan_consumers env session (log ++ [Event.timer_stop session.id 0])) scanned ∧
      (((scan_consumers env session (log ++ [Event.timer_stop session.id 0])).ret ≠ 0 ∧
        check_session_rotation_pending env session log =
          (0, session_reset_rotation_state session lttng_rotation_state.ERROR,
            (scan_consumers env session (log ++ [Event.timer_stop session.id 0])).log)) ∨
      ((scan_consumers env session (log ++ [Event.timer_stop session.id 0])).ret = 0 ∧
        (scan_consumers env session
          (log ++ [Event.timer_stop session.id 0])).chunk_exists_on_peer = true ∧
        check_session_rotation_pending env session log =
          check_ongoing_rotation env 0 session
            (scan_consumers env session (log ++ [Event.timer_stop session.id 0])).log) ∨
      ((scan_consumers env session (log ++ [Event.timer_stop session.id 0])).ret = 0 ∧
        (scan_consumers env session
          (log ++ [Event.timer_stop session.id 0])).chunk_exists_on_peer = false ∧
        session.rotation_state = lttng_rotation_state.ERROR ∧
        check_session_rotation_pending env session log =
          (0, session,
            (scan_consumers env session (log ++ [Event.timer_stop session.id 0])).log)) ∨
      ((scan_consumers env session (log ++ [Event.timer_stop session.id 0])).ret = 0 ∧
        (scan_consumers env session
          (log ++ [Event.timer_stop session.id 0])).chunk_exists_on_peer = false ∧
        session.rotation_state ≠ lttng_rotation_state.ERROR ∧
        check_session_rotation_pending env session log =
          (0, complete_rotation env session
            (scan_consumers env session (log ++ [Event.timer_stop session.id 0])).log)))) := by
  by_cases hstop : env.timer_session_rotation_pending_check_stop log session = 0
  · right
    obtain ⟨scanned, hscan⟩ := scan_consumers_spec env session
      (log ++ [Event.timer_stop session.id 0])
    refine ⟨hstop, scanned, hscan, ?_⟩
    by_cases hret : (scan_consumers env session
        (log ++ [Event.timer_stop session.id 0])).ret = 0
    · cases hexists : (scan_consumers env session
          (log ++ [Event.timer_stop session.id 0])).chunk_exists_on_peer
      · by_cases hstate : session.rotation_state = lttng_rotation_state.ERROR
        · exact Or.inr (Or.inr (Or.inl ⟨hret, rfl, hstate,
            check_of_error_state env session log hchunk hstop hret hstate⟩))
        · exact Or.inr (Or.inr (Or.inr ⟨hret, rfl, hstate,
            check_of_completed env session log hchunk hstop hret hexists hstate⟩))
      · exact Or.inr (Or.inl ⟨hret, rfl,
          check_of_exists env session log hchunk hstop hexists hret⟩)
    · exact Or.inl ⟨hret, check_of_query_failed env session log hchunk hstop hret⟩
  · exact Or.inl ⟨hstop, check_of_stop_failed env session log hchunk hstop⟩

theorem reports_exists_is_query {e : Event} (h : e.reports_exists = true) :
    e.is_query = true := by
  cases e <;> simp_all [Event.is_query, Event.reports_exists]

theorem query_failed_is_query {e : Event} (h : e.query_failed = true) :
    e.is_query = true := by
  cases e <;> simp_all [Event.is_query, Event.query_failed]

theorem not_query_of_check_ongoing (env : Env) (session : ltt_session) (log : List Event) :
    ∀ e ∈ check_ongoing_events env session log, e.is_query = false := by
  unfold check_ongoing_events
  split <;> simp [Event.is_query]

theorem drop_length_append (log events : List Event) :
    (log ++ events).drop log.length = events := by
  simp

/-- The result of `check_session_rotation_pending` on each of its paths, for a
session with a chunk being archived: the events added to the log, the value
returned and the session. -/
theorem check_events_cases (env : Env) (session : ltt_session) (log : List Event)
    (hchunk : session.chunk_being_archived ≠ none) :
    (env.timer_session_rotation_pending_check_stop log session ≠ 0 ∧
      check_events env session log =
        Event.timer_stop session.id
            (env.timer_session_rotation_pending_check_stop log session) ::
          check_ongoing_events env session
            (log ++ [Event.timer_stop session.id
              (env.timer_session_rotation_pending_check_stop log session)]) ∧
      (check_session_rotation_pending env session log).2.1 = session) ∨
    (env.timer_session_rotation_pending_check_stop log session = 0 ∧
      ∃ scanned, scan_spec (endpoints session) (log ++ [Event.timer_stop session.id 0])
        (scan_consumers env session (log ++ [Event.timer_stop session.id 0])) scanned ∧
      (((scan_consumers env session (log ++ [Event.timer_stop session.id 0])).ret ≠ 0 ∧
        check_events env session log = Event.timer_stop session.id 0 :: scanned ∧
        (check_session_rotation_pending env session log).1 = 0 ∧
        (check_session_rotation_pending env session log).2.1 =
          session_reset_rotation_state session lttng_rotation_state.ERROR) ∨
      ((scan_consumers env session (log ++ [Event.timer_stop session.id 0])).ret = 0 ∧
        (scan_consumers env session
          (log ++ [Event.timer_stop session.id 0])).chunk_exists_on_peer = true ∧
        check_events env session log =
          Event.timer_stop session.id 0 ::
            (scanned ++ check_ongoing_events env session
              (scan_consumers env session (log ++ [Event.timer_stop session.id 0])).log) ∧
        (check_session_rotation_pending env session log).2.1 = session) ∨
      ((scan_consumers env session (log ++ [Event.timer_stop session.id 0])).ret = 0 ∧
        (scan_consumers env session
          (log ++ [Event.timer_stop session.id 0])).chunk_exists_on_peer = false ∧
        session.rotation_state = lttng_rotation_state.ERROR ∧
        check_events env session log = Event.timer_stop session.id 0 :: scanned ∧
        (check_session_rotation_pending env session log).1 = 0 ∧
        (check_session_rotation_pending env session log).2.1 = session) ∨
      ((scan_consumers env session (log ++ [Event.timer_stop session.id 0])).ret = 0 ∧
        (scan_consumers env session
          (log ++ [Event.timer_stop session.id 0])).chunk_exists_on_peer = false ∧
        session.rotation_state ≠ lttng_rotation_state.ERROR ∧
        (∃ completion, check_events env session log =
            Event.timer_stop session.id 0 :: (scanned ++ completion) ∧
          ∀ e ∈ completion, e.is_query = false) ∧
        (check_session_rotation_pending env session log).1 = 0 ∧
        (check_session_rotation_pending env session log).2.1 =
          (complete_rotation env session
            (scan_consumers env session
              (log ++ [Event.timer_stop session.id 0])).log).1))) := by
  rcases check_cases env session log hchunk with ⟨hstop, hcheck⟩ | ⟨hstop, scanned, hscan, h⟩
  · left
    refine ⟨hstop, ?_, ?_⟩
    · unfold check_events
      rw [hcheck, check_ongoing_rotation_log, List.append_assoc, drop_length_append]
      rfl
    · rw [hcheck, check_ongoing_rotation_session]
  · right
    refine ⟨hstop, scanned, hscan, ?_⟩
    have hlog := hscan.log_eq
    rcases h with ⟨hret, hcheck⟩ | ⟨hret, hexists, hcheck⟩ | ⟨hret, hexists, hstate, hcheck⟩ |
      ⟨hret, hexists, hstate, hcheck⟩
    · refine Or.inl ⟨hret, ?_, by rw [hcheck], by rw [hcheck]⟩
      unfold check_events
      rw [hcheck]
      simp only []
      rw [hlog, List.append_assoc, drop_length_append]
      rfl
    · refine Or.inr (Or.inl ⟨hret, hexists, ?_, ?_⟩)
      · unfold check_events
        rw [hcheck, check_ongoing_rotation_log, hlog, List.append_assoc, List.append_assoc,
          drop_length_append]
        rfl
      · rw [hcheck, check_ongoing_rotation_session]
    · refine Or.inr (Or.inr (Or.inl ⟨hret, hexists, hstate, ?_, by rw [hcheck],
        by rw [hcheck]⟩))
      unfold check_events
      rw [hcheck]
      simp only []
      rw [hlog, List.append_assoc, drop_length_append]
      rfl
    · obtain ⟨completion, hcompletion, _, hnot_query⟩ := complete_rotation_log env session
        (scan_consumers env session (log ++ [Event.timer_stop session.id 0])).log
      refine Or.inr (Or.inr (Or.inr ⟨hret, hexists, hstate, ⟨completion, ?_, hnot_query⟩,
        by rw [hcheck], by rw [hcheck]⟩))
      unfold check_events
      rw [hcheck]
      simp only []
      rw [hcompletion, hlog, List.append_assoc, List.append_assoc, drop_length_append]
      rfl

theorem is_query_not_completed {e : Event} (h : e.is_query = true) :
    e.is_rotation_completed = false ∧ e.is_timer_start = false := by
  cases e <;> simp_all [Event.is_query, Event.is_rotation_completed, Event.is_timer_start]

theorem not_reports_of_not_query {e : Event} (h : e.is_query = false) :
    e.reports_exists = false ∧ e.query_failed = false := by
  cases e <;> simp_all [Event.is_query, Event.reports_exists, Event.query_failed]

theorem scan_spec_no_report {socks : List consumer_socket} {log : List Event}
    {result : scan_state} {events : List Event} (h : scan_spec socks log result events)
    (hexists : result.chunk_exists_on_peer = false) :
    ∀ e ∈ events, e.reports_exists = false := by
  intro e he
  cases hr : e.reports_exists
  · rfl
  · have := h.exists_iff.2 ⟨e, he, hr⟩
    rw [hexists] at this
    exact Bool.noConfusion this

theorem scan_spec_no_failure {socks : List consumer_socket} {log : List Event}
    {result : scan_state} {events : List Event} (h : scan_spec socks log result events)
    (hret : result.ret = 0) :
    ∀ e ∈ events, e.query_failed = false := by
  intro e he
  cases hr : e.query_failed
  · rfl
  · exact absurd hret (h.failed_iff.2 ⟨e, he, hr⟩)

theorem checker_result (env : Env) (session : ltt_session) (log : List Event) :
    (check_session_rotation_pending_on_consumers env session log).1 =
      !(scan_consumers env session log).chunk_exists_on_peer ∧
    (check_session_rotation_pending_on_consumers env session log).2.2 =
      (scan_consumers env session log).log := by
  unfold check_session_rotation_pending_on_consumers
  simp only []
  split <;> exact ⟨rfl, rfl⟩

theorem queried_socket_of_query {e : Event} (h : e.is_query = true) :
    ∃ socket, e.queried_socket = some socket := by
  cases e <;> simp_all [Event.is_query, Event.queried_socket]

theorem queried_socket_mem {events : List Event} {e : Event} {socket : consumer_socket}
    (he : e ∈ events) (hs : e.queried_socket = some socket) :
    socket ∈ queried_sockets events := by
  unfold queried_sockets
  rw [List.mem_filterMap]
  exact ⟨e, he, hs⟩

/-! ## Lemmas on the references -/

theorem count_eq_zero_of_by_job {events : List Event} (h : ∀ e ∈ events, e.by_job = true)
    (a : Event) (ha : a.by_job = false) : events.count a = 0 := by
  apply List.count_eq_zero_of_not_mem
  intro hmem
  rw [h a hmem] at ha
  exact Bool.noConfusion ha

theorem run_job_increments (env : Env) (job : rotation_thread_job) (session : ltt_session)
    (log : List Event) (s : Nat) :
    increments (run_job env job session log).2.2 s = increments log s := by
  obtain ⟨events, hlog, hby⟩ := run_job_log env job session log
  unfold increments
  rw [hlog, List.count_append, count_eq_zero_of_by_job hby (Event.session_get s) rfl,
    Nat.add_zero]

theorem run_job_releases (env : Env) (job : rotation_thread_job) (session : ltt_session)
    (log : List Event) (s : Nat) :
    releases (run_job env job session log).2.2 s = releases log s := by
  obtain ⟨events, hlog, hby⟩ := run_job_log env job session log
  unfold releases
  rw [hlog, List.count_append, count_eq_zero_of_by_job hby (Event.session_put (some s)) rfl,
    Nat.add_zero]

/-- One turn of the drain takes no reference and releases exactly one
reference, on the session of the job it handles. -/
theorem handle_job_references (env : Env) (job : rotation_thread_job)
    (rest : List rotation_thread_job) (w : World) (s : Nat) :
    increments (handle_job env job rest w).2.log s = increments w.log s ∧
    releases (handle_job env job rest w).2.log s = releases w.log s + jobs_for [job] s ∧
    (handle_job env job rest w).2.refs s + jobs_for [job] s = w.refs s := by
  unfold handle_job
  cases hs : job.session with
  | none =>
    simp [session_put, increments, releases, jobs_for, hs, List.count_append]
  | some session =>
    have hinc := run_job_increments env job (w.sessions session) w.log s
    have hrel := run_job_releases env job (w.sessions session) w.log s
    unfold increments at hinc
    unfold releases at hrel
    by_cases heq : session = s
    · subst heq
      simp [session_put, increments, releases, jobs_for, hs, List.count_append, hinc, hrel]
    · have hne : s ≠ session := fun h => heq h.symm
      simp [session_put, increments, releases, jobs_for, hs, List.count_append, hinc, hrel,
        heq, Function.update, hne]

theorem jobs_for_cons (job : rotation_thread_job) (rest : List rotation_thread_job) (s : Nat) :
    jobs_for (job :: rest) s = jobs_for [job] s + jobs_for rest s := by
  unfold jobs_for
  rw [List.countP_cons, List.countP_cons, List.countP_nil]
  omega

/-- The drain takes no reference, and releases one reference for each job it
removes from the queue. -/
theorem handle_job_queue_loop_references (env : Env) (jobs : List rotation_thread_job)
    (s : Nat) :
    ∀ w : World,
      increments (handle_job_queue_loop env jobs w).2.log s = increments w.log s ∧
      releases (handle_job_queue_loop env jobs w).2.log s +
          jobs_for (handle_job_queue_loop env jobs w).2.queue.list s =
        releases w.log s + jobs_for jobs s ∧
      (handle_job_queue_loop env jobs w).2.refs s + jobs_for jobs s =
        w.refs s + jobs_for (handle_job_queue_loop env jobs w).2.queue.list s := by
  induction jobs with
  | nil =>
    intro w
    simp [handle_job_queue_loop, jobs_for]
  | cons job rest ih =>
    intro w
    obtain ⟨h1, h2, h3⟩ := handle_job_references env job rest w s
    have hcons := jobs_for_cons job rest s
    unfold handle_job_queue_loop
    simp only []
    split
    · rw [handle_job_list]
      refine ⟨h1, ?_, ?_⟩
      · omega
      · omega
    · obtain ⟨i1, i2, i3⟩ := ih (handle_job env job rest w).2
      refine ⟨i1.trans h1, ?_, ?_⟩
      · omega
      · omega

/-- A drain that returns zero leaves the queue empty. -/
theorem handle_job_queue_loop_empty (env : Env) (jobs : List rotation_thread_job) :
    ∀ w : World, (handle_job_queue_loop env jobs w).1 = 0 →
      (handle_job_queue_loop env jobs w).2.queue.list = [] := by
  induction jobs with
  | nil => intro w _; rfl
  | cons job rest ih =>
    intro w
    unfold handle_job_queue_loop
    simp only []
    split
    · rename_i hret
      intro h
      exact absurd h hret
    · exact ih _

/-- An enqueue releases no reference, and takes one reference exactly when it
adds a job. -/
theorem enqueue_references (env : Env) (job_type : rotation_thread_job_type)
    (session : Nat) (w : World) (s : Nat) :
    increments (rotation_thread_enqueue_job env job_type session w).log s +
        jobs_for w.queue.list s =
      increments w.log s +
        jobs_for (rotation_thread_enqueue_job env job_type session w).queue.list s ∧
    releases (rotation_thread_enqueue_job env job_type session w).log s = releases w.log s ∧
    (rotation_thread_enqueue_job env job_type session w).refs s + jobs_for w.queue.list s =
      w.refs s + jobs_for (rotation_thread_enqueue_job env job_type session w).queue.list s := by
  cases hex : timer_job_exists w.queue job_type session
  · have hnew := (timer_job_exists_eq_false_iff w.queue job_type session).1 hex
    cases halloc : env.zmalloc w.log
    · rw [enqueue_of_failed_allocation env job_type session w hnew halloc]
      simp [increments, releases, List.count_append]
    · rw [enqueue_of_new env job_type session w hnew halloc]
      by_cases heq : session = s
      · subst heq
        simp [increments, releases, jobs_for, List.count_append]
        omega
      · have hne : s ≠ session := fun h => heq h.symm
        simp [increments, releases, jobs_for, List.count_append, heq, Function.update, hne]
  · rw [enqueue_of_pending env job_type session w
      ((timer_job_exists_eq_true_iff w.queue job_type session).1 hex)]
    simp

theorem step_balanced (env : Env) (refs0 : Nat → Int) (op : Op) (w : World) (s : Nat)
    (h : balanced refs0 w s) : balanced refs0 (step env op w) s := by
  unfold balanced at *
  cases op with
  | enqueue job_type session =>
    obtain ⟨h1, h2, h3⟩ := enqueue_references env job_type session w s
    simp only [step]
    constructor
    · omega
    · omega
  | drain =>
    obtain ⟨h1, h2, h3⟩ := handle_job_queue_loop_references env w.queue.list s w
    simp only [step, handle_job_queue]
    constructor
    · omega
    · omega
  | turn =>
    simp only [step]
    cases hlist : w.queue.list with
    | nil => simpa [hlist] using h
    | cons job rest =>
      obtain ⟨h1, h2, h3⟩ := handle_job_references env job rest w s
      have hcons := jobs_for_cons job rest s
      rw [hlist] at h
      simp only []
      rw [handle_job_list]
      constructor
      · omega
      · omega

theorem run_ops_balanced (env : Env) (refs0 : Nat → Int) (ops : List Op) (s : Nat) :
    ∀ w : World, balanced refs0 w s → balanced refs0 (run_ops env ops w) s := by
  induction ops with
  | nil => intro w h; exact h
  | cons op ops ih =>
    intro w h
    unfold run_ops
    exact ih _ (step_balanced env refs0 op w s h)

/-! ## Lemmas on the re-arm of the timer -/

theorem check_ongoing_rotation_of_not_ongoing (env : Env) (ret : Int) (session : ltt_session)
    (log : List Event) (h : session.rotation_state ≠ lttng_rotation_state.ONGOING) :
    check_ongoing_rotation env ret session log = (ret, session, log) := by
  unfold check_ongoing_rotation
  rw [if_neg h]

theorem complete_rotation_no_timer_start (env : Env) (session : ltt_session)
    (log : List Event) :
    ∃ events, (complete_rotation env session log).2 = log ++ events ∧
      ∀ e ∈ events, e.is_timer_start = false := by
  refine ⟨_, complete_rotation_log_eq env session log, ?_⟩
  intro e he
  rcases List.mem_cons.1 he with rfl | he
  · rfl
  · split at he
    · exact absurd he (List.not_mem_nil e)
    · rw [List.mem_singleton] at he
      subst he
      rfl

/-- Every path of `check_session_rotation_pending` on a session with a chunk
being archived ends in the tail `check_ongoing_rotation`, entered with some
value `ret`, some state of the session and a log to which no start of the
timer was added yet. -/
theorem check_tail (env : Env) (session : ltt_session) (log : List Event)
    (hchunk : session.chunk_being_archived ≠ none) :
    ∃ (ret : Int) (at_label : ltt_session) (before : List Event),
      check_session_rotation_pending env session log =
        check_ongoing_rotation env ret at_label (log ++ before) ∧
      (∀ e ∈ before, e.is_timer_start = false) := by
  rcases check_cases env session log hchunk with ⟨_, hcheck⟩ | ⟨_, scanned, hscan, h⟩
  · exact ⟨_, session, [_], hcheck, by simp [Event.is_timer_start]⟩
  · have hbefore : ∀ e ∈ Event.timer_stop session.id 0 :: scanned,
        e.is_timer_start = false := by
      intro e he
      rcases List.mem_cons.1 he with rfl | he
      · rfl
      · exact (is_query_not_completed (hscan.queries e he)).2
    have hlog : (scan_consumers env session (log ++ [Event.timer_stop session.id 0])).log =
        log ++ Event.timer_stop session.id 0 :: scanned := by
      rw [hscan.log_eq]
      simp
    rcases h with ⟨_, hcheck⟩ | ⟨_, _, hcheck⟩ | ⟨_, _, hstate, hcheck⟩ | ⟨_, _, _, hcheck⟩
    · refine ⟨0, session_reset_rotation_state session lttng_rotation_state.ERROR,
        Event.timer_stop session.id 0 :: scanned, ?_, hbefore⟩
      rw [hcheck, hlog, check_ongoing_rotation_of_not_ongoing]
      simp [session_reset_rotation_state]
    · exact ⟨0, session, Event.timer_stop session.id 0 :: scanned, by rw [hcheck, hlog],
        hbefore⟩
    · refine ⟨0, session, Event.timer_stop session.id 0 :: scanned, ?_, hbefore⟩
      rw [hcheck, hlog, check_ongoing_rotation_of_not_ongoing]
      rw [hstate]
      decide
    · obtain ⟨events, hevents, hno_start⟩ := complete_rotation_no_timer_start env session
        (scan_consumers env session (log ++ [Event.timer_stop session.id 0])).log
      refine ⟨0, (complete_rotation env session
        (scan_consumers env session (log ++ [Event.timer_stop session.id 0])).log).1,
        Event.timer_stop session.id 0 :: (scanned ++ events), ?_, ?_⟩
      · rw [hcheck, check_ongoing_rotation_of_not_ongoing]
        · have : (complete_rotation env session
              (scan_consumers env session (log ++ [Event.timer_stop session.id 0])).log).2 =
              log ++ Event.timer_stop session.id 0 :: (scanned ++ events) := by
            rw [hevents, hlog]
            simp
          rw [← this]
        · rw [(complete_rotation_state env session _).1]
          decide
      · intro e he
        rcases List.mem_cons.1 he with rfl | he
        · rfl
        · rcases List.mem_append.1 he with he | he
          · exact (is_query_not_completed (hscan.queries e he)).2
          · exact hno_start e he

/-- A job that returns non-zero ends the drain: the value is returned and the
jobs behind it stay in the queue. -/
theorem handle_job_queue_fatal (env : Env) (w : World) (job : rotation_thread_job)
    (rest : List rotation_thread_job) (hqueue : w.queue.list = job :: rest)
    (hret : (handle_job env job rest w).1 ≠ 0) :
    handle_job_queue env w = handle_job env job rest w ∧
    (handle_job_queue env w).2.queue.list = rest := by
  have h : handle_job_queue env w = handle_job env job rest w := by
    unfold handle_job_queue
    rw [hqueue]
    unfold handle_job_queue_loop
    simp only []
    rw [if_pos hret]
  exact ⟨h, by rw [h, handle_job_list]⟩

theorem handle_job_of_session (env : Env) (job : rotation_thread_job)
    (rest : List rotation_thread_job) (w : World) (session : Nat)
    (hs : job.session = some session) :
    (handle_job env job rest w).1 = (run_job env job (w.sessions session) w.log).1 := by
  unfold handle_job
  rw [hs]

/-- A drain that returns non-zero ends the loop of the thread at the label
`error`, whatever the descriptors and polls that follow. -/
theorem thread_rotation_fatal (env : Env) (w : World) (event : poll_event)
    (more : List poll_event) (polls : List poll_result)
    (herror : event.error = false) (hfd : event.fd ≠ poll_fd.notification_socket)
    (hret : (handle_job_queue env w).1 ≠ 0) :
    thread_rotation env (poll_result.ready (event :: more) :: polls) w =
      (thread_exit.error, (handle_job_queue env w).2) := by
  have h : handle_poll_events env (event :: more) w =
      (events_outcome.error, (handle_job_queue env w).2) := by
    unfold handle_poll_events
    simp [herror, hfd, hret]
  unfold thread_rotation
  simp only [h]

/-! ## Lemmas on the completion event -/

theorem not_completed_of_check_ongoing (env : Env) (session : ltt_session)
    (log : List Event) :
    ∀ e ∈ check_ongoing_events env session log, e.is_rotation_completed = false := by
  unfold check_ongoing_events
  split <;> simp [Event.is_rotation_completed]

theorem filter_completed_of_queries {events : List Event}
    (h : ∀ e ∈ events, e.is_query = true) :
    events.filter Event.is_rotation_completed = [] := by
  rw [List.filter_eq_nil_iff]
  intro e he
  rw [(is_query_not_completed (h e he)).1]
  exact Bool.false_ne_true

/-- The events of a check that completes the rotation: the stop of the timer,
the queries, the duplication of the name and, unless the session rotates
quietly, the announcement. -/
theorem check_events_of_completed (env : Env) (session : ltt_session) (log : List Event)
    (hchunk : session.chunk_being_archived ≠ none)
    (hstop : env.timer_session_rotation_pending_check_stop log session = 0)
    (hret : (scan_consumers env session (log ++ [Event.timer_stop session.id 0])).ret = 0)
    (hexists : (scan_consumers env session
      (log ++ [Event.timer_stop session.id 0])).chunk_exists_on_peer = false)
    (hstate : session.rotation_state ≠ lttng_rotation_state.ERROR)
    (scanned : List Event)
    (hscan : scan_spec (endpoints session) (log ++ [Event.timer_stop session.id 0])
      (scan_consumers env session (log ++ [Event.timer_stop session.id 0])) scanned) :
    check_events env session log =
      Event.timer_stop session.id 0 :: (scanned ++
        Event.strdup (env.strdup
            (scan_consumers env session (log ++ [Event.timer_stop session.id 0])).log) ::
          (if session.quiet_rotation then []
            else [rotation_completed_event env
              (check_session_rotation_pending env session log).2.1
              ((scan_consumers env session (log ++ [Event.timer_stop session.id 0])).log ++
                [Event.strdup (env.strdup (scan_consumers env session
                  (log ++ [Event.timer_stop session.id 0])).log)])])) := by
  have hcheck := check_of_completed env session log hchunk hstop hret hexists hstate
  unfold check_events
  rw [hcheck]
  simp only []
  rw [complete_rotation_log_eq, hscan.log_eq, List.append_assoc, List.append_assoc,
    drop_length_append]
  rfl

/-! ## Lemmas on the loop of the thread -/

/-- The `for` loop over the ready descriptors reaches the label `exit` only
with an empty queue. -/
theorem handle_poll_events_exit (env : Env) (events : List poll_event) :
    ∀ w : World, (handle_poll_events env events w).1 = events_outcome.exit →
      (handle_poll_events env events w).2.queue.list = [] := by
  induction events with
  | nil =>
    intro w h
    simp [handle_poll_events] at h
  | cons event rest ih =>
    intro w
    unfold handle_poll_events
    by_cases herror : event.error = true
    · simp [herror]
    · by_cases hfd : event.fd = poll_fd.notification_socket
      · simp only [herror, hfd]
        by_cases hret : (handle_notification_channel env w).1 = 0
        · simp only [hret]
          simpa using ih _
        · simp [hret]
      · simp only [herror, hfd]
        by_cases hret : (handle_job_queue env w).1 = 0
        · by_cases hqueue : event.fd = poll_fd.queue_pipe
          · simp only [hret, hqueue]
            by_cases hread : (read_wakeup_pipe env (handle_job_queue env w).2).1 = 1
            · simp only [hread]
              simpa using ih _
            · simp [hread]
          · simp only [hret, hqueue]
            intro _
            simpa using handle_job_queue_loop_empty env w.queue.list w hret
        · simp [hret]

/-- The loop of the thread reaches the label `exit` only with an empty
queue. -/
theorem thread_rotation_exit (env : Env) (polls : List poll_result) :
    ∀ w : World, (thread_rotation env polls w).1 = thread_exit.exit →
      (thread_rotation env polls w).2.queue.list = [] := by
  induction polls with
  | nil =>
    intro w h
    simp [thread_rotation] at h
  | cons poll polls ih =>
    intro w
    cases poll with
    | interrupted =>
      unfold thread_rotation
      exact ih w
    | failed =>
      unfold thread_rotation
      intro h
      simp at h
    | ready events =>
      unfold thread_rotation
      simp only []
      cases houtcome : (handle_poll_events env events w).1 with
      | done =>
        simp only []
        exact ih _
      | exit =>
        simp only []
        intro _
        exact handle_poll_events_exit env events w houtcome
      | error =>
        simp only []
        intro h
        simp at h

/-- Activity on the quit pipe: the queue is drained; the loop ends at the
label `exit` when the drain returns zero and at the label `error`
otherwise. -/
theorem thread_rotation_quit (env : Env) (w : World) (event : poll_event)
    (more : List poll_event) (polls : List poll_result)
    (hquit : event.fd = poll_fd.quit_pipe) (herror : event.error = false) :
    thread_rotation env (poll_result.ready (event :: more) :: polls) w =
      (if (handle_job_queue env w).1 = 0 then thread_exit.exit else thread_exit.error,
        (handle_job_queue env w).2) := by
  have h : handle_poll_events env (event :: more) w =
      (if (handle_job_queue env w).1 = 0 then events_outcome.exit else events_outcome.error,
        (handle_job_queue env w).2) := by
    unfold handle_poll_events
    by_cases hret : (handle_job_queue env w).1 = 0 <;> simp [herror, hquit, hret]
  unfold thread_rotation
  simp only [h]
  by_cases hret : (handle_job_queue env w).1 = 0 <;> simp [hret]

/-! ## Lemmas on the size-based rotation -/

/-- The locked part of `handle_condition`, path by path. -/
theorem handle_condition_locked_eq (env : Env) (notification : lttng_notification)
    (consumed : Nat) (session : ltt_session) (log : List Event) :
    handle_condition_locked env notification consumed session log =
      if lttng_trigger_is_equal session.rotate_trigger notification.trigger = false then
        (0, session, log)
      else if (unsubscribed env session log).1 ≠ 0 then
        ((unsubscribed env session log).1, (unsubscribed env session log).2,
          log ++ [unsubscribe_event env session log])
      else if rotation_outcome_expected env (rotated env session log).1 = false then
        (-1, (rotated env session log).2,
          log ++ [unsubscribe_event env session log, rotate_event env session log])
      else
        ((subscribed env consumed session log).1, (subscribed env consumed session log).2,
          log ++ [unsubscribe_event env session log, rotate_event env session log,
            subscribe_event env consumed session log]) := by
  simp only [handle_condition_locked, unsubscribed, rotated, subscribed, unsubscribe_event,
    rotate_event, subscribe_event]
  cases lttng_trigger_is_equal session.rotate_trigger notification.trigger
  · simp
  · by_cases hcancel : (env.unsubscribe_session_consumed_size_rotation log session).1 = 0
    · cases hexpected : rotation_outcome_expected env
          (env.cmd_rotate_session
            (log ++ [Event.unsubscribe session.id
              (env.unsubscribe_session_consumed_size_rotation log session).1])
            (env.unsubscribe_session_consumed_size_rotation log session).2 false
            lttng_trace_chunk_command_type.MOVE_TO_COMPLETED).1
      · simp only [Bool.not_true, Bool.false_eq_true, if_false, ne_eq, hcancel,
          not_true_eq_false, Bool.not_false, if_true, hexpected, List.append_assoc,
          List.singleton_append, List.cons_append, List.nil_append]
        rw [hcancel] at hexpected
        simp [hexpected]
      · simp only [Bool.not_true, Bool.false_eq_true, if_false, ne_eq, hcancel,
          not_true_eq_false, List.append_assoc,
          List.singleton_append, List.cons_append, List.nil_append]
        rw [hcancel] at hexpected
        simp [hexpected]
    · simp [hcancel]

/-- The locked part of `handle_condition` extends the log by
`locked_events`. -/
theorem handle_condition_locked_log (env : Env) (notification : lttng_notification)
    (consumed : Nat) (session : ltt_session) (log : List Event) :
    (handle_condition_locked env notification consumed session log).2.2 =
      log ++ locked_events env notification consumed session log := by
  rw [handle_condition_locked_eq]
  unfold locked_events
  split_ifs <;> simp

/-- `handle_condition` on a notification of the expected type that carries a
session name and a consumed size, when the name resolves to a session: the
locked part runs on that session between `session_get` and `session_put`. -/
theorem handle_condition_of_found (env : Env) (notification : lttng_notification)
    (w : World) (name : String) (consumed session : Nat)
    (htype : notification.condition_type = lttng_condition_type.SESSION_CONSUMED_SIZE)
    (hname : notification.session_name = some name)
    (hconsumed : notification.consumed_size = some consumed)
    (hfind : env.session_find_by_name w.log name = some session) :
    (handle_condition env notification w).1 =
        (handle_condition_locked env notification consumed (w.sessions session)
          (found_log w name session)).1 ∧
      (handle_condition env notification w).2.queue = w.queue ∧
      (handle_condition env notification w).2.refs = w.refs ∧
      (handle_condition env notification w).2.sessions =
        Function.update w.sessions session
          (handle_condition_locked env notification consumed (w.sessions session)
            (found_log w name session)).2.1 ∧
      (handle_condition env notification w).2.log =
        (handle_condition_locked env notification consumed (w.sessions session)
          (found_log w name session)).2.2 ++ [Event.session_put (some session)] ∧
      (handle_condition env notification w).2.executed = w.executed := by
  have hrefs : Function.update (Function.update w.refs session (w.refs session + 1)) session
      (Function.update w.refs session (w.refs session + 1) session - 1) = w.refs := by
    funext other
    by_cases h : other = session
    · subst h
      simp
    · simp [Function.update, h]
  simp only [handle_condition, htype, hname, hconsumed, session_find_by_name, hfind,
    session_get, session_put, found_log, ne_eq, not_true_eq_false, if_false,
    List.append_assoc, List.singleton_append, hrefs]
  simp

/-- The events of `handle_condition` when the name resolves to a session. -/
theorem condition_events_of_found (env : Env) (notification : lttng_notification)
    (w : World) (name : String) (consumed session : Nat)
    (htype : notification.condition_type = lttng_condition_type.SESSION_CONSUMED_SIZE)
    (hname : notification.session_name = some name)
    (hconsumed : notification.consumed_size = some consumed)
    (hfind : env.session_find_by_name w.log name = some session) :
    condition_events env notification w =
      [Event.session_find_by_name name (some session), Event.session_get session] ++
        locked_events env notification consumed (w.sessions session)
          (found_log w name session) ++
        [Event.session_put (some session)] := by
  unfold condition_events
  rw [(handle_condition_of_found env notification w name consumed session htype hname
    hconsumed hfind).2.2.2.2.1, handle_condition_locked_log, found_log]
  simp only [List.append_assoc]
  rw [List.drop_left]

/-- The outcomes of the rotation command after which `handle_condition`
subscribes again: the four cases of its `switch` that `break`. -/
theorem rotation_outcome_expected_iff (env : Env) (ret : Int) :
    rotation_outcome_expected env ret = true ↔
      (ret = env.LTTNG_OK ∨ ret = -env.LTTNG_ERR_ROTATION_PENDING ∨
        ret = -env.LTTNG_ERR_ROTATION_MULTIPLE_AFTER_STOP ∨
        ret = -env.LTTNG_ERR_ROTATION_AFTER_STOP_CLEAR) := by
  simp [rotation_outcome_expected, or_assoc]

/-- The rotation size of the session on which `handle_condition` subscribes is
the one of the session it started from. -/
theorem rotated_rotate_size (env : Env) (hkeep : keeps_rotate_size env)
    (session : ltt_session) (log : List Event) :
    (rotated env session log).2.rotate_size = session.rotate_size := by
  unfold rotated unsubscribed
  rw [hkeep.2.1, hkeep.1]

/-- A subscription among the events of the locked part is made at the consumed
size plus the rotation size of the session, on 64 bits. -/
theorem subscribe_mem_locked_events (env : Env) (hkeep : keeps_rotate_size env)
    (notification : lttng_notification) (consumed : Nat) (session : ltt_session)
    (log : List Event) (subscriber size : Nat) (ret : Int)
    (hmem : Event.subscribe subscriber size ret ∈
      locked_events env notification consumed session log) :
    size = new_threshold consumed session.rotate_size := by
  unfold locked_events at hmem
  split_ifs at hmem
  · simp at hmem
  · simp [unsubscribe_event] at hmem
  · simp [unsubscribe_event, rotate_event] at hmem
  · simp only [unsubscribe_event, rotate_event, subscribe_event, List.mem_cons,
      List.mem_singleton, List.mem_nil_iff, or_false, false_or, reduceCtorEq,
      Event.subscribe.injEq] at hmem
    rw [hmem.2.1, rotated_rotate_size env hkeep]

/-- The locked part subscribes successfully at most once, at the consumed size
plus the rotation size of the session, on 64 bits. -/
theorem subscribed_sizes_locked_events (env : Env) (hkeep : keeps_rotate_size env)
    (notification : lttng_notification) (consumed : Nat) (session : ltt_session)
    (log : List Event) :
    subscribed_sizes (locked_events env notification consumed session log) = [] ∨
      subscribed_sizes (locked_events env notification consumed session log) =
        [new_threshold consumed session.rotate_size] := by
  unfold locked_events
  split_ifs
  · left
    rfl
  · left
    rfl
  · left
    rfl
  · by_cases hret : (subscribed env consumed session log).1 = 0
    · right
      simp [subscribed_sizes, unsubscribe_event, rotate_event, subscribe_event,
        Event.subscribed_size, hret, rotated_rotate_size env hkeep]
    · left
      simp [subscribed_sizes, unsubscribe_event, rotate_event, subscribe_event,
        Event.subscribed_size, hret]

/-- A call of `handle_condition` that subscribes successfully has resolved the
name of the notification to a session, and subscribes once, at the consumed
size plus the rotation size of that session, on 64 bits. -/
theorem subscribed_sizes_condition_events (env : Env) (hkeep : keeps_rotate_size env)
    (notification : lttng_notification) (w : World)
    (hsubscribed : subscribed_sizes (condition_events env notification w) ≠ []) :
    ∃ (name : String) (consumed session : Nat),
      notification.session_name = some name ∧
      notification.consumed_size = some consumed ∧
      env.session_find_by_name w.log name = some session ∧
      subscribed_sizes (condition_events env notification w) =
        [new_threshold consumed (w.sessions session).rotate_size] := by
  by_cases htype : notification.condition_type = lttng_condition_type.SESSION_CONSUMED_SIZE
  · cases hname : notification.session_name with
    | none =>
      exfalso
      apply hsubscribed
      simp [condition_events, handle_condition, htype, hname, subscribed_sizes]
    | some name =>
      cases hconsumed : notification.consumed_size with
      | none =>
        exfalso
        apply hsubscribed
        simp [condition_events, handle_condition, htype, hname, hconsumed, subscribed_sizes]
      | some consumed =>
        cases hfind : env.session_find_by_name w.log name with
        | none =>
          exfalso
          apply hsubscribed
          simp [condition_events, handle_condition, htype, hname, hconsumed,
            session_find_by_name, hfind, subscribed_sizes, Event.subscribed_size]
        | some session =>
          refine ⟨name, consumed, session, rfl, rfl, hfind, ?_⟩
          have hevents := condition_events_of_found env notification w name consumed session
            htype hname hconsumed hfind
          have hsizes : subscribed_sizes (condition_events env notification w) =
              subscribed_sizes (locked_events env notification consumed (w.sessions session)
                (found_log w name session)) := by
            rw [hevents]
            simp [subscribed_sizes, List.filterMap_append, Event.subscribed_size]
          rw [hsizes] at hsubscribed ⊢
          rcases subscribed_sizes_locked_events env hkeep notification consumed
            (w.sessions session) (found_log w name session) with h | h
          · exact absurd h hsubscribed
          · exact h
  · exfalso
    apply hsubscribed
    simp [condition_events, handle_condition, htype, subscribed_sizes]

/-- The locked part of `handle_condition` leaves the rotation size of the
session as it is. -/
theorem handle_condition_locked_rotate_size (env : Env) (hkeep : keeps_rotate_size env)
    (notification : lttng_notification) (consumed : Nat) (session : ltt_session)
    (log : List Event) :
    (handle_condition_locked env notification consumed session log).2.1.rotate_size =
      session.rotate_size := by
  rw [handle_condition_locked_eq]
  split_ifs
  · rfl
  · exact hkeep.1 _ _
  · exact rotated_rotate_size env hkeep session log
  · unfold subscribed
    rw [hkeep.2.2, rotated_rotate_size env hkeep]

/-- A call of `handle_condition` leaves the rotation size of every session as
it is. -/
theorem handle_condition_rotate_size (env : Env) (hkeep : keeps_rotate_size env)
    (notification : lttng_notification) (w : World) (session : Nat) :
    ((handle_condition env notification w).2.sessions session).rotate_size =
      (w.sessions session).rotate_size := by
  by_cases htype : notification.condition_type = lttng_condition_type.SESSION_CONSUMED_SIZE
  · cases hname : notification.session_name with
    | none => simp [handle_condition, htype, hname]
    | some name =>
      cases hconsumed : notification.consumed_size with
      | none => simp [handle_condition, htype, hname, hconsumed]
      | some consumed =>
        cases hfind : env.session_find_by_name w.log name with
        | none =>
          simp [handle_condition, htype, hname, hconsumed, session_find_by_name, hfind]
        | some found =>
          rw [(handle_condition_of_found env notification w name consumed found htype hname
            hconsumed hfind).2.2.2.1]
          by_cases h : session = found
          · subst h
            rw [Function.update_same]
            exact handle_condition_locked_rotate_size env hkeep notification consumed _ _
          · rw [Function.update_noteq h]
  · simp [handle_condition, htype]

/-- The sizes subscribed along a list of notifications, each handled with a
successful subscription for the one session `session`: each is the consumed
size of its notification plus the rotation size, on 64 bits. -/
theorem thresholds_eq (env : Env) (hkeep : keeps_rotate_size env) (session s : Nat)
    (hone : ∀ (log : List Event) (name : String) (found : Nat),
      env.session_find_by_name log name = some found → found = session)
    (notifications : List lttng_notification) :
    ∀ (w : World), (w.sessions session).rotate_size = s →
      each_resubscribed env notifications w →
      thresholds env notifications w =
        (consumed_sizes notifications).map fun c => new_threshold c s := by
  induction notifications with
  | nil =>
    intro w _ _
    rfl
  | cons notification rest ih =>
    intro w hsize hsuccess
    obtain ⟨name, consumed, found, _, hconsumed, hfind, hsizes⟩ :=
      subscribed_sizes_condition_events env hkeep notification w hsuccess.1
    have hfound : found = session := hone w.log name found hfind
    subst hfound
    have hrest := ih (handle_condition env notification w).2
      ((handle_condition_rotate_size env hkeep notification w found).trans hsize) hsuccess.2
    simp only [thresholds, consumed_sizes, List.map_cons, hconsumed, Option.getD_some]
    rw [hsizes, hsize, hrest]
    rfl

/-- When each notification reports exactly the size subscribed before it and
the sums stay within 64 bits, the sizes subscribed are the multiples of the
rotation size above the first size. -/
theorem exact_crossings_sizes (s : Nat) (consumed : List Nat) :
    ∀ (initial : Nat), exact_crossings s initial consumed →
      initial + consumed.length * s < 2 ^ 64 →
      (consumed.map fun c => new_threshold c s) =
        (List.range consumed.length).map fun k => initial + (k + 1) * s := by
  induction consumed with
  | nil =>
    intro _ _ _
    rfl
  | cons c rest ih =>
    intro initial hexact hbound
    obtain ⟨hc, hrest⟩ := hexact
    subst hc
    have hlength : (c :: rest).length = rest.length + 1 := rfl
    rw [hlength, Nat.add_mul, Nat.one_mul] at hbound
    have hsmall : c + s < 2 ^ 64 := by
      have : 0 ≤ rest.length * s := Nat.zero_le _
      omega
    have hvalue : new_threshold c s = c + s := by
      unfold new_threshold
      exact Nat.mod_eq_of_lt hsmall
    rw [hvalue] at hrest
    have htail := ih (c + s) hrest (by omega)
    rw [hlength, List.range_succ_eq_map, List.map_cons, List.map_cons, hvalue, htail,
      List.map_map]
    congr 1
    · omega
    · apply List.map_congr_left
      intro k _
      simp only [Function.comp_apply, Nat.succ_eq_add_one]
      rw [Nat.add_mul (k + 1) 1 s, Nat.one_mul]
      omega

/-- When each notification reports at least the size subscribed before it, the
rotation size is positive and no sum exceeds 64 bits, each size subscribed is
above the one before it. -/
theorem crossings_chain (s : Nat) (hs : 0 < s) (consumed : List Nat) :
    ∀ (initial : Nat), crossings s initial consumed →
      (∀ c ∈ consumed, c + s < 2 ^ 64) →
      List.Chain (fun a b => a < b) initial (consumed.map fun c => new_threshold c s) := by
  induction consumed with
  | nil =>
    intro _ _ _
    exact List.Chain.nil
  | cons c rest ih =>
    intro initial hcross hbound
    obtain ⟨hc, hrest⟩ := hcross
    have hvalue : new_threshold c s = c + s := by
      unfold new_threshold
      exact Nat.mod_eq_of_lt (hbound c (List.mem_cons_self c rest))
    rw [List.map_cons]
    refine List.Chain.cons ?_ (ih _ hrest fun d hd => hbound d (List.mem_cons_of_mem c hd))
    rw [hvalue]
    omega

/-! ## Lemmas on the notification channel -/

/-- The events of `handle_condition` when the notification is rejected before
the session is looked up, and when the session is not found. -/
theorem condition_events_cases (env : Env) (notification : lttng_notification) (w : World) :
    ((handle_condition env notification w).2.log = w.log ∧
        condition_events env notification w = []) ∨
      (∃ name, (handle_condition env notification w).2.log =
          w.log ++ [Event.session_find_by_name name none] ∧
        condition_events env notification w = [Event.session_find_by_name name none]) ∨
      (∃ (name : String) (consumed session : Nat),
        (handle_condition env notification w).2.log =
          w.log ++ ([Event.session_find_by_name name (some session),
            Event.session_get session] ++
            locked_events env notification consumed (w.sessions session)
              (found_log w name session) ++ [Event.session_put (some session)]) ∧
        condition_events env notification w =
          [Event.session_find_by_name name (some session), Event.session_get session] ++
            locked_events env notification consumed (w.sessions session)
              (found_log w name session) ++ [Event.session_put (some session)]) := by
  by_cases htype : notification.condition_type = lttng_condition_type.SESSION_CONSUMED_SIZE
  · cases hname : notification.session_name with
    | none =>
      left
      simp [condition_events, handle_condition, htype, hname]
    | some name =>
      cases hconsumed : notification.consumed_size with
      | none =>
        left
        simp [condition_events, handle_condition, htype, hname, hconsumed]
      | some consumed =>
        cases hfind : env.session_find_by_name w.log name with
        | none =>
          right
          left
          refine ⟨name, ?_⟩
          simp [condition_events, handle_condition, htype, hname, hconsumed,
            session_find_by_name, hfind]
        | some session =>
          right
          right
          refine ⟨name, consumed, session, ?_, condition_events_of_found env notification w
            name consumed session htype hname hconsumed hfind⟩
          rw [(handle_condition_of_found env notification w name consumed session htype
            hname hconsumed hfind).2.2.2.2.1, handle_condition_locked_log, found_log]
          simp
  · left
    simp [condition_events, handle_condition, htype]

/-- The log after `handle_condition` is the log before it followed by its
events. -/
theorem handle_condition_log (env : Env) (notification : lttng_notification) (w : World) :
    (handle_condition env notification w).2.log =
      w.log ++ condition_events env notification w := by
  rcases condition_events_cases env notification w with ⟨hlog, hevents⟩ |
    ⟨name, hlog, hevents⟩ | ⟨name, consumed, session, hlog, hevents⟩
  · rw [hlog, hevents, List.append_nil]
  · rw [hlog, hevents]
  · rw [hlog, hevents]

/-- The events of the locked part of `handle_condition` are no calls to the
notification channel. -/
theorem locked_events_not_channel (env : Env) (notification : lttng_notification)
    (consumed : Nat) (session : ltt_session) (log : List Event) :
    ∀ e ∈ locked_events env notification consumed session log,
      e.is_has_pending = false ∧ e.is_get_next = false := by
  intro e he
  unfold locked_events at he
  split_ifs at he
  · simp at he
  · simp only [List.mem_singleton] at he
    subst he
    exact ⟨rfl, rfl⟩
  · simp only [List.mem_cons, List.mem_singleton, List.mem_nil_iff, or_false] at he
    rcases he with rfl | rfl <;> exact ⟨rfl, rfl⟩
  · simp only [List.mem_cons, List.mem_singleton, List.mem_nil_iff, or_false] at he
    rcases he with rfl | rfl | rfl <;> exact ⟨rfl, rfl⟩

/-- The events of `handle_condition` are no calls to the notification
channel. -/
theorem condition_events_not_channel (env : Env) (notification : lttng_notification)
    (w : World) :
    ∀ e ∈ condition_events env notification w,
      e.is_has_pending = false ∧ e.is_get_next = false := by
  intro e he
  rcases condition_events_cases env notification w with ⟨_, hevents⟩ |
    ⟨name, _, hevents⟩ | ⟨name, consumed, session, _, hevents⟩
  · rw [hevents] at he
    exact absurd he (List.not_mem_nil e)
  · rw [hevents, List.mem_singleton] at he
    subst he
    exact ⟨rfl, rfl⟩
  · rw [hevents] at he
    simp only [List.mem_append, List.mem_cons, List.mem_singleton, List.mem_nil_iff,
      or_false] at he
    rcases he with ((rfl | rfl) | he) | rfl
    · exact ⟨rfl, rfl⟩
    · exact ⟨rfl, rfl⟩
    · exact locked_events_not_channel env notification consumed _ _ e he
    · exact ⟨rfl, rfl⟩

/-- The events of `handle_notification_channel`: one test of the channel, then
nothing, or the reception of one notification followed by events that are no
calls to the channel. -/
theorem notification_events_cases (env : Env) (w : World) :
    ∃ rest : List Event,
      notification_events env w =
        Event.has_pending_notification
          (env.lttng_notification_channel_has_pending_notification w.log).1
          (env.lttng_notification_channel_has_pending_notification w.log).2 :: rest ∧
      (rest = [] ∨
        ∃ (next : next_notification) (handled : List Event),
          (env.lttng_notification_channel_has_pending_notification w.log) =
            (lttng_notification_channel_status.OK, true) ∧
          rest = Event.get_next_notification next :: handled ∧
          ∀ e ∈ handled, e.is_has_pending = false ∧ e.is_get_next = false) := by
  unfold notification_events handle_notification_channel
  simp only []
  by_cases hstatus : (env.lttng_notification_channel_has_pending_notification w.log).1 =
      lttng_notification_channel_status.OK
  · cases hpending : (env.lttng_notification_channel_has_pending_notification w.log).2
    · refine ⟨[], ?_, Or.inl rfl⟩
      simp [hstatus, hpending]
    · simp only [hstatus, hpending, ne_eq, not_true_eq_false, if_false, Bool.not_true,
        Bool.false_eq_true]
      have hboth : env.lttng_notification_channel_has_pending_notification w.log =
          (lttng_notification_channel_status.OK, true) := Prod.ext hstatus hpending
      cases hnext : env.lttng_notification_channel_get_next_notification
          (w.log ++ [Event.has_pending_notification lttng_notification_channel_status.OK true])
      with
      | OK notification =>
        refine ⟨_, ?_, Or.inr ⟨next_notification.OK notification, _, hboth, rfl,
          condition_events_not_channel env notification
            { w with log := w.log ++
              [Event.has_pending_notification lttng_notification_channel_status.OK true,
                Event.get_next_notification (next_notification.OK notification)] }⟩⟩
        simp only []
        rw [handle_condition_log]
        simp
      | NOTIFICATIONS_DROPPED =>
        refine ⟨_, ?_, Or.inr ⟨next_notification.NOTIFICATIONS_DROPPED, [], hboth, rfl, ?_⟩⟩
        · simp
        · intro e he
          exact absurd he (List.not_mem_nil e)
      | CLOSED =>
        refine ⟨_, ?_, Or.inr ⟨next_notification.CLOSED, [], hboth, rfl, ?_⟩⟩
        · simp
        · intro e he
          exact absurd he (List.not_mem_nil e)
      | OTHER enumerator =>
        refine ⟨_, ?_, Or.inr ⟨next_notification.OTHER enumerator, [], hboth, rfl, ?_⟩⟩
        · simp
        · intro e he
          exact absurd he (List.not_mem_nil e)
  · refine ⟨[], ?_, Or.inl rfl⟩
    simp [hstatus]

/-! ## Lemmas on the completion checker -/

/-- The events of the completion checker are those of the scan of the
consumers. -/
theorem checker_events_of_scan (env : Env) (session : ltt_session) (log : List Event)
    {events : List Event}
    (hscan : scan_spec (endpoints session) log (scan_consumers env session log) events) :
    checker_events env session log = events := by
  unfold checker_events
  rw [(checker_result env session log).2, hscan.log_eq, drop_length_append]

/-- An element of a list without its last element, the list having a head. -/
theorem dropLast_cons_mem {α : Type} (a : α) (l : List α) (x : α)
    (hx : x ∈ (a :: l).dropLast) : l ≠ [] ∧ (x = a ∨ x ∈ l.dropLast) := by
  cases l with
  | nil => simp at hx
  | cons b rest =>
    rw [List.dropLast_cons₂] at hx
    exact ⟨List.cons_ne_nil b rest, List.mem_cons.1 hx⟩

/-- The events of one loop over the sockets of a consumer output: each is the
query of a socket of the list with the routing identifier of the output, and
each but the last was answered `UNKNOWN_CHUNK`. -/
theorem scan_consumer_sockets_events (env : Env) (session : ltt_session)
    (consumer : consumer_output) (socks : List consumer_socket) :
    ∀ log : List Event, ∃ events,
      (scan_consumer_sockets env session consumer socks log).log = log ++ events ∧
      (∀ e ∈ events, ∃ socket ∈ socks, ∃ (ret : Int)
        (status : consumer_trace_chunk_exists_status),
        e = Event.chunk_exists socket (relayd_id consumer) session.id
          session.chunk_being_archived ret status) ∧
      (∀ e ∈ events.dropLast, e.answers_unknown = true) ∧
      ((scan_consumer_sockets env session consumer socks log).ret = 0 →
        (scan_consumer_sockets env session consumer socks log).chunk_exists_on_peer = false →
        ∀ e ∈ events, e.answers_unknown = true) := by
  induction socks with
  | nil =>
    intro log
    refine ⟨[], by simp [scan_consumer_sockets], ?_, ?_, ?_⟩
    · intro e he
      exact absurd he (List.not_mem_nil e)
    · intro e he
      simp at he
    · intro _ _ e he
      exact absurd he (List.not_mem_nil e)
  | cons socket rest ih =>
    intro log
    unfold scan_consumer_sockets
    simp only []
    by_cases hret : (env.consumer_trace_chunk_exists log socket (relayd_id consumer)
        session.id session.chunk_being_archived).1 = 0
    · by_cases hstatus : (env.consumer_trace_chunk_exists log socket (relayd_id consumer)
          session.id session.chunk_being_archived).2 =
          consumer_trace_chunk_exists_status.UNKNOWN_CHUNK
      · rw [if_neg (not_not.mpr hret), if_neg (not_not.mpr hstatus)]
        obtain ⟨events, hlog, hrouted, hlast, hall⟩ := ih (log ++
          [Event.chunk_exists socket (relayd_id consumer) session.id
            session.chunk_being_archived
            (env.consumer_trace_chunk_exists log socket (relayd_id consumer)
              session.id session.chunk_being_archived).1
            (env.consumer_trace_chunk_exists log socket (relayd_id consumer)
              session.id session.chunk_being_archived).2])
        have hunknown : (Event.chunk_exists socket (relayd_id consumer) session.id
            session.chunk_being_archived
            (env.consumer_trace_chunk_exists log socket (relayd_id consumer)
              session.id session.chunk_being_archived).1
            (env.consumer_trace_chunk_exists log socket (relayd_id consumer)
              session.id session.chunk_being_archived).2).answers_unknown = true := by
          simp [Event.answers_unknown, hret, hstatus]
        refine ⟨query_event env session consumer socket log :: events, ?_, ?_, ?_, ?_⟩
        · rw [hlog]
          simp [query_event]
        · intro e he
          rcases List.mem_cons.1 he with rfl | he
          · exact ⟨socket, List.mem_cons_self _ _, _, _, rfl⟩
          · obtain ⟨s, hs, r, st, h⟩ := hrouted e he
            exact ⟨s, List.mem_cons_of_mem _ hs, r, st, h⟩
        · intro e he
          rcases (dropLast_cons_mem _ _ e he).2 with rfl | he
          · exact hunknown
          · exact hlast e he
        · intro h0 hno e he
          rcases List.mem_cons.1 he with rfl | he
          · exact hunknown
          · exact hall h0 hno e he
      · rw [if_neg (not_not.mpr hret), if_pos hstatus]
        refine ⟨[query_event env session consumer socket log], rfl, ?_, ?_, ?_⟩
        · intro e he
          rw [List.mem_singleton] at he
          exact ⟨socket, List.mem_cons_self _ _, _, _, he⟩
        · intro e he
          simp at he
        · intro _ hno
          simp at hno
    · rw [if_pos hret]
      refine ⟨[query_event env session consumer socket log], rfl, ?_, ?_, ?_⟩
      · intro e he
        rw [List.mem_singleton] at he
        exact ⟨socket, List.mem_cons_self _ _, _, _, he⟩
      · intro e he
        simp at he
      · intro h0 _
        exact absurd h0 hret

/-- An element of a concatenation without its last element. -/
theorem mem_dropLast_append {α : Type} (a b : List α) (x : α)
    (hx : x ∈ (a ++ b).dropLast) : x ∈ a ∨ x ∈ b.dropLast := by
  by_cases hb : b = []
  · subst hb
    rw [List.append_nil] at hx
    exact Or.inl (List.dropLast_subset a hx)
  · rw [List.dropLast_append_of_ne_nil a hb] at hx
    exact List.mem_append.1 hx

/-- The events of the scan of the consumers: each is the query of a socket of
the consumer output of a domain of the session, with the routing identifier of
that output, and each but the last was answered `UNKNOWN_CHUNK`. -/
theorem scan_consumers_events (env : Env) (session : ltt_session) (log : List Event) :
    ∃ events, (scan_consumers env session log).log = log ++ events ∧
      (∀ e ∈ events, ∃ consumer ∈ domain_consumers session, ∃ socket ∈ consumer.socks,
        ∃ (ret : Int) (status : consumer_trace_chunk_exists_status),
          e = Event.chunk_exists socket (relayd_id consumer) session.id
            session.chunk_being_archived ret status) ∧
      (∀ e ∈ events.dropLast, e.answers_unknown = true) := by
  have hust : ∃ events, (scan_ust_consumers env session log).log = log ++ events ∧
      (∀ e ∈ events, ∃ consumer ∈ domain_consumers session, ∃ socket ∈ consumer.socks,
        ∃ (ret : Int) (status : consumer_trace_chunk_exists_status),
          e = Event.chunk_exists socket (relayd_id consumer) session.id
            session.chunk_being_archived ret status) ∧
      (∀ e ∈ events.dropLast, e.answers_unknown = true) ∧
      ((scan_ust_consumers env session log).ret = 0 →
        (scan_ust_consumers env session log).chunk_exists_on_peer = false →
        ∀ e ∈ events, e.answers_unknown = true) := by
    unfold scan_ust_consumers
    cases h : session.ust_session with
    | none =>
      refine ⟨[], by simp, ?_, ?_, ?_⟩
      · intro e he
        exact absurd he (List.not_mem_nil e)
      · intro e he
        simp at he
      · intro _ _ e he
        exact absurd he (List.not_mem_nil e)
    | some ust_session =>
      obtain ⟨events, hlog, hrouted, hlast, hall⟩ := scan_consumer_sockets_events env session
        ust_session.consumer ust_session.consumer.socks log
      refine ⟨events, hlog, ?_, hlast, hall⟩
      intro e he
      exact ⟨ust_session.consumer, by simp [domain_consumers, h], hrouted e he⟩
  have hkernel : ∀ l : List Event,
      ∃ events, (scan_kernel_consumers env session l).log = l ++ events ∧
      (∀ e ∈ events, ∃ consumer ∈ domain_consumers session, ∃ socket ∈ consumer.socks,
        ∃ (ret : Int) (status : consumer_trace_chunk_exists_status),
          e = Event.chunk_exists socket (relayd_id consumer) session.id
            session.chunk_being_archived ret status) ∧
      (∀ e ∈ events.dropLast, e.answers_unknown = true) := by
    intro l
    unfold scan_kernel_consumers
    cases h : session.kernel_session with
    | none =>
      refine ⟨[], by simp, ?_, ?_⟩
      · intro e he
        exact absurd he (List.not_mem_nil e)
      · intro e he
        simp at he
    | some kernel_session =>
      obtain ⟨events, hlog, hrouted, hlast, _⟩ := scan_consumer_sockets_events env session
        kernel_session.consumer kernel_session.consumer.socks l
      refine ⟨events, hlog, ?_, hlast⟩
      intro e he
      exact ⟨kernel_session.consumer, by simp [domain_consumers, h], hrouted e he⟩
  obtain ⟨first, hlog1, hrouted1, hlast1, hall1⟩ := hust
  unfold scan_consumers
  simp only []
  by_cases hstop : (scan_ust_consumers env session log).ret ≠ 0 ∨
      (scan_ust_consumers env session log).chunk_exists_on_peer = true
  · rw [if_pos hstop]
    exact ⟨first, hlog1, hrouted1, hlast1⟩
  · rw [if_neg hstop]
    have hret : (scan_ust_consumers env session log).ret = 0 := by
      by_contra h
      exact hstop (Or.inl h)
    have hexists : (scan_ust_consumers env session log).chunk_exists_on_peer = false := by
      cases h : (scan_ust_consumers env session log).chunk_exists_on_peer
      · rfl
      · exact absurd (Or.inr h) hstop
    obtain ⟨second, hlog2, hrouted2, hlast2⟩ :=
      hkernel (scan_ust_consumers env session log).log
    refine ⟨first ++ second, ?_, ?_, ?_⟩
    · rw [hlog2, hlog1, List.append_assoc]
    · intro e he
      rcases List.mem_append.1 he with he | he
      · exact hrouted1 e he
      · exact hrouted2 e he
    · intro e he
      rcases mem_dropLast_append first second e he with he | he
      · exact hall1 hret hexists e he
      · exact hlast2 e he

/-- The events of the completion checker: each is the query of a socket of the
consumer output of a domain of the session, with the routing identifier of
that output, and each but the last was answered `UNKNOWN_CHUNK`. -/
theorem checker_events_spec (env : Env) (session : ltt_session) (log : List Event) :
    (∀ e ∈ checker_events env session log, ∃ consumer ∈ domain_consumers session,
        ∃ socket ∈ consumer.socks,
        ∃ (ret : Int) (status : consumer_trace_chunk_exists_status),
          e = Event.chunk_exists socket (relayd_id consumer) session.id
            session.chunk_being_archived ret status) ∧
      (∀ e ∈ (checker_events env session log).dropLast, e.answers_unknown = true) := by
  obtain ⟨events, hlog, hrouted, hlast⟩ := scan_consumers_events env session log
  have hevents : checker_events env session log = events := by
    unfold checker_events
    rw [(checker_result env session log).2, hlog, drop_length_append]
  rw [hevents]
  exact ⟨hrouted, hlast⟩

/-- A query answered `UNKNOWN_CHUNK` neither failed nor reports the chunk. -/
theorem answers_unknown_not_decisive {e : Event} (h : e.answers_unknown = true) :
    e.reports_exists = false ∧ e.query_failed = false := by
  cases e <;> simp_all [Event.answers_unknown, Event.reports_exists, Event.query_failed]

/-! ## Lemmas on the course of the drain -/

/-- The value, the record of executed jobs and the log after one turn of the
drain on a job that holds a session. -/
theorem handle_job_of_some (env : Env) (job : rotation_thread_job)
    (rest : List rotation_thread_job) (w : World) (session : Nat)
    (hs : job.session = some session) :
    (handle_job env job rest w).2.executed =
        w.executed ++ [(job, (handle_job env job rest w).1)] ∧
      (handle_job env job rest w).2.log =
        (run_job env job (w.sessions session) w.log).2.2 ++
          [Event.session_put job.session] := by
  unfold handle_job
  rw [hs]
  exact ⟨rfl, rfl⟩

/-- A turn of the drain on a job without a session returns 0 and executes
nothing. -/
theorem handle_job_of_none (env : Env) (job : rotation_thread_job)
    (rest : List rotation_thread_job) (w : World) (hs : job.session = none) :
    (handle_job env job rest w).1 = 0 ∧
      (handle_job env job rest w).2.executed = w.executed := by
  unfold handle_job
  rw [hs]
  exact ⟨rfl, rfl⟩

/-- The course of the loop of the drain: the jobs it handled are a prefix of
the queue, the rest staying queued in order; the jobs it executed are the
handled jobs that hold a session; every executed job but the last returned 0;
and when the loop returns a non-zero value, that value is the one of the last
executed job, which is the last handled job, and the last event of the log is
the release of the reference of that job. -/
theorem handle_job_queue_loop_course (env : Env) (jobs : List rotation_thread_job) :
    ∀ w : World, ∃ (handled : List rotation_thread_job)
      (entries : List (rotation_thread_job × Int)),
      jobs = handled ++ (handle_job_queue_loop env jobs w).2.queue.list ∧
      (handle_job_queue_loop env jobs w).2.executed = w.executed ++ entries ∧
      entries.map Prod.fst = handled.filter (fun job => job.session.isSome) ∧
      ((handle_job_queue_loop env jobs w).1 = 0 → ∀ entry ∈ entries, entry.2 = 0) ∧
      ((handle_job_queue_loop env jobs w).1 ≠ 0 →
        ∃ (done : List rotation_thread_job) (job : rotation_thread_job)
          (earlier : List (rotation_thread_job × Int)) (events : List Event),
          handled = done ++ [job] ∧
          entries = earlier ++ [(job, (handle_job_queue_loop env jobs w).1)] ∧
          (∀ entry ∈ earlier, entry.2 = 0) ∧
          (handle_job_queue_loop env jobs w).2.log =
            events ++ [Event.session_put job.session]) := by
  induction jobs with
  | nil =>
    intro w
    refine ⟨[], [], rfl, by simp [handle_job_queue_loop], rfl, ?_, ?_⟩
    · intro _ entry he
      exact absurd he (List.not_mem_nil entry)
    · intro h
      exact absurd rfl h
  | cons job rest ih =>
    intro w
    unfold handle_job_queue_loop
    simp only []
    by_cases hret : (handle_job env job rest w).1 = 0
    · rw [if_neg (not_not.mpr hret)]
      obtain ⟨handled, entries, hqueue, hexecuted, hmap, hzero, hfatal⟩ :=
        ih (handle_job env job rest w).2
      cases hs : job.session with
      | none =>
        refine ⟨job :: handled, entries, ?_, ?_, ?_, hzero, ?_⟩
        · rw [List.cons_append, ← hqueue]
        · rw [hexecuted, (handle_job_of_none env job rest w hs).2]
        · rw [hmap, List.filter_cons_of_neg (by simp [hs])]
        · intro h
          obtain ⟨done, last, earlier, events, hhandled, hentries, hearlier, hlog⟩ := hfatal h
          exact ⟨job :: done, last, earlier, events, by rw [hhandled, List.cons_append],
            hentries, hearlier, hlog⟩
      | some session =>
        have hjob := (handle_job_of_some env job rest w session hs).1
        rw [hret] at hjob
        refine ⟨job :: handled, (job, 0) :: entries, ?_, ?_, ?_, ?_, ?_⟩
        · rw [List.cons_append, ← hqueue]
        · rw [hexecuted, hjob, List.append_assoc, List.singleton_append]
        · rw [List.map_cons, hmap, List.filter_cons_of_pos (by simp [hs])]
        · intro h entry he
          rcases List.mem_cons.1 he with rfl | he
          · rfl
          · exact hzero h entry he
        · intro h
          obtain ⟨done, last, earlier, events, hhandled, hentries, hearlier, hlog⟩ := hfatal h
          refine ⟨job :: done, last, (job, 0) :: earlier, events,
            by rw [hhandled, List.cons_append], by rw [hentries, List.cons_append], ?_, hlog⟩
          intro entry he
          rcases List.mem_cons.1 he with rfl | he
          · rfl
          · exact hearlier entry he
    · rw [if_pos hret]
      cases hs : job.session with
      | none => exact absurd (handle_job_of_none env job rest w hs).1 hret
      | some session =>
        have hjob := handle_job_of_some env job rest w session hs
        refine ⟨[job], [(job, (handle_job env job rest w).1)], ?_, hjob.1, ?_, ?_, ?_⟩
        · rw [handle_job_list]
          rfl
        · rw [List.map_cons, List.map_nil, List.filter_cons_of_pos (by simp [hs])]
          rfl
        · intro h
          exact absurd h hret
        · intro _
          refine ⟨[], job, [], (run_job env job (w.sessions session) w.log).2.2, rfl, rfl,
            ?_, hjob.2⟩
          intro entry he
          exact absurd he (List.not_mem_nil entry)

/-- The tail `check_ongoing_rotation` is entered with a non-zero value only
when the stop of the timer failed, the session being then as on entry. -/
theorem check_tail_ret (env : Env) (session : ltt_session) (log : List Event)
    (hchunk : session.chunk_being_archived ≠ none) :
    ∃ (ret : Int) (at_label : ltt_session) (before : List Event),
      check_session_rotation_pending env session log =
        check_ongoing_rotation env ret at_label (log ++ before) ∧
      (∀ e ∈ before, e.is_timer_start = false) ∧
      (ret ≠ 0 → at_label = session) := by
  rcases check_cases env session log hchunk with ⟨_, hcheck⟩ | ⟨_, scanned, hscan, h⟩
  · exact ⟨_, session, [_], hcheck, by simp [Event.is_timer_start], fun _ => rfl⟩
  · have hbefore : ∀ e ∈ Event.timer_stop session.id 0 :: scanned,
        e.is_timer_start = false := by
      intro e he
      rcases List.mem_cons.1 he with rfl | he
      · rfl
      · exact (is_query_not_completed (hscan.queries e he)).2
    have hlog : (scan_consumers env session (log ++ [Event.timer_stop session.id 0])).log =
        log ++ Event.timer_stop session.id 0 :: scanned := by
      rw [hscan.log_eq]
      simp
    rcases h with ⟨_, hcheck⟩ | ⟨_, _, hcheck⟩ | ⟨_, _, hstate, hcheck⟩ | ⟨_, _, _, hcheck⟩
    · refine ⟨0, session_reset_rotation_state session lttng_rotation_state.ERROR,
        Event.timer_stop session.id 0 :: scanned, ?_, hbefore, fun h => absurd rfl h⟩
      rw [hcheck, hlog, check_ongoing_rotation_of_not_ongoing]
      simp [session_reset_rotation_state]
    · exact ⟨0, session, Event.timer_stop session.id 0 :: scanned, by rw [hcheck, hlog],
        hbefore, fun _ => rfl⟩
    · refine ⟨0, session, Event.timer_stop session.id 0 :: scanned, ?_, hbefore, fun _ => rfl⟩
      rw [hcheck, hlog, check_ongoing_rotation_of_not_ongoing]
      rw [hstate]
      decide
    · obtain ⟨events, hevents, hno_start⟩ := complete_rotation_no_timer_start env session
        (scan_consumers env session (log ++ [Event.timer_stop session.id 0])).log
      refine ⟨0, (complete_rotation env session
        (scan_consumers env session (log ++ [Event.timer_stop session.id 0])).log).1,
        Event.timer_stop session.id 0 :: (scanned ++ events), ?_, ?_, fun h => absurd rfl h⟩
      · rw [hcheck, check_ongoing_rotation_of_not_ongoing]
        · have : (complete_rotation env session
              (scan_consumers env session (log ++ [Event.timer_stop session.id 0])).log).2 =
              log ++ Event.timer_stop session.id 0 :: (scanned ++ events) := by
            rw [hevents, hlog]
            simp
          rw [← this]
        · rw [(complete_rotation_state env session _).1]
          decide
      · intro e he
        rcases List.mem_cons.1 he with rfl | he
        · rfl
        · rcases List.mem_append.1 he with he | he
          · exact (is_query_not_completed (hscan.queries e he)).2
          · exact hno_start e he

/-! ## Lemmas on the locks of the drain -/

/-- The discipline of a sequence of steps followed by another. -/
theorem lock_discipline_append (first second : List lock_op) :
    ∀ held : held_locks,
      lock_discipline held (first ++ second) =
        (lock_discipline held first).bind fun next => lock_discipline next second := by
  induction first with
  | nil =>
    intro held
    rfl
  | cons op ops ih =>
    intro held
    simp only [List.cons_append, lock_discipline]
    cases held.step op with
    | none => rfl
    | some next => exact ih next

/-- One turn of the loop, started without any lock, keeps the discipline and
ends without any lock. -/
theorem lock_discipline_handle_job (job : rotation_thread_job) :
    lock_discipline no_locks (handle_job_steps job) = some no_locks := by
  unfold handle_job_steps
  cases hs : job.session with
  | none => rfl
  | some session => simp [lock_discipline, held_locks.step, no_locks, hs]

/-- The jobs that the steps of the drain run are the jobs that the drain
executes, in order. -/
theorem handle_job_queue_steps_ran (env : Env) (jobs : List rotation_thread_job) :
    ∀ w : World, ∃ entries : List (rotation_thread_job × Int),
      (handle_job_queue_loop env jobs w).2.executed = w.executed ++ entries ∧
      (handle_job_queue_steps env jobs w).filterMap lock_op.ran = entries.map Prod.fst := by
  induction jobs with
  | nil =>
    intro w
    exact ⟨[], by simp [handle_job_queue_loop], rfl⟩
  | cons job rest ih =>
    intro w
    have hturn : (handle_job_steps job).filterMap lock_op.ran =
        (match job.session with
          | none => []
          | some _ => [(job, (handle_job env job rest w).1)]).map Prod.fst := by
      unfold handle_job_steps
      cases job.session <;> rfl
    unfold handle_job_queue_loop handle_job_queue_steps
    simp only []
    by_cases hret : (handle_job env job rest w).1 ≠ 0
    · rw [if_pos hret, if_pos hret, List.append_nil]
      exact ⟨_, handle_job_executed env job rest w, hturn⟩
    · rw [if_neg hret, if_neg hret]
      obtain ⟨entries, hexecuted, hran⟩ := ih (handle_job env job rest w).2
      refine ⟨(match job.session with
        | none => []
        | some _ => [(job, (handle_job env job rest w).1)]) ++ entries, ?_, ?_⟩
      · rw [hexecuted, handle_job_executed, List.append_assoc]
      · rw [List.filterMap_append, hturn, hran, List.map_append]

/-! ## Lemmas on the decoder of UST fields -/

/-- The decoding of a well-formed array of three entries: a variant that
declares two choices, followed by the two integers that are its choices. -/
theorem decoding_of_a_variant :
    create_trace_fields_from_ust_ctl_fields plain_attributes
        (followed_by (variant_field 2) integer_field) 3 5 =
      decoded.ok
        [("field", lst_type.variant_type 0 "tag"
          [("field", lst_type.integer_type 8 byte_order.LITTLE_ENDIAN_ 32 signedness.UNSIGNED
              base.DECIMAL),
            ("field", lst_type.integer_type 8 byte_order.LITTLE_ENDIAN_ 32 signedness.UNSIGNED
              base.DECIMAL)])]
        { next_ust_ctl_field := 3, reads := [0, 0, 0, 1, 1, 1, 2, 2, 2] } := by
  rfl

/-- A turn of the loop of the decoder on a variant that declares no choice: the
field is decoded and `*next_ust_ctl_field` is left at the position of the
variant. -/
theorem zero_choice_turn (attributes : session_attributes) (beyond : lttng_ust_ctl_field)
    (depth : Nat) (reads : List Nat) :
    create_field_from_ust_ctl_fields
        (create_type_from_ust_ctl_fields attributes (followed_by (variant_field 0) beyond) 1
          (depth + 1))
        (followed_by (variant_field 0) beyond) 1 0
        { next_ust_ctl_field := 0, reads := reads } =
      decoded.ok [("field", lst_type.variant_type 0 "tag" [])]
        { next_ust_ctl_field := 0, reads := reads ++ [0] ++ [0] ++ [0] } := by
  rfl

/-- The loop of the decoder on a variant that declares no choice uses up any
number of turns. -/
theorem zero_choice_loop (attributes : session_attributes) (beyond : lttng_ust_ctl_field)
    (depth : Nat) :
    ∀ (fuel : Nat) (decoded_fields : List lst_field) (reads : List Nat),
      (create_fields_loop attributes (followed_by (variant_field 0) beyond) 1 depth fuel 0
        decoded_fields reads).error = some decode_error.out_of_fuel := by
  intro fuel
  induction fuel with
  | zero =>
    intro decoded_fields reads
    rfl
  | succ fuel ih =>
    intro decoded_fields reads
    cases depth with
    | zero => rfl
    | succ depth =>
      unfold create_fields_loop
      rw [if_pos (by decide), zero_choice_turn]
      exact ih _ _

/-! ## Theorems -/

/-- C1: starting from an empty job queue, after every finite sequence of
`rotation_thread_enqueue_job` and `handle_job_queue` calls, whatever the
collaborators answer, the queue holds no two jobs with the same session and the
same job type.  The sequence may also hold single turns of the drain, with
enqueues between them. -/
theorem queue_deduplication_invariant (env : Env) (ops : List Op) (w : World)
    (hempty : w.queue.list = []) :
    no_duplicate_jobs (run_ops env ops w).queue := by
  apply run_ops_no_duplicate
  unfold no_duplicate_jobs
  rw [hempty]
  exact List.Pairwise.nil

/-- Witness of C1: two enqueues of the same job, an enqueue of another job, a
turn of the drain, an enqueue and a drain, from the empty world. -/
theorem queue_deduplication_invariant_witness :
    empty_world.queue.list = [] ∧
    no_duplicate_jobs (run_ops calm_env
      [Op.enqueue rotation_thread_job_type.CHECK_PENDING_ROTATION 1,
       Op.enqueue rotation_thread_job_type.CHECK_PENDING_ROTATION 1,
       Op.enqueue rotation_thread_job_type.SCHEDULED_ROTATION 1,
       Op.turn,
       Op.enqueue rotation_thread_job_type.CHECK_PENDING_ROTATION 1,
       Op.drain] empty_world).queue :=
  ⟨rfl, queue_deduplication_invariant calm_env _ empty_world rfl⟩

/-- C2 (amended): when the queue already holds a job with the same session and
job type, `rotation_thread_enqueue_job` changes nothing: queue contents,
reference counts and wake-up pipe are as before.  Consequently, when the
allocation of the job succeeds, enqueuing `(S, CHECK_PENDING_ROTATION)` twice
on an empty queue leaves exactly one queued job, exactly one more reference on
`S`, and the next drain executes that job exactly once. -/
theorem idempotent_enqueue (env : Env) (job_type : rotation_thread_job_type) (session : Nat)
    (w : World)
    (hpending : ∃ job ∈ w.queue.list, job.session = some session ∧ job.type = job_type)
    (w0 : World) (hempty : w0.queue.list = []) (halloc : env.zmalloc w0.log = true) :
    rotation_thread_enqueue_job env job_type session w = w ∧
    rotation_thread_enqueue_job env rotation_thread_job_type.CHECK_PENDING_ROTATION session
        (rotation_thread_enqueue_job env rotation_thread_job_type.CHECK_PENDING_ROTATION
          session w0) =
      rotation_thread_enqueue_job env rotation_thread_job_type.CHECK_PENDING_ROTATION
        session w0 ∧
    (rotation_thread_enqueue_job env rotation_thread_job_type.CHECK_PENDING_ROTATION session
        (rotation_thread_enqueue_job env rotation_thread_job_type.CHECK_PENDING_ROTATION
          session w0)).queue.list =
      [rotation_thread_job.mk rotation_thread_job_type.CHECK_PENDING_ROTATION (some session)] ∧
    (rotation_thread_enqueue_job env rotation_thread_job_type.CHECK_PENDING_ROTATION session
        (rotation_thread_enqueue_job env rotation_thread_job_type.CHECK_PENDING_ROTATION
          session w0)).refs session = w0.refs session + 1 ∧
    ∃ ret, (handle_job_queue env
        (rotation_thread_enqueue_job env rotation_thread_job_type.CHECK_PENDING_ROTATION session
          (rotation_thread_enqueue_job env rotation_thread_job_type.CHECK_PENDING_ROTATION
            session w0))).2.executed =
      w0.executed ++
        [(rotation_thread_job.mk rotation_thread_job_type.CHECK_PENDING_ROTATION (some session),
          ret)] := by
  have hnew : ∀ job ∈ w0.queue.list,
      ¬ (job.session = some session ∧
        job.type = rotation_thread_job_type.CHECK_PENDING_ROTATION) := by
    rw [hempty]
    intro job hjob
    exact absurd hjob (List.not_mem_nil job)
  have honce := enqueue_of_new env rotation_thread_job_type.CHECK_PENDING_ROTATION session
    w0 hnew halloc
  have hlist : (rotation_thread_enqueue_job env
      rotation_thread_job_type.CHECK_PENDING_ROTATION session w0).queue.list =
      [rotation_thread_job.mk rotation_thread_job_type.CHECK_PENDING_ROTATION
        (some session)] := by
    rw [honce, hempty]
    rfl
  have htwice := enqueue_of_pending env rotation_thread_job_type.CHECK_PENDING_ROTATION
    session (rotation_thread_enqueue_job env
      rotation_thread_job_type.CHECK_PENDING_ROTATION session w0)
    ⟨_, by rw [hlist]; exact List.mem_singleton_self _, rfl, rfl⟩
  refine ⟨enqueue_of_pending env job_type session w hpending, htwice, ?_, ?_, ?_⟩
  · rw [htwice, hlist]
  · rw [htwice, honce]
    simp
  · rw [htwice]
    obtain ⟨ret, hret⟩ := handle_job_queue_single env _
      rotation_thread_job_type.CHECK_PENDING_ROTATION session hlist
    refine ⟨ret, ?_⟩
    rw [hret, honce]

/-- Witness of C2: a second enqueue on a queue that holds the job, and two
enqueues on the empty queue. -/
theorem idempotent_enqueue_witness :
    (∃ job ∈ one_job_world.queue.list,
      job.session = some 1 ∧ job.type = rotation_thread_job_type.CHECK_PENDING_ROTATION) ∧
    empty_world.queue.list = [] ∧
    calm_env.zmalloc empty_world.log = true ∧
    rotation_thread_enqueue_job calm_env rotation_thread_job_type.CHECK_PENDING_ROTATION 1
      one_job_world = one_job_world ∧
    (rotation_thread_enqueue_job calm_env rotation_thread_job_type.CHECK_PENDING_ROTATION 1
        (rotation_thread_enqueue_job calm_env rotation_thread_job_type.CHECK_PENDING_ROTATION
          1 empty_world)).queue.list =
      [rotation_thread_job.mk rotation_thread_job_type.CHECK_PENDING_ROTATION (some 1)] :=
  have hpending : ∃ job ∈ one_job_world.queue.list,
      job.session = some 1 ∧ job.type = rotation_thread_job_type.CHECK_PENDING_ROTATION :=
    ⟨_, List.mem_singleton_self _, rfl, rfl⟩
  have h := idempotent_enqueue calm_env rotation_thread_job_type.CHECK_PENDING_ROTATION 1
    one_job_world hpending empty_world rfl rfl
  ⟨hpending, rfl, rfl, h.1, h.2.2.1⟩

/-- Counterexample to C2 as stated: when both allocations fail, two enqueues of
`(1, CHECK_PENDING_ROTATION)` on the empty queue leave no queued job, no
reference on the session, and the next drain executes nothing. -/
theorem idempotent_enqueue_counterexample :
    (rotation_thread_enqueue_job oom_env rotation_thread_job_type.CHECK_PENDING_ROTATION 1
        (rotation_thread_enqueue_job oom_env rotation_thread_job_type.CHECK_PENDING_ROTATION
          1 empty_world)).queue.list = [] ∧
    (rotation_thread_enqueue_job oom_env rotation_thread_job_type.CHECK_PENDING_ROTATION 1
        (rotation_thread_enqueue_job oom_env rotation_thread_job_type.CHECK_PENDING_ROTATION
          1 empty_world)).refs 1 = empty_world.refs 1 ∧
    (handle_job_queue oom_env
      (rotation_thread_enqueue_job oom_env rotation_thread_job_type.CHECK_PENDING_ROTATION 1
        (rotation_thread_enqueue_job oom_env rotation_thread_job_type.CHECK_PENDING_ROTATION
          1 empty_world))).2.executed = [] := by
  decide

/-- C3 (amended): when the queue holds no job with the same session and job
type and the allocation of the job succeeds, `rotation_thread_enqueue_job`
appends exactly one job with that session and type at the tail, the earlier
jobs being unchanged and in the same order, adds exactly one to the reference
count of the session and to no other count, and attempts exactly one write on
the wake-up pipe.  Whatever the outcome of that write (success, pipe
full, other error) the job is queued and the reference held; the function
returns nothing, so no error is propagated. -/
theorem enqueue_new_job (env : Env) (job_type : rotation_thread_job_type) (session : Nat)
    (w : World)
    (hnew : ∀ job ∈ w.queue.list, ¬ (job.session = some session ∧ job.type = job_type))
    (halloc : env.zmalloc w.log = true) :
    (rotation_thread_enqueue_job env job_type session w).queue.list =
      w.queue.list ++ [rotation_thread_job.mk job_type (some session)] ∧
    (rotation_thread_enqueue_job env job_type session w).refs session = w.refs session + 1 ∧
    (∀ other, other ≠ session →
      (rotation_thread_enqueue_job env job_type session w).refs other = w.refs other) ∧
    (∃ outcome : lttng_write_result,
      (rotation_thread_enqueue_job env job_type session w).log =
        w.log ++ [Event.zmalloc true, Event.session_get session, Event.lttng_write outcome] ∧
      (rotation_thread_enqueue_job env job_type session w).queue.event_pipe =
        w.queue.event_pipe + outcome.bytes) ∧
    (rotation_thread_enqueue_job env job_type session w).sessions = w.sessions ∧
    (rotation_thread_enqueue_job env job_type session w).executed = w.executed := by
  rw [enqueue_of_new env job_type session w hnew halloc]
  refine ⟨rfl, by simp, ?_, ⟨_, rfl, rfl⟩, rfl, rfl⟩
  intro other hother
  simp [Function.update, hother]

/-- Witness of C3: a scheduled rotation of session 1 is enqueued behind the
pending check of session 1. -/
theorem enqueue_new_job_witness :
    (∀ job ∈ one_job_world.queue.list,
      ¬ (job.session = some 1 ∧ job.type = rotation_thread_job_type.SCHEDULED_ROTATION)) ∧
    calm_env.zmalloc one_job_world.log = true ∧
    (rotation_thread_enqueue_job calm_env rotation_thread_job_type.SCHEDULED_ROTATION 1
      one_job_world).queue.list =
      one_job_world.queue.list ++
        [rotation_thread_job.mk rotation_thread_job_type.SCHEDULED_ROTATION (some 1)] :=
  ⟨by decide, rfl,
    (enqueue_new_job calm_env rotation_thread_job_type.SCHEDULED_ROTATION 1 one_job_world
      (by decide) rfl).1⟩

/-- Counterexample to C3 as stated: the queue is empty, the allocation of the
job fails, and `rotation_thread_enqueue_job` neither appends a job, nor takes a
reference, nor writes to the wake-up pipe. -/
theorem enqueue_new_job_counterexample :
    (∀ job ∈ empty_world.queue.list,
      ¬ (job.session = some 1 ∧ job.type = rotation_thread_job_type.SCHEDULED_ROTATION)) ∧
    (rotation_thread_enqueue_job oom_env rotation_thread_job_type.SCHEDULED_ROTATION 1
      empty_world).queue.list = [] ∧
    (rotation_thread_enqueue_job oom_env rotation_thread_job_type.SCHEDULED_ROTATION 1
      empty_world).refs 1 = empty_world.refs 1 ∧
    (rotation_thread_enqueue_job oom_env rotation_thread_job_type.SCHEDULED_ROTATION 1
      empty_world).log = [Event.zmalloc false] := by
  decide

/-- C4: for every queue whose jobs hold a session (as every job added by
`rotation_thread_enqueue_job` does), in a drain during which no executed job
returns a non-zero value, `handle_job_queue` executes each queued job exactly
once, in the order of the queue whatever the job types, returns 0 and leaves
the queue empty. -/
theorem fifo_drain (env : Env) (w : World)
    (hsession : ∀ job ∈ w.queue.list, job.session ≠ none)
    (hnofatal : ∀ entry ∈ executed_by_drain env w, entry.2 = 0) :
    (executed_by_drain env w).map Prod.fst = w.queue.list ∧
    (handle_job_queue env w).1 = 0 ∧
    (handle_job_queue env w).2.queue.list = [] := by
  obtain ⟨entries, hexec, hfifo⟩ := handle_job_queue_loop_fifo env w.queue.list w hsession
  have hdrain : executed_by_drain env w = entries := by
    unfold executed_by_drain handle_job_queue
    rw [hexec]
    simp
  rw [hdrain] at hnofatal ⊢
  exact hfifo hnofatal

/-- Witness of C4: the drain of three jobs of both types in a calm
environment. -/
theorem fifo_drain_witness :
    (∀ job ∈ three_jobs_world.queue.list, job.session ≠ none) ∧
    (∀ entry ∈ executed_by_drain calm_env three_jobs_world, entry.2 = 0) ∧
    (executed_by_drain calm_env three_jobs_world).map Prod.fst =
      three_jobs_world.queue.list ∧
    (handle_job_queue calm_env three_jobs_world).1 = 0 ∧
    (handle_job_queue calm_env three_jobs_world).2.queue.list = [] :=
  ⟨by decide, by decide, fifo_drain calm_env three_jobs_world (by decide) (by decide)⟩

/-- C5 (amended): for every sequence of enqueues and drains (and single turns
of a drain) from an empty queue and for every session, the references taken by
the enqueues exceed the references released by the drains by the number of
jobs of that session still queued, in the log of calls and in the reference
count; after a drain that
returns 0 (whether its jobs ran or were discarded, the final shutdown drain
included) the releases equal the increments and the count is back to its
initial value.  Every enqueue takes one reference exactly when it adds a job,
and every turn of the drain releases exactly one reference, that of the job
it removes. -/
theorem reference_balance (env : Env) (ops : List Op) (w : World)
    (hqueue : w.queue.list = []) (hlog : w.log = []) (session : Nat) :
    increments (run_ops env ops w).log session =
      releases (run_ops env ops w).log session +
        jobs_for (run_ops env ops w).queue.list session ∧
    (run_ops env ops w).refs session =
      w.refs session + jobs_for (run_ops env ops w).queue.list session ∧
    ((handle_job_queue env (run_ops env ops w)).1 = 0 →
      increments (handle_job_queue env (run_ops env ops w)).2.log session =
        releases (handle_job_queue env (run_ops env ops w)).2.log session ∧
      (handle_job_queue env (run_ops env ops w)).2.refs session = w.refs session) ∧
    (∀ (job_type : rotation_thread_job_type) (w1 : World),
      increments (rotation_thread_enqueue_job env job_type session w1).log session +
          jobs_for w1.queue.list session =
        increments w1.log session +
          jobs_for (rotation_thread_enqueue_job env job_type session w1).queue.list session) ∧
    (∀ (job : rotation_thread_job) (rest : List rotation_thread_job) (w1 : World),
      releases (handle_job env job rest w1).2.log session =
        releases w1.log session + jobs_for [job] session) := by
  have hstart : balanced w.refs w session := by
    unfold balanced
    rw [hqueue, hlog]
    simp [increments, releases, jobs_for]
  have hrun := run_ops_balanced env w.refs ops session w hstart
  have hdrain := step_balanced env w.refs Op.drain _ session hrun
  refine ⟨hrun.1, hrun.2, ?_, ?_, ?_⟩
  · intro hret
    have hnil := handle_job_queue_loop_empty env _ _ hret
    unfold balanced at hdrain
    simp only [step] at hdrain
    unfold handle_job_queue at hdrain ⊢
    rw [hnil] at hdrain
    simpa [jobs_for] using hdrain
  · intro job_type w1
    exact (enqueue_references env job_type session w1 session).1
  · intro job rest w1
    exact (handle_job_references env job rest w1 session).2.1

/-- Witness of C5: session 1 after two enqueues, a drain and an enqueue for
another session. -/
theorem reference_balance_witness :
    empty_world.queue.list = [] ∧ empty_world.log = [] ∧
    increments (run_ops calm_env
        [Op.enqueue rotation_thread_job_type.CHECK_PENDING_ROTATION 1,
         Op.enqueue rotation_thread_job_type.SCHEDULED_ROTATION 1,
         Op.drain,
         Op.enqueue rotation_thread_job_type.CHECK_PENDING_ROTATION 2] empty_world).log 1 =
      releases (run_ops calm_env
        [Op.enqueue rotation_thread_job_type.CHECK_PENDING_ROTATION 1,
         Op.enqueue rotation_thread_job_type.SCHEDULED_ROTATION 1,
         Op.drain,
         Op.enqueue rotation_thread_job_type.CHECK_PENDING_ROTATION 2] empty_world).log 1 +
      jobs_for (run_ops calm_env
        [Op.enqueue rotation_thread_job_type.CHECK_PENDING_ROTATION 1,
         Op.enqueue rotation_thread_job_type.SCHEDULED_ROTATION 1,
         Op.drain,
         Op.enqueue rotation_thread_job_type.CHECK_PENDING_ROTATION 2]
        empty_world).queue.list 1 :=
  ⟨rfl, rfl, (reference_balance calm_env _ empty_world rfl rfl 1).1⟩

/-- Counterexample to C5 as stated: a pending check of session 1 and a scheduled
rotation of session 2 are enqueued and the queue is drained; the check finds
the chunk on a consumer and cannot start the timer again, so the drain returns
-1 and stops.  One reference was taken on session 2 and none is released: the
job of session 2 is still queued. -/
theorem reference_balance_counterexample :
    (handle_job_queue rearm_failing_env (run_ops rearm_failing_env
      [Op.enqueue rotation_thread_job_type.CHECK_PENDING_ROTATION 1,
       Op.enqueue rotation_thread_job_type.SCHEDULED_ROTATION 2] rotating_world)).1 = -1 ∧
    increments (run_ops rearm_failing_env
      [Op.enqueue rotation_thread_job_type.CHECK_PENDING_ROTATION 1,
       Op.enqueue rotation_thread_job_type.SCHEDULED_ROTATION 2,
       Op.drain] rotating_world).log 2 = 1 ∧
    releases (run_ops rearm_failing_env
      [Op.enqueue rotation_thread_job_type.CHECK_PENDING_ROTATION 1,
       Op.enqueue rotation_thread_job_type.SCHEDULED_ROTATION 2,
       Op.drain] rotating_world).log 2 = 0 ∧
    (run_ops rearm_failing_env
      [Op.enqueue rotation_thread_job_type.CHECK_PENDING_ROTATION 1,
       Op.enqueue rotation_thread_job_type.SCHEDULED_ROTATION 2,
       Op.drain] rotating_world).queue.list =
      [rotation_thread_job.mk rotation_thread_job_type.SCHEDULED_ROTATION (some 2)] := by
  decide

/-- C7: for every session with `chunk_being_archived` set and the rotation
state `ONGOING`, when during `check_session_rotation_pending` a consumer
reports that the chunk still exists, the session is left as it was (rotation
state, `chunk_being_archived` and `last_archived_chunk_name` included), no
rotation-completed event is sent, and the pending-check timer is started
again: the check stops the timer, queries consumers, and ends with a start of
the timer. -/
theorem still_referenced_stays_outstanding (env : Env) (session : ltt_session)
    (log : List Event)
    (hchunk : session.chunk_being_archived ≠ none)
    (hstate : session.rotation_state = lttng_rotation_state.ONGOING)
    (hreport : ∃ e ∈ check_events env session log, e.reports_exists = true) :
    (check_session_rotation_pending env session log).2.1 = session ∧
    (∀ e ∈ check_events env session log, e.is_rotation_completed = false) ∧
    ∃ (queries : List Event) (started : Int),
      check_events env session log =
        Event.timer_stop session.id 0 ::
          (queries ++ [Event.timer_start session.id env.DEFAULT_ROTATE_PENDING_TIMER started]) ∧
      ∀ e ∈ queries, e.is_query = true := by
  obtain ⟨e, he, hr⟩ := hreport
  rcases check_events_cases env session log hchunk with
    ⟨_, hev, _⟩ | ⟨_, scanned, hscan, h⟩
  · rw [hev] at he
    rcases List.mem_cons.1 he with rfl | he
    · exact Bool.noConfusion hr
    · rw [(not_reports_of_not_query (not_query_of_check_ongoing env session _ e he)).1] at hr
      exact Bool.noConfusion hr
  · rcases h with ⟨hret, hev, _, _⟩ | ⟨_, _, hev, hsession⟩ | ⟨_, _, herror, _, _, _⟩ |
      ⟨_, hexists, _, ⟨completion, hev, hnot_query⟩, _, _⟩
    · rw [hev] at he
      rcases List.mem_cons.1 he with rfl | he
      · exact Bool.noConfusion hr
      · exact absurd (hscan.exists_ret (hscan.exists_iff.2 ⟨e, he, hr⟩)) hret
    · have hongoing : check_ongoing_events env session
          (scan_consumers env session (log ++ [Event.timer_stop session.id 0])).log =
          [Event.timer_start session.id env.DEFAULT_ROTATE_PENDING_TIMER
            (env.timer_session_rotation_pending_check_start
              (scan_consumers env session (log ++ [Event.timer_stop session.id 0])).log
              session env.DEFAULT_ROTATE_PENDING_TIMER)] := by
        unfold check_ongoing_events
        rw [if_pos hstate]
      rw [hongoing] at hev
      refine ⟨hsession, ?_, scanned, _, hev, hscan.queries⟩
      intro e' he'
      rw [hev] at he'
      rcases List.mem_cons.1 he' with rfl | he'
      · rfl
      · rcases List.mem_append.1 he' with he' | he'
        · exact (is_query_not_completed (hscan.queries e' he')).1
        · rw [List.mem_singleton] at he'
          subst he'
          rfl
    · rw [hstate] at herror
      exact absurd herror (by decide)
    · rw [hev] at he
      rcases List.mem_cons.1 he with rfl | he
      · exact Bool.noConfusion hr
      · rcases List.mem_append.1 he with he | he
        · rw [scan_spec_no_report hscan hexists e he] at hr
          exact Bool.noConfusion hr
        · rw [(not_reports_of_not_query (hnot_query e he)).1] at hr
          exact Bool.noConfusion hr

/-- Witness of C7: the consumers of the rotating session answer
`[Exists, Absent, Absent]`. -/
theorem still_referenced_stays_outstanding_witness :
    (∃ e ∈ check_events busy_env (rotating_session 1) [], e.reports_exists = true) ∧
    (check_session_rotation_pending busy_env (rotating_session 1) []).2.1 =
      rotating_session 1 ∧
    (∀ e ∈ check_events busy_env (rotating_session 1) [], e.is_rotation_completed = false) :=
  have hreport : ∃ e ∈ check_events busy_env (rotating_session 1) [],
      e.reports_exists = true := by decide
  have h := still_referenced_stays_outstanding busy_env (rotating_session 1) []
    (by decide) rfl hreport
  ⟨hreport, h.1, h.2.1⟩

/-- C8: for every session with a chunk being archived, when a chunk-existence
query to a consumer returns an error during `check_session_rotation_pending`,
then afterwards the rotation state is `ERROR` (so not `COMPLETED`), no
rotation-completed event is sent, the pending-check timer is not started
again, and the function returns 0. -/
theorem query_failure_propagation (env : Env) (session : ltt_session) (log : List Event)
    (hchunk : session.chunk_being_archived ≠ none)
    (hfailed : ∃ e ∈ check_events env session log, e.query_failed = true) :
    (check_session_rotation_pending env session log).1 = 0 ∧
    (check_session_rotation_pending env session log).2.1.rotation_state =
      lttng_rotation_state.ERROR ∧
    (check_session_rotation_pending env session log).2.1.rotation_state ≠
      lttng_rotation_state.COMPLETED ∧
    (∀ e ∈ check_events env session log, e.is_rotation_completed = false) ∧
    (∀ e ∈ check_events env session log, e.is_timer_start = false) := by
  obtain ⟨e, he, hr⟩ := hfailed
  rcases check_events_cases env session log hchunk with
    ⟨_, hev, _⟩ | ⟨_, scanned, hscan, h⟩
  · rw [hev] at he
    rcases List.mem_cons.1 he with rfl | he
    · exact Bool.noConfusion hr
    · rw [(not_reports_of_not_query (not_query_of_check_ongoing env session _ e he)).2] at hr
      exact Bool.noConfusion hr
  · rcases h with ⟨_, hev, hzero, hsession⟩ | ⟨hret, _, hev, _⟩ | ⟨hret, _, _, hev, _, _⟩ |
      ⟨hret, _, _, ⟨completion, hev, hnot_query⟩, _, _⟩
    · have hstate : (check_session_rotation_pending env session log).2.1.rotation_state =
          lttng_rotation_state.ERROR := by rw [hsession]; rfl
      refine ⟨hzero, hstate, by rw [hstate]; decide, ?_, ?_⟩
      · intro e' he'
        rw [hev] at he'
        rcases List.mem_cons.1 he' with rfl | he'
        · rfl
        · exact (is_query_not_completed (hscan.queries e' he')).1
      · intro e' he'
        rw [hev] at he'
        rcases List.mem_cons.1 he' with rfl | he'
        · rfl
        · exact (is_query_not_completed (hscan.queries e' he')).2
    · rw [hev] at he
      rcases List.mem_cons.1 he with rfl | he
      · exact Bool.noConfusion hr
      · rcases List.mem_append.1 he with he | he
        · rw [scan_spec_no_failure hscan hret e he] at hr
          exact Bool.noConfusion hr
        · rw [(not_reports_of_not_query
            (not_query_of_check_ongoing env session _ e he)).2] at hr
          exact Bool.noConfusion hr
    · rw [hev] at he
      rcases List.mem_cons.1 he with rfl | he
      · exact Bool.noConfusion hr
      · rw [scan_spec_no_failure hscan hret e he] at hr
        exact Bool.noConfusion hr
    · rw [hev] at he
      rcases List.mem_cons.1 he with rfl | he
      · exact Bool.noConfusion hr
      · rcases List.mem_append.1 he with he | he
        · rw [scan_spec_no_failure hscan hret e he] at hr
          exact Bool.noConfusion hr
        · rw [(not_reports_of_not_query (hnot_query e he)).2] at hr
          exact Bool.noConfusion hr

/-- Witness of C8: the query on the second consumer of the rotating session
fails. -/
theorem query_failure_propagation_witness :
    (∃ e ∈ check_events broken_env (rotating_session 1) [], e.query_failed = true) ∧
    (check_session_rotation_pending broken_env (rotating_session 1) []).1 = 0 ∧
    (check_session_rotation_pending broken_env (rotating_session 1) []).2.1.rotation_state =
      lttng_rotation_state.ERROR :=
  have hfailed : ∃ e ∈ check_events broken_env (rotating_session 1) [],
      e.query_failed = true := by decide
  have h := query_failure_propagation broken_env (rotating_session 1) [] (by decide) hfailed
  ⟨hfailed, h.1, h.2.1⟩

/-- C9: on a session with a chunk being archived, when no query fails,
`check_session_rotation_pending_on_consumers` reports that the chunk still
exists (`rotation_completed = false`) if and only if a consumer socket of the
user-space or kernel domain of the session reports the chunk; it reports the
chunk absent (`rotation_completed = true`) only when every socket of every
present domain has been queried, in order, and each answered `UNKNOWN_CHUNK`;
a session without any socket is reported absent. -/
theorem completion_checker_result (env : Env) (session : ltt_session) (log : List Event)
    (hchunk : session.chunk_being_archived ≠ none)
    (hnofail : ∀ e ∈ checker_events env session log, e.query_failed = false) :
    ((check_session_rotation_pending_on_consumers env session log).1 = false ↔
      ∃ socket ∈ endpoints session, ∃ e ∈ checker_events env session log,
        e.queried_socket = some socket ∧ e.reports_exists = true) ∧
    ((check_session_rotation_pending_on_consumers env session log).1 = true →
      queried_sockets (checker_events env session log) = endpoints session ∧
      ∀ e ∈ checker_events env session log, e.answers_unknown = true) ∧
    (endpoints session = [] →
      (check_session_rotation_pending_on_consumers env session log).1 = true) := by
  have _ := hchunk
  obtain ⟨scanned, hscan⟩ := scan_consumers_spec env session log
  obtain ⟨hresult, hlog⟩ := checker_result env session log
  have hevents : checker_events env session log = scanned := by
    unfold checker_events
    rw [hlog, hscan.log_eq, drop_length_append]
  rw [hevents] at hnofail ⊢
  rw [hresult]
  have hret : (scan_consumers env session log).ret = 0 := by
    by_contra hne
    obtain ⟨e, he, hf⟩ := hscan.failed_iff.1 hne
    rw [hnofail e he] at hf
    exact Bool.noConfusion hf
  have hiff : (scan_consumers env session log).chunk_exists_on_peer = true ↔
      ∃ socket ∈ endpoints session, ∃ e ∈ scanned,
        e.queried_socket = some socket ∧ e.reports_exists = true := by
    rw [hscan.exists_iff]
    constructor
    · rintro ⟨e, he, hr⟩
      obtain ⟨socket, hsocket⟩ := queried_socket_of_query (hscan.queries e he)
      exact ⟨socket, hscan.in_order.subset (queried_socket_mem he hsocket), e, he, hsocket, hr⟩
    · rintro ⟨_, _, e, he, _, hr⟩
      exact ⟨e, he, hr⟩
  refine ⟨?_, ?_, ?_⟩
  · rw [← hiff]
    cases (scan_consumers env session log).chunk_exists_on_peer <;> simp
  · intro hcompleted
    apply hscan.complete _ hret
    cases hx : (scan_consumers env session log).chunk_exists_on_peer
    · rfl
    · rw [hx] at hcompleted
      exact Bool.noConfusion hcompleted
  · intro hnone
    cases hx : (scan_consumers env session log).chunk_exists_on_peer
    · rfl
    · obtain ⟨socket, hsocket, _⟩ := hiff.1 hx
      rw [hnone] at hsocket
      exact absurd hsocket (List.not_mem_nil socket)

/-- Witness of C9: the checker on the rotating session whose consumers answer
`[Exists, Absent, Absent]`. -/
theorem completion_checker_result_witness :
    (∀ e ∈ checker_events busy_env (rotating_session 1) [], e.query_failed = false) ∧
    (check_session_rotation_pending_on_consumers busy_env (rotating_session 1) []).1 = false ∧
    ∃ socket ∈ endpoints (rotating_session 1),
      ∃ e ∈ checker_events busy_env (rotating_session 1) [],
        e.queried_socket = some socket ∧ e.reports_exists = true :=
  have h := completion_checker_result busy_env (rotating_session 1) [] (by decide)
    (by decide)
  ⟨by decide, rfl, h.1.1 rfl⟩

/-- C10: the pending-check job keeps the rotation state of a session legal:
when, before `check_session_rotation_pending`, a chunk is being archived
exactly if the rotation state is `ONGOING`, the same holds after it, on every
path of the check (no chunk, timer not stopped, chunk still on a consumer,
rotation completed, failed query). -/
theorem state_machine_legality (env : Env) (session : ltt_session) (log : List Event)
    (hlegal : rotation_state_legal session) :
    rotation_state_legal (check_session_rotation_pending env session log).2.1 := by
  cases hc : session.chunk_being_archived with
  | none =>
    rw [check_of_no_chunk env session log hc]
    exact hlegal
  | some chunk =>
    have hchunk : session.chunk_being_archived ≠ none := by rw [hc]; simp
    rcases check_events_cases env session log hchunk with
      ⟨_, _, hsession⟩ | ⟨_, scanned, _, h⟩
    · rw [hsession]
      exact hlegal
    · rcases h with ⟨_, _, _, hsession⟩ | ⟨_, _, _, hsession⟩ | ⟨_, _, _, _, _, hsession⟩ |
        ⟨_, _, _, _, _, hsession⟩
      · rw [hsession]
        unfold rotation_state_legal session_reset_rotation_state
        simp
      · rw [hsession]
        exact hlegal
      · rw [hsession]
        exact hlegal
      · rw [hsession]
        obtain ⟨h1, h2, _⟩ := complete_rotation_state env session
          (scan_consumers env session (log ++ [Event.timer_stop session.id 0])).log
        unfold rotation_state_legal
        rw [h1, h2]
        simp

/-- Witness of C10: the failed query on the rotating session leaves a legal
state (`ERROR`, no chunk being archived). -/
theorem state_machine_legality_witness :
    rotation_state_legal (rotating_session 1) ∧
    rotation_state_legal
      (check_session_rotation_pending broken_env (rotating_session 1) []).2.1 :=
  ⟨by decide, state_machine_legality broken_env (rotating_session 1) [] (by decide)⟩

/-- C15: whatever the rotation command returns (`LTTNG_OK`, a pending rotation,
a rotation after stop, or any other error), `launch_session_rotation` calls it
exactly once, not quiet and with `MOVE_TO_COMPLETED`, and returns 0; so a
`SCHEDULED_ROTATION` job returns 0 and the drain goes on with the jobs behind
it. -/
theorem scheduled_rotation_never_fatal (env : Env) (session : ltt_session)
    (log : List Event) :
    (launch_session_rotation env session log).1 = 0 ∧
    (launch_session_rotation env session log).2.2 =
      log ++ [Event.cmd_rotate_session session.id false
        lttng_trace_chunk_command_type.MOVE_TO_COMPLETED
        (env.cmd_rotate_session log session false
          lttng_trace_chunk_command_type.MOVE_TO_COMPLETED).1] ∧
    (∀ (w : World) (address : Nat) (rest : List rotation_thread_job),
      (handle_job env
        (rotation_thread_job.mk rotation_thread_job_type.SCHEDULED_ROTATION (some address))
        rest w).1 = 0 ∧
      handle_job_queue_loop env
        (rotation_thread_job.mk rotation_thread_job_type.SCHEDULED_ROTATION (some address) ::
          rest) w =
        handle_job_queue_loop env rest
          (handle_job env
            (rotation_thread_job.mk rotation_thread_job_type.SCHEDULED_ROTATION
              (some address)) rest w).2) := by
  refine ⟨rfl, rfl, ?_⟩
  intro w address rest
  have hzero : (handle_job env
      (rotation_thread_job.mk rotation_thread_job_type.SCHEDULED_ROTATION (some address))
      rest w).1 = 0 := by
    rw [handle_job_of_session env _ rest w address rfl]
    rfl
  refine ⟨hzero, ?_⟩
  conv => lhs; unfold handle_job_queue_loop
  simp only [hzero]
  simp

/-- C16: for every session whose `chunk_being_archived` is unset,
`check_session_rotation_pending` returns 0 and does nothing else: the session
is unchanged and no collaborator is called (no timer stopped or started, no
consumer queried, no event sent). -/
theorem pending_check_without_chunk (env : Env) (session : ltt_session) (log : List Event)
    (hchunk : session.chunk_being_archived = none) :
    check_session_rotation_pending env session log = (0, session, log) ∧
    check_events env session log = [] := by
  have h := check_of_no_chunk env session log hchunk
  refine ⟨h, ?_⟩
  unfold check_events
  rw [h]
  simp

/-- Witness of C16: the check of an idle session. -/
theorem pending_check_without_chunk_witness :
    (idle_session 1).chunk_being_archived = none ∧
    check_session_rotation_pending busy_env (idle_session 1) [] = (0, idle_session 1, []) :=
  ⟨rfl, (pending_check_without_chunk busy_env (idle_session 1) [] rfl).1⟩

/-- C17: when the job at the head of the queue is a pending check of a session
with a chunk being archived, `check_session_rotation_pending` starts the
pending-check timer again exactly when the rotation state is `ONGOING` at its
end; when that start fails the check returns a non-zero value, on which
`handle_job_queue` returns at once, leaving the jobs behind in the queue, and
the loop of the thread ends at the label `error`. -/
theorem rearm_rule (env : Env) (w : World) (address : Nat)
    (rest : List rotation_thread_job)
    (hqueue : w.queue.list =
      rotation_thread_job.mk rotation_thread_job_type.CHECK_PENDING_ROTATION (some address) ::
        rest)
    (hchunk : (w.sessions address).chunk_being_archived ≠ none) :
    ((∃ e ∈ check_events env (w.sessions address) w.log, e.is_timer_start = true) ↔
      (check_session_rotation_pending env (w.sessions address) w.log).2.1.rotation_state =
        lttng_rotation_state.ONGOING) ∧
    (∀ (session_id interval : Nat) (started : Int),
      Event.timer_start session_id interval started ∈
        check_events env (w.sessions address) w.log →
      started ≠ 0 →
      (check_session_rotation_pending env (w.sessions address) w.log).1 ≠ 0 ∧
      (handle_job_queue env w).1 =
        (check_session_rotation_pending env (w.sessions address) w.log).1 ∧
      (handle_job_queue env w).2.queue.list = rest ∧
      ∀ (event : poll_event) (more : List poll_event) (polls : List poll_result),
        event.error = false → event.fd ≠ poll_fd.notification_socket →
        (thread_rotation env (poll_result.ready (event :: more) :: polls) w).1 =
          thread_exit.error) := by
  obtain ⟨ret, at_label, before, hcheck, hbefore⟩ :=
    check_tail env (w.sessions address) w.log hchunk
  have hevents : check_events env (w.sessions address) w.log =
      before ++ check_ongoing_events env at_label (w.log ++ before) := by
    unfold check_events
    rw [hcheck, check_ongoing_rotation_log, List.append_assoc, drop_length_append]
  have hsession : (check_session_rotation_pending env (w.sessions address) w.log).2.1 =
      at_label := by
    rw [hcheck, check_ongoing_rotation_session]
  constructor
  · rw [hevents, hsession]
    unfold check_ongoing_events
    constructor
    · rintro ⟨e, he, hstart⟩
      rcases List.mem_append.1 he with he | he
      · rw [hbefore e he] at hstart
        exact Bool.noConfusion hstart
      · by_contra hstate
        rw [if_neg hstate] at he
        exact absurd he (List.not_mem_nil e)
    · intro hstate
      rw [if_pos hstate]
      exact ⟨_, List.mem_append_right _ (List.mem_singleton_self _), rfl⟩
  · intro session_id interval started hmem hfailed
    rw [hevents] at hmem
    have hret : (check_session_rotation_pending env (w.sessions address) w.log).1 ≠ 0 := by
      rcases List.mem_append.1 hmem with hmem | hmem
      · have := hbefore _ hmem
        exact Bool.noConfusion this
      · unfold check_ongoing_events at hmem
        by_cases hstate : at_label.rotation_state = lttng_rotation_state.ONGOING
        · rw [if_pos hstate, List.mem_singleton] at hmem
          injection hmem with _ _ hstarted
          rw [hcheck, check_ongoing_rotation_ret, if_pos hstate, ← hstarted, if_pos hfailed]
          decide
        · rw [if_neg hstate] at hmem
          exact absurd hmem (List.not_mem_nil _)
    have hjob : (handle_job env
        (rotation_thread_job.mk rotation_thread_job_type.CHECK_PENDING_ROTATION (some address))
        rest w).1 =
        (check_session_rotation_pending env (w.sessions address) w.log).1 :=
      handle_job_of_session env _ rest w address rfl
    have hfatal := handle_job_queue_fatal env w _ rest hqueue (by rw [hjob]; exact hret)
    have hdrain : (handle_job_queue env w).1 =
        (check_session_rotation_pending env (w.sessions address) w.log).1 := by
      rw [hfatal.1, hjob]
    refine ⟨hret, hdrain, hfatal.2, ?_⟩
    intro event more polls herror hfd
    rw [thread_rotation_fatal env w event more polls herror hfd (by rw [hdrain]; exact hret)]

/-- Witness of C17: the pending check of the rotating session finds the chunk
on a consumer and cannot start the timer again. -/
theorem rearm_rule_witness :
    Event.timer_start 1 500000 (-1) ∈
      check_events rearm_failing_env (pending_world.sessions 1) pending_world.log ∧
    (handle_job_queue rearm_failing_env pending_world).1 = -1 ∧
    (handle_job_queue rearm_failing_env pending_world).2.queue.list =
      [rotation_thread_job.mk rotation_thread_job_type.SCHEDULED_ROTATION (some 2)] :=
  have hstart : Event.timer_start 1 500000 (-1) ∈
      check_events rearm_failing_env (pending_world.sessions 1) pending_world.log := by
    decide
  have h := (rearm_rule rearm_failing_env pending_world 1 _ rfl (by decide)).2
    1 500000 (-1) hstart (by decide)
  ⟨hstart, h.2.1, h.2.2.1⟩

/-- C18: on a session with a chunk being archived and the rotation state
`ONGOING`, when `check_session_rotation_pending` completes the rotation (the
state becomes `COMPLETED`) it sends exactly one rotation-completed event,
carrying the id of the session, the id of the chunk that was archived and the
location that `session_get_trace_archive_location` gives for the session, if
`quiet_rotation` is false, and sends none if it is true; when the check does
not complete the rotation it sends none. -/
theorem completion_event_iff_not_quiet (env : Env) (session : ltt_session)
    (log : List Event) (chunk : lttng_trace_chunk)
    (hchunk : session.chunk_being_archived = some chunk)
    (hstate : session.rotation_state = lttng_rotation_state.ONGOING) :
    ((check_session_rotation_pending env session log).2.1.rotation_state =
        lttng_rotation_state.COMPLETED →
      ∃ ret : Int,
        (check_events env session log).filter Event.is_rotation_completed =
          if session.quiet_rotation then []
          else [Event.rotation_completed session.id chunk.id
            (env.session_get_trace_archive_location
              (check_session_rotation_pending env session log).2.1) ret]) ∧
    ((check_session_rotation_pending env session log).2.1.rotation_state ≠
        lttng_rotation_state.COMPLETED →
      ∀ e ∈ check_events env session log, e.is_rotation_completed = false) := by
  have hset : session.chunk_being_archived ≠ none := by rw [hchunk]; simp
  rcases check_events_cases env session log hset with
    ⟨_, hev, hsession⟩ | ⟨hstop, scanned, hscan, h⟩
  · rw [hsession, hstate]
    refine ⟨fun h => absurd h (by decide), fun _ e he => ?_⟩
    rw [hev] at he
    rcases List.mem_cons.1 he with rfl | he
    · rfl
    · exact not_completed_of_check_ongoing env session _ e he
  · rcases h with ⟨_, hev, _, hsession⟩ | ⟨_, _, hev, hsession⟩ | ⟨_, _, herror, _, _, _⟩ |
      ⟨hret, hexists, hnot_error, _, _, hsession⟩
    · rw [hsession]
      refine ⟨fun h => absurd h (by simp [session_reset_rotation_state]), fun _ e he => ?_⟩
      rw [hev] at he
      rcases List.mem_cons.1 he with rfl | he
      · rfl
      · exact (is_query_not_completed (hscan.queries e he)).1
    · rw [hsession, hstate]
      refine ⟨fun h => absurd h (by decide), fun _ e he => ?_⟩
      rw [hev] at he
      rcases List.mem_cons.1 he with rfl | he
      · rfl
      · rcases List.mem_append.1 he with he | he
        · exact (is_query_not_completed (hscan.queries e he)).1
        · exact not_completed_of_check_ongoing env session _ e he
    · rw [hstate] at herror
      exact absurd herror (by decide)
    · have hcompleted := (complete_rotation_state env session
        (scan_consumers env session (log ++ [Event.timer_stop session.id 0])).log).1
      constructor
      · intro _
        rw [check_events_of_completed env session log hset hstop hret hexists hnot_error
          scanned hscan]
        refine ⟨env.notification_thread_command_session_rotation_completed
          ((scan_consumers env session (log ++ [Event.timer_stop session.id 0])).log ++
            [Event.strdup (env.strdup (scan_consumers env session
              (log ++ [Event.timer_stop session.id 0])).log)])
          session.id chunk.id (env.session_get_trace_archive_location
            (check_session_rotation_pending env session log).2.1), ?_⟩
        rw [List.filter_cons_of_neg (by simp [Event.is_rotation_completed]),
          List.filter_append, filter_completed_of_queries hscan.queries, List.nil_append,
          List.filter_cons_of_neg (by simp [Event.is_rotation_completed])]
        cases hquiet : session.quiet_rotation
        · have hid : (check_session_rotation_pending env session log).2.1.id = session.id := by
            rw [hsession]; rfl
          have hlast : (check_session_rotation_pending env session log).2.1.last_archived_chunk_id
              = some chunk.id := by
            rw [hsession]
            unfold complete_rotation session_reset_rotation_state
            simp [hchunk]
          simp [rotation_completed_event, Event.is_rotation_completed, hid, hlast]
        · simp
      · intro hne
        rw [hsession] at hne
        exact absurd hcompleted hne

/-- Witness of C18: the rotating session, whose consumers all answer
`UNKNOWN_CHUNK`, completes its rotation and announces chunk 7. -/
theorem completion_event_iff_not_quiet_witness :
    (rotating_session 1).chunk_being_archived =
      some { id := 7, name := "20260101T000000+0000-7" } ∧
    (rotating_session 1).rotation_state = lttng_rotation_state.ONGOING ∧
    (check_session_rotation_pending calm_env (rotating_session 1) []).2.1.rotation_state =
      lttng_rotation_state.COMPLETED ∧
    ∃ ret : Int,
      (check_events calm_env (rotating_session 1) []).filter Event.is_rotation_completed =
        [Event.rotation_completed 1 7 0 ret] :=
  ⟨rfl, rfl, rfl,
    (completion_event_iff_not_quiet calm_env (rotating_session 1) []
      { id := 7, name := "20260101T000000+0000-7" } rfl rfl).1 rfl⟩

/-- C20 (amended): whenever the loop of the thread finds activity on the quit
pipe, it drains the job queue before it leaves.  When the drain returns 0 the
loop ends at the label `exit`, the queue is empty and one reference was
released for every job that was queued.  When a job returns a non-zero value
the drain stops there and the loop ends at once at the label `error`, the jobs
behind still being queued.  In every run, the loop reaches the label `exit`
only with an empty queue. -/
theorem shutdown_drains_before_exit (env : Env) (w : World) (event : poll_event)
    (more : List poll_event) (polls : List poll_result)
    (hquit : event.fd = poll_fd.quit_pipe) (herror : event.error = false) :
    ((handle_job_queue env w).1 = 0 →
      thread_rotation env (poll_result.ready (event :: more) :: polls) w =
        (thread_exit.exit, (handle_job_queue env w).2) ∧
      (handle_job_queue env w).2.queue.list = [] ∧
      ∀ session : Nat,
        releases (handle_job_queue env w).2.log session =
          releases w.log session + jobs_for w.queue.list session) ∧
    ((handle_job_queue env w).1 ≠ 0 →
      thread_rotation env (poll_result.ready (event :: more) :: polls) w =
        (thread_exit.error, (handle_job_queue env w).2)) ∧
    (∀ (script : List poll_result) (start : World),
      (thread_rotation env script start).1 = thread_exit.exit →
      (thread_rotation env script start).2.queue.list = []) := by
  have hthread := thread_rotation_quit env w event more polls hquit herror
  refine ⟨?_, ?_, fun script start => thread_rotation_exit env script start⟩
  · intro hret
    have hempty := handle_job_queue_loop_empty env w.queue.list w hret
    refine ⟨by rw [hthread, if_pos hret], hempty, ?_⟩
    intro session
    have h := (handle_job_queue_loop_references env w.queue.list session w).2.1
    unfold handle_job_queue at hempty ⊢
    rw [hempty] at h
    simpa [jobs_for] using h
  · intro hret
    rw [hthread, if_neg hret]

/-- Witness of C20: shutdown of a thread whose queue holds three jobs, in a
calm environment. -/
theorem shutdown_drains_before_exit_witness :
    (thread_rotation calm_env
      [poll_result.ready [{ fd := poll_fd.quit_pipe, error := false }]] three_jobs_world).1 =
      thread_exit.exit ∧
    (handle_job_queue calm_env three_jobs_world).2.queue.list = [] :=
  have h := (shutdown_drains_before_exit calm_env three_jobs_world
    { fd := poll_fd.quit_pipe, error := false } [] [] rfl rfl).1 (by decide)
  ⟨by rw [h.1], h.2.1⟩

/-- Counterexample to C20 as stated: the thread sees activity on the quit pipe
while the queue holds a pending check of session 1 and a scheduled rotation of
session 2; the check cannot start the timer again, the drain returns -1 and
the loop ends at the label `error`: the job of session 2 is still queued and
its reference is not released. -/
theorem shutdown_drains_before_exit_counterexample :
    (thread_rotation rearm_failing_env
      [poll_result.ready [{ fd := poll_fd.quit_pipe, error := false }]] pending_world).1 =
      thread_exit.error ∧
    (thread_rotation rearm_failing_env
      [poll_result.ready [{ fd := poll_fd.quit_pipe, error := false }]]
      pending_world).2.queue.list =
      [rotation_thread_job.mk rotation_thread_job_type.SCHEDULED_ROTATION (some 2)] ∧
    releases (thread_rotation rearm_failing_env
      [poll_result.ready [{ fd := poll_fd.quit_pipe, error := false }]]
      pending_world).2.log 2 = 0 ∧
    (thread_rotation rearm_failing_env
      [poll_result.ready [{ fd := poll_fd.quit_pipe, error := false }]]
      pending_world).2.refs 2 = 1 := by
  decide

/-- C11: a notification of the consumed size of a session, whose trigger is
not equal to the `rotate_trigger` registered in the session that its name
resolves to, makes `handle_condition` return 0.  The call only looks the
session up, takes its reference and releases it: it does not cancel the
subscription, does not call the rotation command and does not subscribe again.
Every session, every reference count and the queue are as before. -/
theorem foreign_notification_rejection (env : Env) (notification : lttng_notification)
    (w : World) (name : String) (consumed session : Nat)
    (htype : notification.condition_type = lttng_condition_type.SESSION_CONSUMED_SIZE)
    (hname : notification.session_name = some name)
    (hconsumed : notification.consumed_size = some consumed)
    (hfind : env.session_find_by_name w.log name = some session)
    (hforeign : lttng_trigger_is_equal (w.sessions session).rotate_trigger
      notification.trigger = false) :
    (handle_condition env notification w).1 = 0 ∧
      condition_events env notification w =
        [Event.session_find_by_name name (some session), Event.session_get session,
          Event.session_put (some session)] ∧
      (handle_condition env notification w).2.sessions = w.sessions ∧
      (handle_condition env notification w).2.refs = w.refs ∧
      (handle_condition env notification w).2.queue = w.queue := by
  have hfound := handle_condition_of_found env notification w name consumed session htype
    hname hconsumed hfind
  have hlocked : handle_condition_locked env notification consumed (w.sessions session)
      (found_log w name session) = (0, w.sessions session, found_log w name session) := by
    rw [handle_condition_locked_eq, if_pos hforeign]
  refine ⟨?_, ?_, ?_, hfound.2.2.1, hfound.2.1⟩
  · rw [hfound.1, hlocked]
  · rw [condition_events_of_found env notification w name consumed session htype hname
      hconsumed hfind]
    simp [locked_events, hforeign]
  · rw [hfound.2.2.2.1, hlocked]
    simp

/-- Witness of C11: the session is registered with the trigger of the
threshold 100 and the notification comes from another trigger. -/
theorem foreign_notification_rejection_witness :
    (handle_condition calm_env (size_notification 150 7) sized_world).1 = 0 ∧
      condition_events calm_env (size_notification 150 7) sized_world =
        [Event.session_find_by_name trace_name (some 1), Event.session_get 1,
          Event.session_put (some 1)] ∧
      (handle_condition calm_env (size_notification 150 7) sized_world).2.sessions =
        sized_world.sessions ∧
      (handle_condition calm_env (size_notification 150 7) sized_world).2.refs =
        sized_world.refs ∧
      (handle_condition calm_env (size_notification 150 7) sized_world).2.queue =
        sized_world.queue :=
  foreign_notification_rejection calm_env (size_notification 150 7) sized_world trace_name
    150 1 rfl rfl rfl rfl (by decide)

/-- C14: for a notification whose trigger is the one registered in the
session, `handle_condition` first cancels the subscription.  When the
cancellation fails it returns that error, without rotating and without
subscribing.  When it succeeds the rotation command is called once, with
`MOVE_TO_COMPLETED`; a subscription follows if and only if the outcome of the
rotation is `LTTNG_OK`, `-LTTNG_ERR_ROTATION_PENDING`,
`-LTTNG_ERR_ROTATION_MULTIPLE_AFTER_STOP` or
`-LTTNG_ERR_ROTATION_AFTER_STOP_CLEAR`, and the value of the subscription is
then returned; any other outcome makes the call return -1 without subscribing.
The reference of the session is released last. -/
theorem threshold_flow_and_abort (env : Env) (notification : lttng_notification)
    (w : World) (name : String) (consumed session : Nat)
    (htype : notification.condition_type = lttng_condition_type.SESSION_CONSUMED_SIZE)
    (hname : notification.session_name = some name)
    (hconsumed : notification.consumed_size = some consumed)
    (hfind : env.session_find_by_name w.log name = some session)
    (hmatch : lttng_trigger_is_equal (w.sessions session).rotate_trigger
      notification.trigger = true) :
    ∃ (cancelled : Int) (rest : List Event),
      condition_events env notification w =
        [Event.session_find_by_name name (some session), Event.session_get session,
          Event.unsubscribe (w.sessions session).id cancelled] ++ rest ++
          [Event.session_put (some session)] ∧
      (cancelled ≠ 0 → rest = [] ∧ (handle_condition env notification w).1 = cancelled) ∧
      (cancelled = 0 → ∃ (rotating : Nat) (outcome : Int) (after : List Event),
        rest = Event.cmd_rotate_session rotating false
          lttng_trace_chunk_command_type.MOVE_TO_COMPLETED outcome :: after ∧
        ((outcome = env.LTTNG_OK ∨ outcome = -env.LTTNG_ERR_ROTATION_PENDING ∨
            outcome = -env.LTTNG_ERR_ROTATION_MULTIPLE_AFTER_STOP ∨
            outcome = -env.LTTNG_ERR_ROTATION_AFTER_STOP_CLEAR) →
          ∃ (subscriber size : Nat) (resubscribed : Int),
            after = [Event.subscribe subscriber size resubscribed] ∧
            (handle_condition env notification w).1 = resubscribed) ∧
        (¬(outcome = env.LTTNG_OK ∨ outcome = -env.LTTNG_ERR_ROTATION_PENDING ∨
            outcome = -env.LTTNG_ERR_ROTATION_MULTIPLE_AFTER_STOP ∨
            outcome = -env.LTTNG_ERR_ROTATION_AFTER_STOP_CLEAR) →
          after = [] ∧ (handle_condition env notification w).1 = -1)) := by
  have hfound := handle_condition_of_found env notification w name consumed session htype
    hname hconsumed hfind
  have hevents := condition_events_of_found env notification w name consumed session htype
    hname hconsumed hfind
  have hlocked := handle_condition_locked_eq env notification consumed (w.sessions session)
    (found_log w name session)
  have hequal : ¬lttng_trigger_is_equal (w.sessions session).rotate_trigger
      notification.trigger = false := by simp [hmatch]
  rw [if_neg hequal] at hlocked
  unfold locked_events at hevents
  rw [if_neg hequal] at hevents
  by_cases hcancel : (unsubscribed env (w.sessions session) (found_log w name session)).1 = 0
  · rw [if_neg (not_not.mpr hcancel)] at hlocked hevents
    cases hexpected : rotation_outcome_expected env
        (rotated env (w.sessions session) (found_log w name session)).1
    · rw [if_pos hexpected] at hlocked hevents
      have hnot : ¬((rotated env (w.sessions session) (found_log w name session)).1 =
            env.LTTNG_OK ∨
          (rotated env (w.sessions session) (found_log w name session)).1 =
            -env.LTTNG_ERR_ROTATION_PENDING ∨
          (rotated env (w.sessions session) (found_log w name session)).1 =
            -env.LTTNG_ERR_ROTATION_MULTIPLE_AFTER_STOP ∨
          (rotated env (w.sessions session) (found_log w name session)).1 =
            -env.LTTNG_ERR_ROTATION_AFTER_STOP_CLEAR) := by
        rw [← rotation_outcome_expected_iff, hexpected]
        simp
      refine ⟨(unsubscribed env (w.sessions session) (found_log w name session)).1,
        [rotate_event env (w.sessions session) (found_log w name session)], ?_, ?_, ?_⟩
      · rw [hevents]
        simp [unsubscribe_event]
      · intro h
        exact absurd hcancel h
      · intro _
        refine ⟨_, _, [], rfl, ?_, ?_⟩
        · intro h
          exact absurd h hnot
        · intro _
          refine ⟨rfl, ?_⟩
          rw [hfound.1, hlocked]
    · have hne : ¬rotation_outcome_expected env
          (rotated env (w.sessions session) (found_log w name session)).1 = false := by
        simp [hexpected]
      rw [if_neg hne] at hlocked hevents
      refine ⟨(unsubscribed env (w.sessions session) (found_log w name session)).1,
        [rotate_event env (w.sessions session) (found_log w name session),
          subscribe_event env consumed (w.sessions session) (found_log w name session)],
        ?_, ?_, ?_⟩
      · rw [hevents]
        simp [unsubscribe_event]
      · intro h
        exact absurd hcancel h
      · intro _
        refine ⟨_, _, [subscribe_event env consumed (w.sessions session)
          (found_log w name session)], rfl, ?_, ?_⟩
        · intro _
          refine ⟨_, _, _, rfl, ?_⟩
          rw [hfound.1, hlocked]
        · intro h
          exact absurd ((rotation_outcome_expected_iff env _).mp hexpected) h
  · rw [if_pos hcancel] at hlocked hevents
    refine ⟨(unsubscribed env (w.sessions session) (found_log w name session)).1, [],
      ?_, ?_, ?_⟩
    · rw [hevents]
      simp [unsubscribe_event]
    · intro _
      refine ⟨rfl, ?_⟩
      rw [hfound.1, hlocked]
    · intro h
      exact absurd h hcancel

/-- Witness of C14: the notification comes from the registered
trigger of the threshold 100. -/
theorem threshold_flow_and_abort_witness :
    ∃ (cancelled : Int) (rest : List Event),
      condition_events calm_env (size_notification 150 100) sized_world =
        [Event.session_find_by_name trace_name (some 1), Event.session_get 1,
          Event.unsubscribe (sized_world.sessions 1).id cancelled] ++ rest ++
          [Event.session_put (some 1)] ∧
      (cancelled ≠ 0 → rest = [] ∧
        (handle_condition calm_env (size_notification 150 100) sized_world).1 = cancelled) ∧
      (cancelled = 0 → ∃ (rotating : Nat) (outcome : Int) (after : List Event),
        rest = Event.cmd_rotate_session rotating false
          lttng_trace_chunk_command_type.MOVE_TO_COMPLETED outcome :: after ∧
        ((outcome = calm_env.LTTNG_OK ∨ outcome = -calm_env.LTTNG_ERR_ROTATION_PENDING ∨
            outcome = -calm_env.LTTNG_ERR_ROTATION_MULTIPLE_AFTER_STOP ∨
            outcome = -calm_env.LTTNG_ERR_ROTATION_AFTER_STOP_CLEAR) →
          ∃ (subscriber size : Nat) (resubscribed : Int),
            after = [Event.subscribe subscriber size resubscribed] ∧
            (handle_condition calm_env (size_notification 150 100) sized_world).1 =
              resubscribed) ∧
        (¬(outcome = calm_env.LTTNG_OK ∨ outcome = -calm_env.LTTNG_ERR_ROTATION_PENDING ∨
            outcome = -calm_env.LTTNG_ERR_ROTATION_MULTIPLE_AFTER_STOP ∨
            outcome = -calm_env.LTTNG_ERR_ROTATION_AFTER_STOP_CLEAR) →
          after = [] ∧
            (handle_condition calm_env (size_notification 150 100) sized_world).1 = -1)) :=
  threshold_flow_and_abort calm_env (size_notification 150 100) sized_world trace_name
    150 1 rfl rfl rfl rfl (by decide)

/-- C12 (amended): when `handle_condition` handles a notification reporting
the consumed size `c` for a session whose rotation size is `s`, every
subscription it makes is at `(c + s) mod 2^64`.  That size is strictly greater
than `c` exactly when `s` is positive and `c + s` does not exceed 64 bits; when
the sum wraps around, or `s` is 0, the new size is not above `c`. -/
theorem new_threshold_rule (env : Env) (notification : lttng_notification) (w : World)
    (name : String) (c s session : Nat)
    (htype : notification.condition_type = lttng_condition_type.SESSION_CONSUMED_SIZE)
    (hname : notification.session_name = some name)
    (hconsumed : notification.consumed_size = some c)
    (hfind : env.session_find_by_name w.log name = some session)
    (hkeep : keeps_rotate_size env)
    (hsize : (w.sessions session).rotate_size = s)
    (hc : c < 2 ^ 64) (hs : s < 2 ^ 64)
    (subscriber size : Nat) (ret : Int)
    (hsubscribe : Event.subscribe subscriber size ret ∈ condition_events env notification w) :
    size = (c + s) % 2 ^ 64 ∧ (c < size ↔ 0 < s ∧ c + s < 2 ^ 64) := by
  rw [condition_events_of_found env notification w name c session htype hname hconsumed
    hfind] at hsubscribe
  simp only [List.mem_append, List.mem_cons, List.mem_singleton, List.mem_nil_iff,
    reduceCtorEq, or_false, false_or] at hsubscribe
  have hvalue := subscribe_mem_locked_events env hkeep notification c (w.sessions session)
    (found_log w name session) subscriber size ret hsubscribe
  rw [hsize] at hvalue
  unfold new_threshold at hvalue
  refine ⟨hvalue, ?_⟩
  rw [hvalue]
  omega

/-- Witness of C12: the consumed size 150 with the rotation
size 100 gives a subscription at 250. -/
theorem new_threshold_rule_witness :
    Event.subscribe 1 250 0 ∈ condition_events calm_env (size_notification 150 100)
        sized_world ∧
      (250 = (150 + 100) % 2 ^ 64 ∧ (150 < 250 ↔ 0 < 100 ∧ 150 + 100 < 2 ^ 64)) :=
  ⟨by decide,
    new_threshold_rule calm_env (size_notification 150 100) sized_world trace_name 150 100 1
      rfl rfl rfl rfl
      ⟨fun _ _ => rfl, fun _ _ _ _ => rfl, fun _ _ _ => rfl⟩ rfl (by decide) (by decide)
      1 250 0 (by decide)⟩

/-- Counterexample to C12 as stated: with the consumed size `2^64 - 100` and the rotation
size 100 the sum wraps around; `handle_condition` subscribes at 0, which is
below the consumed size. -/
theorem new_threshold_rule_counterexample :
    (handle_condition calm_env (size_notification 18446744073709551516 100) sized_world).1 = 0 ∧
      condition_events calm_env (size_notification 18446744073709551516 100) sized_world =
        [Event.session_find_by_name trace_name (some 1), Event.session_get 1,
          Event.unsubscribe 1 0,
          Event.cmd_rotate_session 1 false lttng_trace_chunk_command_type.MOVE_TO_COMPLETED 10,
          Event.subscribe 1 0 0, Event.session_put (some 1)] ∧
      ¬(18446744073709551516 < 0) ∧
      (sized_world.sessions 1).rotate_size = 100 := by
  decide

/-- C13 (amended): along a list of notifications for one session of rotation
size `s`, each handled by `handle_condition` with a successful subscription, the
size subscribed after each notification is the consumed size that the
notification reports plus `s`, on 64 bits.  When each notification reports
exactly the size subscribed before it, starting from `initial`, and
`initial + N * s` fits in 64 bits, the size subscribed after the k-th
notification is `initial + k * s`.  When each notification reports at least the
size subscribed before it, `s` is positive and no sum exceeds 64 bits, the sizes
`initial`, then those subscribed, are strictly increasing. -/
theorem monotonic_thresholds (env : Env) (notifications : List lttng_notification)
    (w : World) (session s initial : Nat)
    (hkeep : keeps_rotate_size env)
    (hone : ∀ (log : List Event) (name : String) (found : Nat),
      env.session_find_by_name log name = some found → found = session)
    (hsize : (w.sessions session).rotate_size = s)
    (hsuccess : each_resubscribed env notifications w) :
    thresholds env notifications w =
        (consumed_sizes notifications).map (fun c => (c + s) % 2 ^ 64) ∧
      (exact_crossings s initial (consumed_sizes notifications) →
        initial + notifications.length * s < 2 ^ 64 →
        thresholds env notifications w =
          (List.range notifications.length).map fun k => initial + (k + 1) * s) ∧
      (crossings s initial (consumed_sizes notifications) → 0 < s →
        (∀ c ∈ consumed_sizes notifications, c + s < 2 ^ 64) →
        (initial :: thresholds env notifications w).Pairwise fun a b => a < b) := by
  have hsizes := thresholds_eq env hkeep session s hone notifications w hsize hsuccess
  have hlength : (consumed_sizes notifications).length = notifications.length := by
    simp [consumed_sizes]
  refine ⟨hsizes, ?_, ?_⟩
  · intro hexact hbound
    rw [hsizes, ← hlength]
    exact exact_crossings_sizes s _ initial hexact (by rw [hlength]; exact hbound)
  · intro hcross hs hbound
    rw [hsizes]
    exact List.chain_iff_pairwise.mp (crossings_chain s hs _ initial hcross hbound)

/-- Witness of C13: two notifications that report exactly
the sizes 100 and 200 subscribed before them give the sizes 200 and 300. -/
theorem monotonic_thresholds_witness :
    each_resubscribed calm_env [size_notification 100 100, size_notification 200 200]
        sized_world ∧
      thresholds calm_env [size_notification 100 100, size_notification 200 200] sized_world =
        [200, 300] ∧
      thresholds calm_env [size_notification 100 100, size_notification 200 200] sized_world =
        (List.range 2).map fun k => 100 + (k + 1) * 100 :=
  ⟨⟨by decide, by decide, trivial⟩, by decide,
    (monotonic_thresholds calm_env [size_notification 100 100, size_notification 200 200]
      sized_world 1 100 100
      ⟨fun _ _ => rfl, fun _ _ _ _ => rfl, fun _ _ _ => rfl⟩
      (fun _ _ _ h => (Option.some.inj h).symm) rfl
      ⟨by decide, by decide, trivial⟩).2.1 ⟨rfl, rfl, trivial⟩ (by decide)⟩

/-- Counterexample to C13 as stated: the session is subscribed at 100 with the rotation
size 100; one notification reports the consumed size 150 and is handled with a
successful subscription, at 250 and not at `100 + 1 * 100`. -/
theorem monotonic_thresholds_counterexample :
    each_resubscribed calm_env [size_notification 150 100] sized_world ∧
      thresholds calm_env [size_notification 150 100] sized_world = [250] ∧
      (sized_world.sessions 1).rotate_size = 100 ∧
      (sized_world.sessions 1).rotate_trigger = some { id := 100 } ∧
      250 ≠ 100 + 1 * 100 :=
  ⟨⟨by decide, trivial⟩, by decide, rfl, rfl, by decide⟩

/-- C21 (amended): on each readiness event of the notification channel the
loop of the thread calls `handle_notification_channel` once, and that call
tests the channel for a pending notification once and receives at most one
notification, the one it handles; a return value of 0 does not say that the
channel holds no further notification: each later readiness event handles at
most one more. -/
theorem notification_drain (env : Env) (w : World) :
    ((notification_events env w).filter Event.is_has_pending).length = 1 ∧
      ((notification_events env w).filter Event.is_get_next).length ≤ 1 ∧
      ∀ more : List poll_event,
        handle_poll_events env
            ({ fd := poll_fd.notification_socket, error := false } :: more) w =
          if (handle_notification_channel env w).1 ≠ 0 then
            (events_outcome.error, (handle_notification_channel env w).2)
          else handle_poll_events env more (handle_notification_channel env w).2 := by
  obtain ⟨rest, hevents, hrest⟩ := notification_events_cases env w
  refine ⟨?_, ?_, ?_⟩
  · rw [hevents]
    rcases hrest with rfl | ⟨next, handled, _, rfl, hhandled⟩
    · rfl
    · have hnone : handled.filter Event.is_has_pending = [] :=
        List.filter_eq_nil_iff.mpr fun e he => by simp [(hhandled e he).1]
      simp [List.filter_cons, Event.is_has_pending, hnone]
  · rw [hevents]
    rcases hrest with rfl | ⟨next, handled, _, rfl, hhandled⟩
    · simp [List.filter_cons, Event.is_get_next]
    · have hnone : handled.filter Event.is_get_next = [] :=
        List.filter_eq_nil_iff.mpr fun e he => by simp [(hhandled e he).2]
      simp [List.filter_cons, Event.is_get_next, hnone]
  · intro more
    simp [handle_poll_events]

/-- Counterexample to C21 as stated: the channel holds two notifications when
its socket becomes ready; `handle_notification_channel` handles the first and
returns 0, the loop goes back to its wait, and a notification is still
pending on the channel. -/
theorem notification_drain_counterexample :
    (handle_notification_channel crowded_env sized_world).1 = 0 ∧
      crowded_env.lttng_notification_channel_has_pending_notification
          (handle_notification_channel crowded_env sized_world).2.log =
        (lttng_notification_channel_status.OK, true) ∧
      thread_rotation crowded_env
          [poll_result.ready [{ fd := poll_fd.notification_socket, error := false }]]
          sized_world =
        (thread_exit.waiting, (handle_notification_channel crowded_env sized_world).2) ∧
      ((notification_events crowded_env sized_world).filter Event.is_get_next).length = 1 := by
  refine ⟨by decide, by decide, rfl, by decide⟩

/-- C22 (amended): in `check_session_rotation_pending` on a session with a
chunk being archived, when the stop of the pending-check timer returns a
non-zero value, the check queries no consumer and skips the completion of the
rotation as well: it goes to the label `check_ongoing_rotation` with the
session unchanged (no chunk name recorded, rotation state and
`chunk_being_archived` as before).  There the timer is started again exactly
when the rotation state is `ONGOING`; the check then returns 0, or -1 when that
start fails; when the state is not `ONGOING` it returns the value of the
stop. -/
theorem already_disarmed_timer_path (env : Env) (session : ltt_session) (log : List Event)
    (hchunk : session.chunk_being_archived ≠ none)
    (hstop : env.timer_session_rotation_pending_check_stop log session ≠ 0) :
    (check_session_rotation_pending env session log).2.1 = session ∧
      check_events env session log =
        Event.timer_stop session.id
            (env.timer_session_rotation_pending_check_stop log session) ::
          check_ongoing_events env session
            (log ++ [Event.timer_stop session.id
              (env.timer_session_rotation_pending_check_stop log session)]) ∧
      (∀ e ∈ check_events env session log, e.is_query = false) ∧
      ((∃ e ∈ check_events env session log, e.is_timer_start = true) ↔
        session.rotation_state = lttng_rotation_state.ONGOING) ∧
      (check_session_rotation_pending env session log).1 =
        if session.rotation_state = lttng_rotation_state.ONGOING then
          if env.timer_session_rotation_pending_check_start
              (log ++ [Event.timer_stop session.id
                (env.timer_session_rotation_pending_check_stop log session)])
              session env.DEFAULT_ROTATE_PENDING_TIMER ≠ 0 then -1 else 0
        else env.timer_session_rotation_pending_check_stop log session := by
  have hcheck := check_of_stop_failed env session log hchunk hstop
  have hevents : check_events env session log =
      Event.timer_stop session.id
          (env.timer_session_rotation_pending_check_stop log session) ::
        check_ongoing_events env session
          (log ++ [Event.timer_stop session.id
            (env.timer_session_rotation_pending_check_stop log session)]) := by
    unfold check_events
    rw [hcheck, check_ongoing_rotation_log, List.append_assoc, drop_length_append]
    rfl
  refine ⟨?_, hevents, ?_, ?_, ?_⟩
  · rw [hcheck, check_ongoing_rotation_session]
  · intro e he
    rw [hevents] at he
    rcases List.mem_cons.1 he with rfl | he
    · rfl
    · exact not_query_of_check_ongoing env session _ e he
  · rw [hevents]
    unfold check_ongoing_events
    constructor
    · rintro ⟨e, he, hstart⟩
      rcases List.mem_cons.1 he with rfl | he
      · exact Bool.noConfusion hstart
      · by_contra hstate
        rw [if_neg hstate] at he
        exact absurd he (List.not_mem_nil e)
    · intro hstate
      rw [if_pos hstate]
      exact ⟨_, List.mem_cons_of_mem _ (List.mem_singleton_self _), rfl⟩
  · rw [hcheck, check_ongoing_rotation_ret]

/-- Witness of C22: the timer of the rotating session cannot be stopped; the
session is left as it was and the timer is started again. -/
theorem already_disarmed_timer_path_witness :
    (check_session_rotation_pending stuck_timer_env (rotating_session 1) []).2.1 =
        rotating_session 1 ∧
      check_events stuck_timer_env (rotating_session 1) [] =
        [Event.timer_stop 1 (-1), Event.timer_start 1 500000 0] :=
  ⟨(already_disarmed_timer_path stuck_timer_env (rotating_session 1) [] (by decide)
      (by decide)).1,
    by decide⟩

/-- Counterexample to C22 as stated: the stop of the timer of the rotating
session returns -1; after the check the rotation state is still `ONGOING`, the
chunk is still being archived and the name of the last archived chunk is the
one of the rotation before. -/
theorem already_disarmed_timer_path_counterexample :
    stuck_timer_env.timer_session_rotation_pending_check_stop [] (rotating_session 1) = -1 ∧
      (check_session_rotation_pending stuck_timer_env (rotating_session 1) []).2.1.rotation_state
        = lttng_rotation_state.ONGOING ∧
      (check_session_rotation_pending stuck_timer_env
        (rotating_session 1) []).2.1.chunk_being_archived =
          some { id := 7, name := "20260101T000000+0000-7" } ∧
      (check_session_rotation_pending stuck_timer_env
        (rotating_session 1) []).2.1.last_archived_chunk_name =
          some "20260101T000000+0000-6" := by
  decide

/-- C23 (amended): whenever a query to a consumer fails,
`check_session_rotation_pending_on_consumers` resets the rotation state of the
session to `ERROR`, which is how the failure reaches its caller; no consumer
having reported the chunk before the failure, it does set
`rotation_completed = true`.  The caller, `check_session_rotation_pending`,
tests the `ERROR` state before it takes the rotation for completed: it returns
0 and leaves the session in the `ERROR` state. -/
theorem query_failure_is_error (env : Env) (session : ltt_session) (log : List Event)
    (hfailed : ∃ e ∈ checker_events env session log, e.query_failed = true) :
    (check_session_rotation_pending_on_consumers env session log).1 = true ∧
      (check_session_rotation_pending_on_consumers env session log).2.1 =
        session_reset_rotation_state session lttng_rotation_state.ERROR ∧
      (check_session_rotation_pending_on_consumers env session log).2.1.rotation_state =
        lttng_rotation_state.ERROR ∧
      (∀ e ∈ checker_events env session log, e.reports_exists = false) ∧
      ∀ before : List Event, session.chunk_being_archived ≠ none →
        env.timer_session_rotation_pending_check_stop before session = 0 →
        log = before ++ [Event.timer_stop session.id 0] →
        check_session_rotation_pending env session before =
          (0, session_reset_rotation_state session lttng_rotation_state.ERROR,
            (check_session_rotation_pending_on_consumers env session log).2.2) := by
  obtain ⟨events, hscan⟩ := scan_consumers_spec env session log
  rw [checker_events_of_scan env session log hscan] at hfailed ⊢
  have hret : (scan_consumers env session log).ret ≠ 0 := hscan.failed_iff.mpr hfailed
  have hexists : (scan_consumers env session log).chunk_exists_on_peer = false := by
    cases h : (scan_consumers env session log).chunk_exists_on_peer
    · rfl
    · exact absurd (hscan.exists_ret h) hret
  have hsession : (check_session_rotation_pending_on_consumers env session log).2.1 =
      session_reset_rotation_state session lttng_rotation_state.ERROR := by
    unfold check_session_rotation_pending_on_consumers
    simp only []
    rw [if_pos hret]
  refine ⟨?_, hsession, ?_, scan_spec_no_report hscan hexists, ?_⟩
  · rw [(checker_result env session log).1, hexists]
    rfl
  · rw [hsession]
    rfl
  · intro before hchunk hstop hlog
    subst hlog
    rw [check_of_query_failed env session before hchunk hstop hret,
      (checker_result env session _).2]

/-- Witness of C23: the query on the second consumer of the rotating session
fails. -/
theorem query_failure_is_error_witness :
    Event.chunk_exists { fd := 4 } (2 ^ 64 - 1) 1 (rotating_session 1).chunk_being_archived
        (-1) consumer_trace_chunk_exists_status.UNKNOWN_CHUNK ∈
        checker_events broken_env (rotating_session 1) [] ∧
      (check_session_rotation_pending_on_consumers broken_env (rotating_session 1) []).1 =
        true ∧
      (check_session_rotation_pending_on_consumers broken_env
        (rotating_session 1) []).2.1.rotation_state = lttng_rotation_state.ERROR :=
  have h := query_failure_is_error broken_env (rotating_session 1) []
    ⟨Event.chunk_exists { fd := 4 } (2 ^ 64 - 1) 1 (rotating_session 1).chunk_being_archived
      (-1) consumer_trace_chunk_exists_status.UNKNOWN_CHUNK, by decide, by decide⟩
  ⟨by decide, h.1, h.2.2.1⟩

/-- Counterexample to C23 as stated: the query on the second consumer of the
rotating session fails, and `check_session_rotation_pending_on_consumers` sets
`rotation_completed` to true. -/
theorem query_failure_is_error_counterexample :
    checker_events broken_env (rotating_session 1) [] =
        [Event.chunk_exists { fd := 3 } (2 ^ 64 - 1) 1 (rotating_session 1).chunk_being_archived
          0 consumer_trace_chunk_exists_status.UNKNOWN_CHUNK,
         Event.chunk_exists { fd := 4 } (2 ^ 64 - 1) 1 (rotating_session 1).chunk_being_archived
          (-1) consumer_trace_chunk_exists_status.UNKNOWN_CHUNK] ∧
      (check_session_rotation_pending_on_consumers broken_env (rotating_session 1) []).1 =
        true := by
  decide

/-- C24 (amended): every query that the completion checker sends goes to a
socket of the consumer output of the user-space or of the kernel domain of the
session, and the routing identifier it passes is `2^64 - 1` when that output
is local and the `net_seq_index` of the output when it is network-addressed.
The identifier of a network-addressed output differs from the local one
provided its `net_seq_index` is not itself `2^64 - 1`: under that condition the
identifier is `2^64 - 1` exactly when the output is local. -/
theorem routing_identifier (env : Env) (session : ltt_session) (log : List Event) :
    ∀ e ∈ checker_events env session log, ∃ consumer ∈ domain_consumers session,
      ∃ socket ∈ consumer.socks,
      ∃ (ret : Int) (status : consumer_trace_chunk_exists_status),
        e = Event.chunk_exists socket (relayd_id consumer) session.id
          session.chunk_being_archived ret status ∧
        (consumer.type = consumer_dst_type.CONSUMER_DST_LOCAL →
          relayd_id consumer = 2 ^ 64 - 1) ∧
        (consumer.type ≠ consumer_dst_type.CONSUMER_DST_LOCAL →
          relayd_id consumer = consumer.net_seq_index) ∧
        (consumer.net_seq_index ≠ 2 ^ 64 - 1 →
          (relayd_id consumer = 2 ^ 64 - 1 ↔
            consumer.type = consumer_dst_type.CONSUMER_DST_LOCAL)) := by
  intro e he
  obtain ⟨consumer, hconsumer, socket, hsocket, ret, status, hevent⟩ :=
    (checker_events_spec env session log).1 e he
  refine ⟨consumer, hconsumer, socket, hsocket, ret, status, hevent, ?_, ?_, ?_⟩
  · intro hlocal
    simp [relayd_id, hlocal]
  · intro hnet
    simp [relayd_id, hnet]
  · intro hindex
    by_cases hlocal : consumer.type = consumer_dst_type.CONSUMER_DST_LOCAL
    · simp [relayd_id, hlocal]
    · have hne : relayd_id consumer ≠ 2 ^ 64 - 1 := by
        unfold relayd_id
        rw [if_neg hlocal]
        exact hindex
      exact ⟨fun h => absurd h hne, fun h => absurd h hlocal⟩

/-- Witness of C24: the query of the kernel consumer of the session
`relayed_session`, whose output is network-addressed with the index 5. -/
theorem routing_identifier_witness :
    ∃ consumer ∈ domain_consumers (relayed_session 1), ∃ socket ∈ consumer.socks,
      ∃ (ret : Int) (status : consumer_trace_chunk_exists_status),
        Event.chunk_exists { fd := 9 } 5 1 (relayed_session 1).chunk_being_archived 0
            consumer_trace_chunk_exists_status.UNKNOWN_CHUNK =
          Event.chunk_exists socket (relayd_id consumer) (relayed_session 1).id
            (relayed_session 1).chunk_being_archived ret status ∧
        (consumer.type = consumer_dst_type.CONSUMER_DST_LOCAL →
          relayd_id consumer = 2 ^ 64 - 1) ∧
        (consumer.type ≠ consumer_dst_type.CONSUMER_DST_LOCAL →
          relayd_id consumer = consumer.net_seq_index) ∧
        (consumer.net_seq_index ≠ 2 ^ 64 - 1 →
          (relayd_id consumer = 2 ^ 64 - 1 ↔
            consumer.type = consumer_dst_type.CONSUMER_DST_LOCAL)) :=
  routing_identifier calm_env (relayed_session 1) []
    (Event.chunk_exists { fd := 9 } 5 1 (relayed_session 1).chunk_being_archived 0
      consumer_trace_chunk_exists_status.UNKNOWN_CHUNK) (by decide)

/-- Counterexample to C24 as stated: the user-space output of the session is
network-addressed and its `net_seq_index` is `2^64 - 1`; its consumer is
queried with the routing identifier `2^64 - 1`, the one of a local output. -/
theorem routing_identifier_counterexample :
    checker_events calm_env (unset_relay_session 1) [] =
        [Event.chunk_exists { fd := 3 } (2 ^ 64 - 1) 1
          (unset_relay_session 1).chunk_being_archived 0
          consumer_trace_chunk_exists_status.UNKNOWN_CHUNK] ∧
      domain_consumers (unset_relay_session 1) =
        [{ type := consumer_dst_type.CONSUMER_DST_NET
           net_seq_index := 2 ^ 64 - 1
           socks := [{ fd := 3 }] }] := by
  decide

/-- C26: `check_session_rotation_pending_on_consumers` only queries consumer
sockets, in the order of the sockets of the user-space domain followed by
those of the kernel domain, each entry of these lists at most once (the
sockets queried are a prefix of that list); and a query that fails or that
reports the chunk is the last one: no socket is queried after it. -/
theorem scan_stops_at_first_decisive (env : Env) (session : ltt_session) (log : List Event) :
    (∀ e ∈ checker_events env session log, e.is_query = true) ∧
      queried_sockets (checker_events env session log) <+: endpoints session ∧
      ∀ (before : List Event) (e : Event) (after : List Event),
        checker_events env session log = before ++ e :: after →
        (e.reports_exists = true ∨ e.query_failed = true) → after = [] := by
  obtain ⟨events, hscan⟩ := scan_consumers_spec env session log
  have hlast := (checker_events_spec env session log).2
  rw [checker_events_of_scan env session log hscan] at hlast ⊢
  refine ⟨hscan.queries, hscan.in_order, ?_⟩
  intro before e after hsplit hdecisive
  by_contra hafter
  have hmem : e ∈ events.dropLast := by
    rw [hsplit, List.dropLast_append_of_ne_nil before (List.cons_ne_nil e after)]
    obtain ⟨head, tail, rfl⟩ := List.exists_cons_of_ne_nil hafter
    rw [List.dropLast_cons₂]
    exact List.mem_append_right _ (List.mem_cons_self _ _)
  have hunknown := answers_unknown_not_decisive (hlast e hmem)
  rcases hdecisive with h | h
  · rw [hunknown.1] at h
    exact Bool.noConfusion h
  · rw [hunknown.2] at h
    exact Bool.noConfusion h

/-- Witness of C26: the first consumer of the rotating session reports the
chunk; it is the only one queried, and the other two sockets are not. -/
theorem scan_stops_at_first_decisive_witness :
    checker_events busy_env (rotating_session 1) [] =
        [Event.chunk_exists { fd := 3 } (2 ^ 64 - 1) 1 (rotating_session 1).chunk_being_archived
          0 (consumer_trace_chunk_exists_status.EXISTS 0)] ∧
      endpoints (rotating_session 1) = [{ fd := 3 }, { fd := 4 }, { fd := 5 }] ∧
      queried_sockets (checker_events busy_env (rotating_session 1) []) <+:
        endpoints (rotating_session 1) :=
  ⟨by decide, by decide,
    (scan_stops_at_first_decisive busy_env (rotating_session 1) []).2.1⟩

/-- C27: in a drain in which an executed job returns a non-zero value, that job
is the last one executed, every job executed before it returned 0, and
`handle_job_queue` returns its value right after the release of its reference
(the last event of the log).  The jobs queued behind it are not executed: they
are the queue after the drain, in their order, and no reference of theirs is
released (the references released are those of the jobs handled, the fatal one
included). -/
theorem fatal_job_stops_drain (env : Env) (w : World)
    (hfatal : ∃ entry ∈ executed_by_drain env w, entry.2 ≠ 0) :
    ∃ (done : List rotation_thread_job) (job : rotation_thread_job)
      (earlier : List (rotation_thread_job × Int)) (events : List Event),
      w.queue.list = done ++ job :: (handle_job_queue env w).2.queue.list ∧
      executed_by_drain env w = earlier ++ [(job, (handle_job_queue env w).1)] ∧
      (∀ entry ∈ earlier, entry.2 = 0) ∧
      (handle_job_queue env w).1 ≠ 0 ∧
      earlier.map Prod.fst ++ [job] =
        (done ++ [job]).filter (fun queued => queued.session.isSome) ∧
      (handle_job_queue env w).2.log = events ++ [Event.session_put job.session] ∧
      ∀ s : Nat,
        releases (handle_job_queue env w).2.log s =
          releases w.log s + jobs_for (done ++ [job]) s ∧
        (handle_job_queue env w).2.refs s + jobs_for (done ++ [job]) s = w.refs s := by
  obtain ⟨handled, entries, hqueue, hexecuted, hmap, hzero, hnonzero⟩ :=
    handle_job_queue_loop_course env w.queue.list w
  have hdrain : executed_by_drain env w = entries := by
    unfold executed_by_drain handle_job_queue
    rw [hexecuted, List.drop_left]
  rw [hdrain] at hfatal
  have hret : (handle_job_queue env w).1 ≠ 0 := by
    intro h
    obtain ⟨entry, hentry, hne⟩ := hfatal
    exact hne (hzero h entry hentry)
  obtain ⟨done, job, earlier, events, hhandled, hentries, hearlier, hlog⟩ := hnonzero hret
  refine ⟨done, job, earlier, events, ?_, ?_, hearlier, hret, ?_, hlog, ?_⟩
  · have h := hqueue
    rw [hhandled, List.append_assoc, List.singleton_append] at h
    exact h
  · rw [hdrain, hentries]
    rfl
  · rw [← hhandled, ← hmap, hentries, List.map_append]
    rfl
  · intro s
    have href := handle_job_queue_loop_references env w.queue.list s w
    have hsplit : jobs_for w.queue.list s =
        jobs_for (done ++ [job]) s +
          jobs_for (handle_job_queue_loop env w.queue.list w).2.queue.list s := by
      conv => lhs; rw [hqueue, hhandled]
      unfold jobs_for
      rw [List.countP_append]
    unfold handle_job_queue
    constructor
    · omega
    · have h := href.2.2
      rw [hsplit] at h
      push_cast at h
      linarith

/-- Witness of C27: the second of three jobs, a pending check that cannot
start the timer again, returns -1; the third job stays queued. -/
theorem fatal_job_stops_drain_witness :
    (handle_job_queue rearm_failing_env late_failure_world).2.queue.list =
        [rotation_thread_job.mk rotation_thread_job_type.SCHEDULED_ROTATION (some 3)] ∧
      ∃ (done : List rotation_thread_job) (job : rotation_thread_job)
        (earlier : List (rotation_thread_job × Int)) (events : List Event),
        late_failure_world.queue.list =
          done ++ job :: (handle_job_queue rearm_failing_env late_failure_world).2.queue.list ∧
        executed_by_drain rearm_failing_env late_failure_world =
          earlier ++ [(job, (handle_job_queue rearm_failing_env late_failure_world).1)] ∧
        (∀ entry ∈ earlier, entry.2 = 0) ∧
        (handle_job_queue rearm_failing_env late_failure_world).1 ≠ 0 ∧
        earlier.map Prod.fst ++ [job] =
          (done ++ [job]).filter (fun queued => queued.session.isSome) ∧
        (handle_job_queue rearm_failing_env late_failure_world).2.log =
          events ++ [Event.session_put job.session] ∧
        ∀ s : Nat,
          releases (handle_job_queue rearm_failing_env late_failure_world).2.log s =
            releases late_failure_world.log s + jobs_for (done ++ [job]) s ∧
          (handle_job_queue rearm_failing_env late_failure_world).2.refs s +
            jobs_for (done ++ [job]) s = late_failure_world.refs s :=
  ⟨by decide,
    fatal_job_stops_drain rearm_failing_env late_failure_world
      ⟨(rotation_thread_job.mk rotation_thread_job_type.CHECK_PENDING_ROTATION (some 1), -1),
        by decide, by decide⟩⟩

/-- C28: for every session on which a chunk is being archived exactly when the
rotation state is `ONGOING`, and for every behaviour of the collaborators,
`check_session_rotation_pending` returns a non-zero value if and only if it
started the pending-check timer again and that start returned a non-zero
value. -/
theorem fatal_only_on_rearm_failure (env : Env) (session : ltt_session) (log : List Event)
    (hlegal : rotation_state_legal session) :
    (check_session_rotation_pending env session log).1 ≠ 0 ↔
      ∃ (session_id interval : Nat) (started : Int),
        Event.timer_start session_id interval started ∈ check_events env session log ∧
        started ≠ 0 := by
  by_cases hchunk : session.chunk_being_archived = none
  · have hcheck := check_of_no_chunk env session log hchunk
    have hevents : check_events env session log = [] := by
      unfold check_events
      rw [hcheck]
      simp
    rw [hcheck, hevents]
    simp
  · obtain ⟨ret, at_label, before, hcheck, hbefore, hret⟩ :=
      check_tail_ret env session log hchunk
    have hevents : check_events env session log =
        before ++ check_ongoing_events env at_label (log ++ before) := by
      unfold check_events
      rw [hcheck, check_ongoing_rotation_log, List.append_assoc, drop_length_append]
    rw [hcheck, check_ongoing_rotation_ret, hevents]
    by_cases hstate : at_label.rotation_state = lttng_rotation_state.ONGOING
    · rw [if_pos hstate]
      unfold check_ongoing_events
      rw [if_pos hstate]
      constructor
      · intro hne
        by_cases hstarted : env.timer_session_rotation_pending_check_start (log ++ before)
            at_label env.DEFAULT_ROTATE_PENDING_TIMER = 0
        · rw [if_neg (not_not.mpr hstarted)] at hne
          exact absurd rfl hne
        · exact ⟨_, _, _, List.mem_append_right _ (List.mem_singleton_self _), hstarted⟩
      · rintro ⟨session_id, interval, started, hmem, hstarted⟩
        rcases List.mem_append.1 hmem with hmem | hmem
        · exact absurd (hbefore _ hmem) (by simp [Event.is_timer_start])
        · rw [List.mem_singleton] at hmem
          injection hmem with _ _ heq
          rw [← heq, if_pos hstarted]
          decide
    · rw [if_neg hstate]
      unfold check_ongoing_events
      rw [if_neg hstate, List.append_nil]
      constructor
      · intro hne
        rw [hret hne] at hstate
        exact absurd (hlegal.mp hchunk) hstate
      · rintro ⟨session_id, interval, started, hmem, _⟩
        exact absurd (hbefore _ hmem) (by simp [Event.is_timer_start])

/-- Witness of C28: the pending check of the rotating session finds the chunk
on a consumer and cannot start the timer again. -/
theorem fatal_only_on_rearm_failure_witness :
    rotation_state_legal (rotating_session 1) ∧
      (check_session_rotation_pending rearm_failing_env (rotating_session 1) []).1 ≠ 0 :=
  ⟨by decide,
    (fatal_only_on_rearm_failure rearm_failing_env (rotating_session 1) []
      (by decide)).mpr ⟨1, 500000, -1, by decide, by decide⟩⟩

/-- C25: in every run of `handle_job_queue`, started without any lock, the
queue lock is held for the removal of a job from the list and for no other
step (so never while a job runs); the lock of a session is taken only while
the session list lock is held; a job runs with the session list lock and the
lock of its session held; no lock of a job is still held when the next job is
removed from the list; and the run ends without any lock.  The jobs run in
these steps are the jobs that the drain executes. -/
theorem lock_discipline_of_drain (env : Env) (w : World) :
    lock_discipline no_locks (handle_job_queue_steps env w.queue.list w) = some no_locks ∧
      (handle_job_queue_steps env w.queue.list w).filterMap lock_op.ran =
        (executed_by_drain env w).map Prod.fst := by
  constructor
  · generalize w.queue.list = jobs
    induction jobs generalizing w with
    | nil => rfl
    | cons job rest ih =>
      unfold handle_job_queue_steps
      rw [lock_discipline_append, lock_discipline_handle_job]
      by_cases hret : (handle_job env job rest w).1 ≠ 0
      · rw [if_pos hret]
        rfl
      · rw [if_neg hret]
        exact ih (handle_job env job rest w).2
  · obtain ⟨entries, hexecuted, hran⟩ := handle_job_queue_steps_ran env w.queue.list w
    unfold executed_by_drain handle_job_queue
    rw [hran, hexecuted, List.drop_left]

/-- C29, at the failing input: the array holds one entry, a variant that
declares zero choices.  Whatever the session attributes and the memory past
the array, the turn of the top-level loop on that entry raises nothing and
leaves the read position at 0, the position of the entry; so
`create_trace_fields_from_ust_ctl_fields` neither raises a protocol error nor
returns: whatever number of turns it is granted, it uses them all. -/
theorem zero_choice_variant_never_advances (attributes : session_attributes)
    (beyond : lttng_ust_ctl_field) :
    (∀ (depth : Nat) (reads : List Nat),
      create_field_from_ust_ctl_fields
          (create_type_from_ust_ctl_fields attributes (followed_by (variant_field 0) beyond) 1
            (depth + 1))
          (followed_by (variant_field 0) beyond) 1 0
          { next_ust_ctl_field := 0, reads := reads } =
        decoded.ok [("field", lst_type.variant_type 0 "tag" [])]
          { next_ust_ctl_field := 0, reads := reads ++ [0] ++ [0] ++ [0] }) ∧
      ∀ fuel : Nat,
        (create_trace_fields_from_ust_ctl_fields attributes
          (followed_by (variant_field 0) beyond) 1 fuel).error =
            some decode_error.out_of_fuel :=
  ⟨zero_choice_turn attributes beyond,
    fun fuel => zero_choice_loop attributes beyond fuel fuel [] []⟩

/-- C30, at the failing inputs: the array holds one entry; the session
attributes and the memory past the array are arbitrary.  When the entry is a
variant that declares one choice, `create_field_from_ust_ctl_fields` is called
with `current = end` and its assertion `current < end` fails.  When the entry
is a nestable array, or a nestable sequence, the entry at index 1, past the
end of the array, is read before the decoding ends on a protocol error. -/
theorem truncated_input_read_past_end (attributes : session_attributes)
    (beyond : lttng_ust_ctl_field) (fuel : Nat) :
    create_trace_fields_from_ust_ctl_fields attributes
        (followed_by (variant_field 1) beyond) 1 (fuel + 2) =
        decoded.raised decode_error.assertion_failed [0, 0, 0] ∧
      create_trace_fields_from_ust_ctl_fields attributes
        (followed_by array_nestable_field beyond) 1 (fuel + 2) =
          decoded.raised decode_error.protocol_error [0, 0, 0, 1] ∧
      (create_trace_fields_from_ust_ctl_fields attributes
        (followed_by sequence_nestable_field beyond) 1 (fuel + 2)).error =
          some decode_error.protocol_error ∧
      (create_trace_fields_from_ust_ctl_fields attributes
        (followed_by sequence_nestable_field beyond) 1 (fuel + 2)).reads.take 4 =
          [0, 0, 0, 1] := by
  obtain ⟨name, atype, u⟩ := beyond
  obtain ⟨integer, float, string_encoding, enum_nestable, array_nestable, sequence_nestable,
    struct_nestable, variant_nestable, legacy_enumeration, legacy_array, legacy_sequence,
    legacy_struct_nr_fields, legacy_variant⟩ := u
  obtain ⟨size, sign, order, radix, text, alignment⟩ := integer
  cases atype <;> cases text <;> exact ⟨rfl, rfl, rfl, rfl⟩

end LttngRotation
